import Mathlib

/-!
# rtm-inversion: per-pixel look-up-table inversion

Shallow embedding of the setup of the tables (lines 126-202) and of the
per-cell body of `main` (lines 231-318) in `src/rtm-inversion.c`, and proofs
about it.

Conventions of the embedding.

* `short` samples are integers (`ℤ`); `SHRT_MIN`, `SHRT_MAX` are the limits of
  the 16-bit type.
* A `float` or `double` value is an `Option ℚ`: `some q` is the finite value
  `q`, `none` stands for a value that is not a finite number (an infinity or a
  NaN).  Arithmetic is IEEE 754 with round to nearest, ties to even, each
  operation evaluated in the type of its operands (`FLT_EVAL_METHOD` 0):
  `to_float` and `to_double` round an exact result to binary32 and binary64,
  `none` on overflow.  The locals `mae` and `min_mae` are `float`, the cells of
  a table are `double`, the output bands are `float`.  A `mae` that is not
  finite never passes the test `mae < min_mae`, and it stays so under the
  additions and the division of the code, so that one value `none` is enough.
* C arrays are index functions; the counts (`nrow`, `ncol`, `nband`) are
  naturals.
* `rand()` is a sequence `rand : ℕ → ℕ`: the call number `k` of the run returns
  `rand k`; the state of the generator is the number of calls made so far.
* `rand() % simulations.nrow` with `nrow = 0` is an integer division by zero:
  the run traps (`Except.error`), recording the number of `rand()` calls made.
* `args.accuracy` is taken finite.
-/

namespace RtmInversion

/-- Smallest value of the C type `short` (`<limits.h>`). -/
def SHRT_MIN : ℤ := -32768

/-- Largest value of the C type `short` (`<limits.h>`). -/
def SHRT_MAX : ℤ := 32767

/-- Largest finite value of the C type `float` (`<float.h>`): `(2 - 2^-23) * 2^127`. -/
def FLT_MAX : ℚ := 2 ^ 128 - 2 ^ 104

/-- Machine epsilon of the C type `float` (`<float.h>`): `2^-23`. -/
def FLT_EPSILON : ℚ := 1 / 2 ^ 23

/-! ### IEEE 754 rounding -/

/-- The integer nearest to `x`, the even one of the two when `x` is half-way. -/
def round_even (x : ℚ) : ℤ :=
  let f := ⌊x⌋
  if x - f < 1 / 2 then f
  else if 1 / 2 < x - f then f + 1
  else if f % 2 = 0 then f else f + 1

/-- Round to nearest, ties to even, into the binary format of precision `p`
bits with exponents `emin .. emax`: the unit in the last place is
`2^(e - (p - 1))` for the exponent `e` of `x` (at least `emin`, which gives the
subnormal numbers), and a rounded magnitude of `2^(emax + 1)` or more overflows
to an infinity (`none`). -/
def fround (p : ℕ) (emin emax : ℤ) (x : ℚ) : Option ℚ :=
  if x = 0 then some 0
  else
    let e := max (Int.log 2 |x|) emin
    let ulp : ℚ := 2 ^ (e - ((p : ℤ) - 1))
    let y : ℚ := (round_even (x / ulp) : ℚ) * ulp
    if |y| < 2 ^ (emax + 1) then some y else none

/-- Rounding to `float` (binary32). -/
def to_float (x : ℚ) : Option ℚ := fround 24 (-126) 127 x

/-- Rounding to `double` (binary64). -/
def to_double (x : ℚ) : Option ℚ := fround 53 (-1022) 1023 x

/-! ### The per-cell body -/

/-- The fields of `table_t` (`src/utils/table.h`) the inversion reads:
`data[i][j]`, a `double`, is `data i j`. -/
structure table_t where
  nrow : ℕ
  ncol : ℕ
  data : ℕ → ℕ → Option ℚ

/-- The fields of `args_t` the per-cell loop reads. -/
structure args_t where
  max_iterations : ℤ
  accuracy : ℚ

/-- The locals `min_mae` and `i_min_mae` of the per-cell body (the best row so
far); the third local, `ctr`, is passed on its own.  `min_mae` is always
finite: it starts at `FLT_MAX` and is only replaced by a smaller value. -/
structure search_t where
  min_mae : ℚ
  i_min_mae : ℤ
deriving DecidableEq

/-- A trap of the run (integer division by zero in `rand() % simulations.nrow`);
`calls` is the number of `rand()` calls made when it happens. -/
structure trap_t where
  calls : ℕ
deriving DecidableEq

/-- Lines 233-236: all `lut.ncol + 1` output bands of the cell are set to `-1.0`. -/
def nodata (ncol : ℕ) : List (Option ℚ) := List.replicate (ncol + 1) (some (-1))

/-- Lines 239-247: `skip` is set when a band of the cell is `SHRT_MIN` or `SHRT_MAX`. -/
def skip (nband : ℕ) (image : ℕ → ℤ) : Bool :=
  (List.range nband).any (fun b => image b == SHRT_MIN || image b == SHRT_MAX)

/-- Lines 265-266 (and 291-292), one band:
`float ref = (float)input.image[b][c]; mae += fabs(ref - simulations.data[i][b]);`.
The sample is exact in `float`; the difference and the sum are formed in
`double` and the sum is converted to the `float` `mae`. -/
def add_abs (mae : Option ℚ) (ref : ℤ) (cell : Option ℚ) : Option ℚ :=
  mae.bind fun m =>
    cell.bind fun d =>
      (to_double ((ref : ℚ) - d)).bind fun diff =>
        (to_double (m + |diff|)).bind to_float

/-- Lines 261-267 (and 286-294): `mae` after the loop over the bands, before the
division. -/
def sum_abs (nband : ℕ) (image : ℕ → ℤ) (row : ℕ → Option ℚ) : Option ℚ :=
  (List.range nband).foldl (fun mae b => add_abs mae (image b) (row b)) (some 0)

/-- Lines 261-269 (and 286-296): `mae` of the cell against row `i` after
`mae /= input.nband`, a `float` division by `(float)nband`; `0.0f / 0` is a
NaN. -/
def mae (simulations : table_t) (nband : ℕ) (image : ℕ → ℤ) (i : ℕ) : Option ℚ :=
  (sum_abs nband image (simulations.data i)).bind fun s =>
    (to_float (nband : ℚ)).bind fun n =>
      if n = 0 then none else to_float (s / n)

/-- Lines 271-274 (and 298-301): `if (mae < min_mae) { min_mae = mae; i_min_mae = i; }`.
The comparison is false for a `mae` that is not finite. -/
def update (s : search_t) (i : ℕ) (m : Option ℚ) : search_t :=
  match m with
  | some v => if v < s.min_mae then ⟨v, (i : ℤ)⟩ else s
  | none => s

/-- Lines 252-253: `min_mae = FLT_MAX; i_min_mae = -1`. -/
def init : search_t := ⟨FLT_MAX, -1⟩

/-- Lines 259-276: the brute-force loop over all rows `i = 0 .. nrow - 1`. -/
def brute_force (simulations : table_t) (nband : ℕ) (image : ℕ → ℤ) (s : search_t) :
    search_t :=
  (List.range simulations.nrow).foldl
    (fun s i => update s i (mae simulations nband image i)) s

/-- Lines 281-305: the early-stop loop
`while (min_mae > args.accuracy && ctr < args.max_iterations)`.
`calls` is the number of `rand()` calls made before the loop test; the result
is the final `(min_mae, i_min_mae)`, `ctr` and number of `rand()` calls. -/
def early_stop (args : args_t) (simulations : table_t) (nband : ℕ) (image : ℕ → ℤ)
    (rand : ℕ → ℕ) (s : search_t) (ctr : ℤ) (calls : ℕ) :
    Except trap_t (search_t × ℤ × ℕ) :=
  if s.min_mae > args.accuracy ∧ ctr < args.max_iterations then
    if simulations.nrow = 0 then Except.error ⟨calls + 1⟩
    else
      let i := rand calls % simulations.nrow
      early_stop args simulations nband image rand
        (update s i (mae simulations nband image i)) (ctr + 1) (calls + 1)
  else Except.ok (s, ctr, calls)
termination_by (args.max_iterations - ctr).toNat
decreasing_by omega

/-- Lines 252-307: the locals are initialised (`ctr = 0`) and one of the two
loops runs, chosen by `args.accuracy <= FLT_EPSILON`. -/
def search (args : args_t) (simulations : table_t) (nband : ℕ) (image : ℕ → ℤ)
    (rand : ℕ → ℕ) (calls : ℕ) : Except trap_t (search_t × ℤ × ℕ) :=
  if args.accuracy ≤ FLT_EPSILON then
    Except.ok (brute_force simulations nband image init, 0, calls)
  else
    early_stop args simulations nband image rand init 0 calls

/-- Lines 311-316: when `i_min_mae >= 0` the first `lut.ncol` bands of the cell
are overwritten with row `i_min_mae` of the LUT, each `double` cell converted
to `float`, and band `lut.ncol` with `min_mae`. -/
def store (lut : table_t) (s : search_t) (inversion : List (Option ℚ)) : List (Option ℚ) :=
  if s.i_min_mae ≥ 0 then
    ((List.range lut.ncol).foldl
      (fun inv o => inv.set o ((lut.data s.i_min_mae.toNat o).bind to_float))
      inversion).set lut.ncol (some s.min_mae)
  else inversion

/-- Lines 231-318, one iteration of the loop over the cells: the output bands
of the cell and the number of `rand()` calls made so far. -/
def main_cell (args : args_t) (lut simulations : table_t) (nband : ℕ) (image : ℕ → ℤ)
    (rand : ℕ → ℕ) (calls : ℕ) : Except trap_t (List (Option ℚ) × ℕ) :=
  if skip nband image then Except.ok (nodata lut.ncol, calls)
  else
    match search args simulations nband image rand calls with
    | Except.ok (s, _, calls1) => Except.ok (store lut s (nodata lut.ncol), calls1)
    | Except.error e => Except.error e

/-! ### Specification-side definitions -/

/-- The error metric in the words of the specification, in exact arithmetic:
`MAE(v, row) = (1/nband) * Σ_b |v[b] - M[row][b]|`. -/
def MAE (nband : ℕ) (v : ℕ → ℤ) (row : ℕ → ℚ) : ℚ :=
  (1 / (nband : ℚ)) * ∑ b in Finset.range nband, |(v b : ℚ) - row b|

/-- A pixel is valid when none of its `nband` values is a sentinel. -/
def valid (nband : ℕ) (v : ℕ → ℤ) : Prop :=
  ∀ b, b < nband → v b ≠ SHRT_MIN ∧ v b ≠ SHRT_MAX

/-- The row drawn by the draw number `j` (from zero) of a cell whose search
starts after `calls` calls of `rand()`: `rand() % simulations.nrow`. -/
def drawn (rand : ℕ → ℕ) (calls nrow : ℕ) (j : ℕ) : ℕ := rand (calls + j) % nrow

/-- The best row after the update rule has been applied to the rows
`idx 0, ..., idx (n - 1)` in this order. -/
def scan (simulations : table_t) (nband : ℕ) (image : ℕ → ℤ) (idx : ℕ → ℕ) (n : ℕ)
    (s : search_t) : search_t :=
  (List.range n).foldl
    (fun s j => update s (idx j) (mae simulations nband image (idx j))) s

/-- The bands written for a match: parameter row `i`, each cell converted to
`float`, followed by the error. -/
def matched (lut : table_t) (i : ℕ) (err : ℚ) : List (Option ℚ) :=
  (List.range lut.ncol).map (fun o => (lut.data i o).bind to_float) ++ [some err]

/-- The row-wise copy in the words of the specification: parameter row `i`
verbatim, followed by the error. -/
def verbatim (lut : table_t) (i : ℕ) (err : ℚ) : List (Option ℚ) :=
  (List.range lut.ncol).map (fun o => lut.data i o) ++ [some err]

/-- The state `s` is what the update rule leaves after the rows
`idx 0, ..., idx (n - 1)`, started from `init`: either no row had an error
below `FLT_MAX` and `s` is still `init`, or `s` holds the first position `j`
whose row attains the least error of all `n` rows. -/
def best_of (simulations : table_t) (nband : ℕ) (image : ℕ → ℤ) (idx : ℕ → ℕ) (n : ℕ)
    (s : search_t) : Prop :=
  (s = init ∧ ∀ j, j < n → ∀ v, mae simulations nband image (idx j) = some v → FLT_MAX ≤ v) ∨
  (∃ j, j < n ∧ s.i_min_mae = (idx j : ℤ) ∧
    mae simulations nband image (idx j) = some s.min_mae ∧ s.min_mae < FLT_MAX ∧
    (∀ k, k < n → ∀ v, mae simulations nband image (idx k) = some v → s.min_mae ≤ v) ∧
    (∀ k, k < j → ∀ v, mae simulations nband image (idx k) = some v → s.min_mae < v))

/-! ### Concrete inputs -/

/-- A table of finite cells. -/
def finite_table (nrow ncol : ℕ) (cells : ℕ → ℕ → ℚ) : table_t :=
  ⟨nrow, ncol, fun i j => some (cells i j)⟩

/-- Scenario A of the specification: observation rows `[100]`, `[900]`. -/
def scenario_cells : ℕ → ℕ → ℚ := fun i _ => if i = 0 then 100 else 900

/-- Scenario A of the specification: the observation table. -/
def scenario_sim : table_t := finite_table 2 1 scenario_cells

/-- Scenario A of the specification: parameter rows `[0.1]`, `[0.9]`, the cells
being the `double` values nearest to `0.1` and `0.9`. -/
def scenario_params : ℕ → ℕ → ℚ :=
  fun i _ => if i = 0 then 3602879701896397 / 2 ^ 55 else 8106479329266893 / 2 ^ 53

/-- Scenario A of the specification: the parameter table. -/
def scenario_lut : table_t := finite_table 2 1 scenario_params

/-- Scenario A of the specification: the one-band pixel `[150]`. -/
def scenario_pixel : ℕ → ℤ := fun _ => 150

/-- Scenario B of the specification: the pixel `[-32768, 500]`. -/
def sentinel_pixel : ℕ → ℤ := fun b => if b = 0 then -32768 else 500

/-- The one-band pixel `[0]`. -/
def zero_pixel : ℕ → ℤ := fun _ => 0

/-- Observation rows `[100 + 2^-30]`, `[100 + 2^-29]`: two `double` values whose
distances to 150 both round to the `float` 50. -/
def close_cells : ℕ → ℕ → ℚ := fun i _ => if i = 0 then 100 + 1 / 2 ^ 30 else 100 + 1 / 2 ^ 29

/-- The two-row observation table of `close_cells`. -/
def close_sim : table_t := finite_table 2 1 close_cells

/-- The one-row observation table `[100 - 2^-30]`. -/
def near_sim : table_t := finite_table 1 1 (fun _ _ => 100 - 1 / 2 ^ 30)

/-- A one-band observation table whose single row holds `2^130`. -/
def huge_sim : table_t := finite_table 1 1 (fun _ _ => 2 ^ 130)

/-- A one-band observation table with two rows `[2^130]`, `[2^130]`. -/
def huge_sim2 : table_t := finite_table 2 1 (fun _ _ => 2 ^ 130)

/-- A one-column parameter table with a row `[0.5]` for each of two rows. -/
def half_lut : table_t := finite_table 2 1 (fun _ _ => 1 / 2)

/-- A table without rows. -/
def empty_table : table_t := finite_table 0 1 (fun _ _ => 0)

/-- The default `args->accuracy = 0.01` (line 64), as the `float` it is stored
in: `0x1.47ae14p-7`. -/
def default_accuracy : ℚ := 5368709 / 2 ^ 29

/-! ### Setup of the tables and of the input (`src/rtm-inversion.c`, lines 126-202) -/

/-- The return code `FAILURE` of `src/utils/const.h`, the exit code of
`usage(argv[0], FAILURE)`. -/
def FAILURE : ℕ := 1

/-- The enumerator `GDT_Int16` of `GDALDataType` (`gdal.h`). -/
def GDT_Int16 : ℕ := 3

/-- What the GDAL calls of lines 155-200 return for the input file: whether
`GDALOpen` gives a dataset, `GDALGetRasterCount`, and for each band
`GDALGetRasterDataType` and whether `GDALRasterIO` succeeds. -/
structure raster_t where
  opened : Bool
  nband : ℕ
  datatype : ℕ → ℕ
  read_ok : ℕ → Bool

/-- Lines 135-137, the loop over the columns of one row:
`simulations.data[i][j] *= 10000` for `j = 0 .. ncol - 1`, a `double` product. -/
def scale_row (ncol : ℕ) (row : ℕ → Option ℚ) : ℕ → Option ℚ :=
  (List.range ncol).foldl
    (fun r j => Function.update r j ((r j).bind fun x => to_double (x * 10000))) row

/-- Lines 134-138, the loop over the rows: every cell of the table is
multiplied by 10000 in place. -/
def scale (simulations : table_t) : table_t :=
  ⟨simulations.nrow, simulations.ncol,
    (List.range simulations.nrow).foldl
      (fun d i => Function.update d i (scale_row simulations.ncol (d i))) simulations.data⟩

/-- Lines 177-202, the loop over the bands of the input: the run goes on when
every band has a data type up to `GDT_Int16` and can be read. -/
def bands_ok (raster : raster_t) : Bool :=
  (List.range raster.nband).all
    (fun b => decide (raster.datatype b ≤ GDT_Int16) && raster.read_ok b)

/-- Lines 129-202, the setup between the loading of the tables and the loop
over the cells.  The run exits with `FAILURE` when the two tables differ in
their number of rows; otherwise the simulations are scaled, and the run exits
with `FAILURE` when the input cannot be opened, when its number of bands is
not the number of columns of the simulations, or when a band has a data type
beyond `GDT_Int16` or cannot be read.  Otherwise the run goes on with the two
tables. -/
def main_setup (lut simulations : table_t) (raster : raster_t) :
    Except ℕ (table_t × table_t) :=
  if lut.nrow ≠ simulations.nrow then Except.error FAILURE
  else if raster.opened = false then Except.error FAILURE
  else if raster.nband ≠ (scale simulations).ncol then Except.error FAILURE
  else if bands_ok raster = false then Except.error FAILURE
  else Except.ok (lut, scale simulations)

/-- Scenario A before the scaling: the simulations file holds `0.01`, `0.09`,
as the nearest `double` values. -/
def scenario_file : table_t :=
  finite_table 2 1
    (fun i _ => if i = 0 then 5764607523034235 / 2 ^ 59 else 6485183463413514 / 2 ^ 56)

/-- A parameter table with three rows `[0.5]`. -/
def three_row_lut : table_t := finite_table 3 1 (fun _ _ => 1 / 2)

/-- A one-band input of type `GDT_Int16` that opens and reads. -/
def good_raster : raster_t := ⟨true, 1, fun _ => 3, fun _ => true⟩

/-- A two-band input of type `GDT_Int16` that opens and reads. -/
def two_band_raster : raster_t := ⟨true, 2, fun _ => 3, fun _ => true⟩

end RtmInversion

/-!
# max-ndvi: maximum-value compositing

Shallow embedding of the per-cell body of `main` in `src/max-ndvi.c`
(lines 187-236).  The `short` samples are integers; `images i b` is
`images[i].image[b][c]` for the cell `c` at hand.  With `nband = 0` the code
reads `images[i].image[-1]` and `composite[0]` out of bounds: the cell has no
result (`none`).
-/

namespace MaxNdvi

open RtmInversion (SHRT_MIN SHRT_MAX)

/-- The locals `maximum` and `i_maximum` of the per-cell body. -/
structure best_t where
  maximum : ℤ
  i_maximum : ℤ
deriving DecidableEq

/-- Lines 194-205: `skip` is set when one of the bands `0 .. nband - 2` of the
input is `SHRT_MIN` or `SHRT_MAX`. -/
def skip_input (nband : ℕ) (img : ℕ → ℤ) : Bool :=
  (List.range (nband - 1)).any (fun b => img b == SHRT_MIN || img b == SHRT_MAX)

/-- Lines 194-213, the body of the loop over the inputs: an input that is not
skipped replaces the best one when its last band is not 0 and greater than
`maximum`. -/
def consider (nband : ℕ) (images : ℕ → ℕ → ℤ) (s : best_t) (i : ℕ) : best_t :=
  if skip_input nband (images i) then s
  else if images i (nband - 1) ≠ 0 ∧ images i (nband - 1) > s.maximum then
    ⟨images i (nband - 1), (i : ℤ)⟩
  else s

/-- Lines 189-215: `maximum = SHRT_MIN; i_maximum = -1` and the loop over the
inputs `i = 0 .. n_input - 1`. -/
def select (n_input nband : ℕ) (images : ℕ → ℕ → ℤ) : best_t :=
  (List.range n_input).foldl (consider nband images) ⟨SHRT_MIN, -1⟩

/-- Lines 221-232: every band of the composite is `SHRT_MIN` when
`i_maximum < 0`, else the band of input `i_maximum`. -/
def fill (nband : ℕ) (images : ℕ → ℕ → ℤ) (s : best_t) : List ℤ :=
  (List.range nband).map
    (fun b => if s.i_maximum < 0 then SHRT_MIN else images s.i_maximum.toNat b)

/-- Lines 187-236, one iteration of the loop over the cells: the bands of the
composite. -/
def compose_cell (n_input nband : ℕ) (images : ℕ → ℕ → ℤ) : Option (List ℤ) :=
  if nband = 0 then none else some (fill nband images (select n_input nband images))

/-- An input in the words of the specification: its ranking (last) band is
neither zero nor a sentinel and none of its earlier bands is a sentinel. -/
def qualifies_spec (nband : ℕ) (img : ℕ → ℤ) : Prop :=
  (img (nband - 1) ≠ 0 ∧ img (nband - 1) ≠ SHRT_MIN ∧ img (nband - 1) ≠ SHRT_MAX) ∧
  ∀ b, b < nband - 1 → img b ≠ SHRT_MIN ∧ img b ≠ SHRT_MAX

/-- An input the code can select: its ranking (last) band is neither zero nor
`SHRT_MIN` and none of its earlier bands is a sentinel. -/
def qualifies (nband : ℕ) (img : ℕ → ℤ) : Prop :=
  (img (nband - 1) ≠ 0 ∧ img (nband - 1) ≠ SHRT_MIN) ∧
  ∀ b, b < nband - 1 → img b ≠ SHRT_MIN ∧ img b ≠ SHRT_MAX

/-- The samples of the inputs are of type `short`. -/
def shorts (n_input nband : ℕ) (images : ℕ → ℕ → ℤ) : Prop :=
  ∀ i b, i < n_input → b < nband → SHRT_MIN ≤ images i b ∧ images i b ≤ SHRT_MAX

/-- Two two-band inputs: `[100, 500]` and `[200, 32767]`. -/
def two_inputs : ℕ → ℕ → ℤ :=
  fun i b => if i = 0 then (if b = 0 then 100 else 500) else (if b = 0 then 200 else 32767)

/-- One two-band input `[200, 32767]`. -/
def one_input : ℕ → ℕ → ℤ := fun _ b => if b = 0 then 200 else 32767

/-- Two two-band inputs: `[100, 500]` and `[200, 700]`. -/
def plain_inputs : ℕ → ℕ → ℤ :=
  fun i b => if i = 0 then (if b = 0 then 100 else 500) else (if b = 0 then 200 else 700)

/-- One two-band input `[100, 0]`: its ranking band is zero. -/
def zero_input : ℕ → ℕ → ℤ := fun _ b => if b = 0 then 100 else 0

/-- Line 234: the test `composite[0][c] == 32767` that prints
`issue in cell`, on the bands of the composite. -/
def issue (composite : List ℤ) : Bool := composite[0]? == some 32767

/-- Lines 187-236 with the diagnostic of line 234: whether `issue in cell` is
printed for the cell. -/
def issue_in_cell (n_input nband : ℕ) (images : ℕ → ℕ → ℤ) : Option Bool :=
  (compose_cell n_input nband images).map issue

/-- Two three-band inputs `[32767, 100, 900]` and `[100, 200, 700]`: the first
has the sentinel `SHRT_MAX` in its first band. -/
def sentinel_inputs : ℕ → ℕ → ℤ :=
  fun i b =>
    if i = 0 then (if b = 0 then 32767 else if b = 1 then 100 else 900)
    else (if b = 0 then 100 else if b = 1 then 200 else 700)

end MaxNdvi

/-!
# stats: one-pass moments

Shallow embedding of the recurrence functions of `src/utils/stats.c`.  The
`double` values are exact rationals; the values behind the pointer arguments
are passed in and returned as a record.
-/

namespace Stats

/-- The values `*mx`, `*vx` of `var_recurrence`. -/
structure var_t where
  mx : ℚ
  vx : ℚ

/-- The values `*mx`, `*vx`, `*sx` of `skew_recurrence`. -/
structure skew_t where
  mx : ℚ
  vx : ℚ
  sx : ℚ

/-- The values `*mx`, `*vx`, `*sx`, `*kx` of `kurt_recurrence`. -/
structure kurt_t where
  mx : ℚ
  vx : ℚ
  sx : ℚ
  kx : ℚ

/-- The values `*mx`, `*my`, `*cv` of `cov_recurrence`. -/
structure cov_t where
  mx : ℚ
  my : ℚ
  cv : ℚ

/-- The values `*mx`, `*my`, `*vx`, `*vy`, `*cv` of `covar_recurrence`. -/
structure covar_t where
  mx : ℚ
  my : ℚ
  vx : ℚ
  vy : ℚ
  cv : ℚ

/-- Lines 192-201 of `stats.c`. -/
def var_recurrence (x : ℚ) (s : var_t) (n : ℚ) : var_t :=
  let oldmx := s.mx
  let oldvx := s.vx
  let mx := oldmx + (x - oldmx) / n
  ⟨mx, oldvx + (x - oldmx) * (x - mx)⟩

/-- Lines 160-174 of `stats.c`. -/
def skew_recurrence (x : ℚ) (s : skew_t) (n : ℚ) : skew_t :=
  let delta := x - s.mx
  let delta_n := delta / n
  let tmp := delta * delta_n * (n - 1)
  ⟨s.mx + delta_n, s.vx + tmp, s.sx + tmp * delta_n * (n - 2) - 3 * delta_n * s.vx⟩

/-- Lines 125-141 of `stats.c`. -/
def kurt_recurrence (x : ℚ) (s : kurt_t) (n : ℚ) : kurt_t :=
  let delta := x - s.mx
  let delta_n := delta / n
  let delta_n2 := delta_n * delta_n
  let tmp := delta * delta_n * (n - 1)
  ⟨s.mx + delta_n, s.vx + tmp, s.sx + tmp * delta_n * (n - 2) - 3 * delta_n * s.vx,
    s.kx + tmp * delta_n2 * (n * n - 3 * n + 3) + 6 * delta_n2 * s.vx - 4 * delta_n * s.sx⟩

/-- Lines 93-104 of `stats.c`. -/
def cov_recurrence (x y : ℚ) (s : cov_t) (n : ℚ) : cov_t :=
  let oldmx := s.mx
  let oldmy := s.my
  let oldcv := s.cv
  ⟨oldmx + (x - oldmx) / n, oldmy + (y - oldmy) / n,
    oldcv + (n - 1) / n * (x - oldmx) * (y - oldmy)⟩

/-- Lines 58-73 of `stats.c`. -/
def covar_recurrence (x y : ℚ) (s : covar_t) (n : ℚ) : covar_t :=
  let oldmx := s.mx
  let oldmy := s.my
  let oldvx := s.vx
  let oldvy := s.vy
  let oldcv := s.cv
  let mx := oldmx + (x - oldmx) / n
  let my := oldmy + (y - oldmy) / n
  ⟨mx, my, oldvx + (x - oldmx) * (x - mx), oldvy + (y - oldmy) * (y - my),
    oldcv + (n - 1) / n * (x - oldmx) * (y - oldmy)⟩

/-- Lines 254-257 of `stats.c`. -/
def variance (var n : ℚ) : ℚ := var / (n - 1)

/-- Lines 217-220 of `stats.c`. -/
def kurtosis (var kurt n : ℚ) : ℚ :=
  kurt / (n * variance var (n + 1) * variance var (n + 1))

/-- Lines 290-293 of `stats.c`. -/
def covariance (cov n : ℚ) : ℚ := cov / (n - 1)

/-- The use "in a loop" of `var_recurrence`: from `mx = vx = 0`, the call
number `i` (from 1) passes `x_i` and `n = i`; `x k` is `x_(k+1)`. -/
def var_loop (x : ℕ → ℚ) : ℕ → var_t
  | 0 => ⟨0, 0⟩
  | k + 1 => var_recurrence (x k) (var_loop x k) ((k : ℚ) + 1)

/-- The use in a loop of `skew_recurrence`, from zeros, `n = 1, 2, ...`. -/
def skew_loop (x : ℕ → ℚ) : ℕ → skew_t
  | 0 => ⟨0, 0, 0⟩
  | k + 1 => skew_recurrence (x k) (skew_loop x k) ((k : ℚ) + 1)

/-- The use in a loop of `kurt_recurrence`, from zeros, `n = 1, 2, ...`. -/
def kurt_loop (x : ℕ → ℚ) : ℕ → kurt_t
  | 0 => ⟨0, 0, 0, 0⟩
  | k + 1 => kurt_recurrence (x k) (kurt_loop x k) ((k : ℚ) + 1)

/-- The use in a loop of `cov_recurrence`, from zeros, `n = 1, 2, ...`. -/
def cov_loop (x y : ℕ → ℚ) : ℕ → cov_t
  | 0 => ⟨0, 0, 0⟩
  | k + 1 => cov_recurrence (x k) (y k) (cov_loop x y k) ((k : ℚ) + 1)

/-- The use in a loop of `covar_recurrence`, from zeros, `n = 1, 2, ...`. -/
def covar_loop (x y : ℕ → ℚ) : ℕ → covar_t
  | 0 => ⟨0, 0, 0, 0, 0⟩
  | k + 1 => covar_recurrence (x k) (y k) (covar_loop x y k) ((k : ℚ) + 1)

/-- The arithmetic mean of `x_1, ..., x_k`. -/
def mean (x : ℕ → ℚ) (k : ℕ) : ℚ := (∑ i in Finset.range k, x i) / k

/-- The sum of the powers `p` of the deviations of `x_1, ..., x_k` from their
mean. -/
def central (p : ℕ) (x : ℕ → ℚ) (k : ℕ) : ℚ :=
  ∑ i in Finset.range k, (x i - mean x k) ^ p

/-- The sum of the products of the deviations of `x_i` and `y_i` from their
means. -/
def comoment (x y : ℕ → ℚ) (k : ℕ) : ℚ :=
  ∑ i in Finset.range k, (x i - mean x k) * (y i - mean y k)

/-- The sequence `1, 2, 4, 7, 7, ...`. -/
def sample_x : ℕ → ℚ := fun i => if i = 0 then 1 else if i = 1 then 2 else if i = 2 then 4 else 7

/-- The sequence `2, 1, 5, 3, 3, ...`. -/
def sample_y : ℕ → ℚ := fun i => if i = 0 then 2 else if i = 1 then 1 else if i = 2 then 5 else 3

end Stats

namespace RtmInversion

/-! ### Basic facts -/

theorem skip_eq_true_iff (nband : ℕ) (image : ℕ → ℤ) :
    skip nband image = true ↔
      ∃ b, b < nband ∧ (image b = SHRT_MIN ∨ image b = SHRT_MAX) := by
  simp [skip, List.any_eq_true]

theorem skip_eq_false_iff (nband : ℕ) (image : ℕ → ℤ) :
    skip nband image = false ↔ valid nband image := by
  rw [← Bool.not_eq_true, skip_eq_true_iff]
  simp only [valid, not_exists, not_and, not_or]

theorem FLT_MAX_pos : 0 < FLT_MAX := by norm_num [FLT_MAX]

theorem FLT_EPSILON_lt_FLT_MAX : FLT_EPSILON < FLT_MAX := by
  norm_num [FLT_MAX, FLT_EPSILON]

/-! ### Rounding -/

theorem round_even_of_near (x : ℚ) (n : ℤ) (h : |x - n| < 1 / 2) : round_even x = n := by
  have h1 := (abs_lt.mp h).1
  have h2 := (abs_lt.mp h).2
  unfold round_even
  by_cases hx : (n : ℚ) ≤ x
  · have hf : ⌊x⌋ = n := Int.floor_eq_iff.mpr ⟨hx, by linarith⟩
    simp only [hf]
    rw [if_pos (by linarith)]
  · have hf : ⌊x⌋ = n - 1 :=
      Int.floor_eq_iff.mpr ⟨by push_cast; linarith, by push_cast; linarith⟩
    simp only [hf]
    push_cast
    rw [if_neg (by linarith), if_pos (by linarith)]
    ring

theorem round_even_nonneg {x : ℚ} (hx : 0 ≤ x) : 0 ≤ round_even x := by
  have hf : 0 ≤ ⌊x⌋ := Int.floor_nonneg.mpr hx
  unfold round_even
  simp only
  split
  · exact hf
  · split
    · omega
    · split <;> omega

theorem log2_eq {x : ℚ} (hx : 0 < x) {e : ℤ} (hlo : (2 : ℚ) ^ e ≤ x) (hhi : x < 2 ^ (e + 1)) :
    Int.log 2 x = e := by
  have h1 : e ≤ Int.log 2 x :=
    (Int.zpow_le_iff_le_log (by norm_num) hx).mp (by exact_mod_cast hlo)
  have h2 : Int.log 2 x < e + 1 :=
    (Int.lt_zpow_iff_log_lt (by norm_num) hx).mp (by exact_mod_cast hhi)
  omega

theorem log2_lt {x : ℚ} (hx : 0 < x) {e : ℤ} (hhi : x < 2 ^ e) : Int.log 2 x < e :=
  (Int.lt_zpow_iff_log_lt (by norm_num) hx).mp (by exact_mod_cast hhi)

/-- Evaluation of a rounding, with `e` the exponent of `x` (not below `emin`)
and `n` the integer strictly nearest to `x / ulp`. -/
theorem fround_eval (p : ℕ) (emin emax : ℤ) (x : ℚ) (e n : ℤ) (hx : x ≠ 0)
    (he : emin ≤ e) (hlo : e = emin ∨ (2 : ℚ) ^ e ≤ |x|) (hhi : |x| < 2 ^ (e + 1))
    (hn : |x / 2 ^ (e - ((p : ℤ) - 1)) - n| < 1 / 2) :
    fround p emin emax x =
      if |(n : ℚ) * 2 ^ (e - ((p : ℤ) - 1))| < 2 ^ (emax + 1)
      then some ((n : ℚ) * 2 ^ (e - ((p : ℤ) - 1))) else none := by
  have hpos : 0 < |x| := abs_pos.mpr hx
  have hmax : max (Int.log 2 |x|) emin = e := by
    rcases hlo with h | h
    · have := log2_lt hpos hhi
      rw [h] at this ⊢
      exact max_eq_right (by omega)
    · rw [log2_eq hpos h hhi]
      exact max_eq_left he
  unfold fround
  rw [if_neg hx]
  simp only [hmax, round_even_of_near _ _ hn]

/-- A rounding that stays finite, the side conditions free of absolute
values. -/
theorem fround_some (p : ℕ) (emin emax : ℤ) (x : ℚ) (e n : ℤ) (hx : x ≠ 0)
    (he : emin ≤ e) (hlo : e = emin ∨ (2 : ℚ) ^ e ≤ x ∨ (2 : ℚ) ^ e ≤ -x)
    (hhi : -(2 : ℚ) ^ (e + 1) < x ∧ x < 2 ^ (e + 1))
    (hn : (n : ℚ) - 1 / 2 < x / 2 ^ (e - ((p : ℤ) - 1)) ∧
      x / 2 ^ (e - ((p : ℤ) - 1)) < n + 1 / 2)
    (hfin : -(2 : ℚ) ^ (emax + 1) < (n : ℚ) * 2 ^ (e - ((p : ℤ) - 1)) ∧
      (n : ℚ) * 2 ^ (e - ((p : ℤ) - 1)) < 2 ^ (emax + 1)) :
    fround p emin emax x = some ((n : ℚ) * 2 ^ (e - ((p : ℤ) - 1))) := by
  have hlo2 : e = emin ∨ (2 : ℚ) ^ e ≤ |x| := by
    rcases hlo with h | h | h
    · exact Or.inl h
    · exact Or.inr (le_trans h (le_abs_self x))
    · exact Or.inr (le_trans h (neg_le_abs x))
  rw [fround_eval p emin emax x e n hx he hlo2 (abs_lt.mpr hhi)
    (abs_lt.mpr ⟨by linarith [hn.1], by linarith [hn.2]⟩), if_pos (abs_lt.mpr hfin)]

/-- A rounding that overflows. -/
theorem fround_none (p : ℕ) (emin emax : ℤ) (x : ℚ) (e n : ℤ) (hx : x ≠ 0)
    (he : emin ≤ e) (hlo : e = emin ∨ (2 : ℚ) ^ e ≤ x ∨ (2 : ℚ) ^ e ≤ -x)
    (hhi : -(2 : ℚ) ^ (e + 1) < x ∧ x < 2 ^ (e + 1))
    (hn : (n : ℚ) - 1 / 2 < x / 2 ^ (e - ((p : ℤ) - 1)) ∧
      x / 2 ^ (e - ((p : ℤ) - 1)) < n + 1 / 2)
    (hinf : (2 : ℚ) ^ (emax + 1) ≤ (n : ℚ) * 2 ^ (e - ((p : ℤ) - 1))) :
    fround p emin emax x = none := by
  have hlo2 : e = emin ∨ (2 : ℚ) ^ e ≤ |x| := by
    rcases hlo with h | h | h
    · exact Or.inl h
    · exact Or.inr (le_trans h (le_abs_self x))
    · exact Or.inr (le_trans h (neg_le_abs x))
  rw [fround_eval p emin emax x e n hx he hlo2 (abs_lt.mpr hhi)
    (abs_lt.mpr ⟨by linarith [hn.1], by linarith [hn.2]⟩),
    if_neg (not_lt.mpr (le_trans hinf (le_abs_self _)))]

/-- Rounding keeps the sign of a value that is not negative. -/
theorem fround_nonneg (p : ℕ) (emin emax : ℤ) {x y : ℚ} (hx : 0 ≤ x)
    (h : fround p emin emax x = some y) : 0 ≤ y := by
  unfold fround at h
  by_cases h0 : x = 0
  · rw [if_pos h0] at h
    rw [← Option.some.inj h]
  · rw [if_neg h0] at h
    simp only at h
    split at h
    · rw [← Option.some.inj h]
      apply mul_nonneg
      · exact_mod_cast round_even_nonneg (div_nonneg hx (le_of_lt (zpow_pos (by norm_num) _)))
      · exact le_of_lt (zpow_pos (by norm_num) _)
    · cases h

theorem fround_zero (p : ℕ) (emin emax : ℤ) : fround p emin emax 0 = some 0 := by
  simp [fround]

/-! ### The error of a row -/

theorem add_abs_nonneg {acc : Option ℚ} (h : ∀ m, acc = some m → 0 ≤ m) (ref : ℤ)
    (cell : Option ℚ) {r : ℚ} (hr : add_abs acc ref cell = some r) : 0 ≤ r := by
  unfold add_abs at hr
  cases acc with
  | none => simp at hr
  | some m =>
    cases cell with
    | none => simp at hr
    | some d =>
      simp only [Option.some_bind] at hr
      cases hd : to_double ((ref : ℚ) - d) with
      | none => rw [hd] at hr; simp at hr
      | some diff =>
        rw [hd] at hr
        simp only [Option.some_bind] at hr
        cases hs : to_double (m + |diff|) with
        | none => rw [hs] at hr; simp at hr
        | some s =>
          rw [hs] at hr
          simp only [Option.some_bind] at hr
          have hm := h m rfl
          have hs0 : 0 ≤ s :=
            fround_nonneg 53 (-1022) 1023 (add_nonneg hm (abs_nonneg diff)) hs
          exact fround_nonneg 24 (-126) 127 hs0 hr

theorem sum_abs_succ (nband : ℕ) (image : ℕ → ℤ) (row : ℕ → Option ℚ) :
    sum_abs (nband + 1) image row =
      add_abs (sum_abs nband image row) (image nband) (row nband) := by
  simp [sum_abs, List.range_succ, List.foldl_append]

theorem sum_abs_nonneg (nband : ℕ) (image : ℕ → ℤ) (row : ℕ → Option ℚ) :
    ∀ s, sum_abs nband image row = some s → 0 ≤ s := by
  induction nband with
  | zero =>
    intro s hs
    simp [sum_abs] at hs
    rw [← hs]
  | succ n ih =>
    intro s hs
    rw [sum_abs_succ] at hs
    exact add_abs_nonneg ih _ _ hs

/-- The error the code computes for a row is never negative. -/
theorem mae_nonneg {simulations : table_t} {nband : ℕ} {image : ℕ → ℤ} {i : ℕ} {v : ℚ}
    (h : mae simulations nband image i = some v) : 0 ≤ v := by
  unfold mae at h
  cases hs : sum_abs nband image (simulations.data i) with
  | none => rw [hs] at h; simp at h
  | some s =>
    rw [hs] at h
    simp only [Option.some_bind] at h
    cases hn : to_float (nband : ℚ) with
    | none => rw [hn] at h; simp at h
    | some n =>
      rw [hn] at h
      simp only [Option.some_bind] at h
      by_cases h0 : n = 0
      · rw [if_pos h0] at h; cases h
      · rw [if_neg h0] at h
        have hs0 := sum_abs_nonneg nband image _ s hs
        have hn0 : 0 ≤ n := fround_nonneg 24 (-126) 127 (Nat.cast_nonneg nband) hn
        exact fround_nonneg 24 (-126) 127 (div_nonneg hs0 hn0) h

theorem mae_nband_zero (simulations : table_t) (image : ℕ → ℤ) (i : ℕ) :
    mae simulations 0 image i = none := by
  simp [mae, sum_abs, to_float, fround_zero]

/-! ### The result assembly -/

theorem nodata_length (ncol : ℕ) : (nodata ncol).length = ncol + 1 := by
  simp [nodata]

theorem matched_length (lut : table_t) (i : ℕ) (err : ℚ) :
    (matched lut i err).length = lut.ncol + 1 := by
  simp [matched]

theorem fill_bands (f : ℕ → Option ℚ) (a : Option ℚ) (m : ℕ) :
    ∀ k, k ≤ m →
      (List.range k).foldl (fun inv o => inv.set o (f o)) (List.replicate m a) =
        (List.range k).map f ++ List.replicate (m - k) a := by
  intro k
  induction k with
  | zero => intro _; simp
  | succ k ih =>
    intro hk
    rw [List.range_succ, List.foldl_append, ih (by omega)]
    obtain ⟨d, hd⟩ : ∃ d, m - k = d + 1 := ⟨m - k - 1, by omega⟩
    have hd2 : m - (k + 1) = d := by omega
    rw [hd, hd2]
    simp [List.replicate_succ, List.set_append_right]

theorem store_eq (lut : table_t) (s : search_t) :
    store lut s (nodata lut.ncol) =
      if s.i_min_mae ≥ 0 then matched lut s.i_min_mae.toNat s.min_mae else nodata lut.ncol := by
  unfold store
  split
  · have h := fill_bands (fun o => (lut.data s.i_min_mae.toNat o).bind to_float) (some (-1))
      (lut.ncol + 1) lut.ncol (by omega)
    simp only [nodata, h, matched]
    simp [List.set_append_right]
  · rfl

theorem store_found (lut : table_t) (v : ℚ) (i : ℕ) :
    store lut ⟨v, (i : ℤ)⟩ (nodata lut.ncol) = matched lut i v := by
  rw [store_eq, if_pos (Int.natCast_nonneg i)]
  simp

theorem store_init (lut : table_t) : store lut init (nodata lut.ncol) = nodata lut.ncol := by
  rw [store_eq]
  simp [init]

theorem store_length (lut : table_t) (s : search_t) :
    (store lut s (nodata lut.ncol)).length = lut.ncol + 1 := by
  rw [store_eq]
  split
  · exact matched_length _ _ _
  · exact nodata_length _

theorem matched_ne_nodata (lut : table_t) (i : ℕ) {err : ℚ} (h : 0 ≤ err) :
    matched lut i err ≠ nodata lut.ncol := by
  intro heq
  have h1 : (matched lut i err).getLast? = (nodata lut.ncol).getLast? := by rw [heq]
  simp [matched, nodata, List.replicate_succ'] at h1
  rw [h1] at h
  norm_num at h

/-! ### The update rule along a sequence of rows -/

theorem scan_zero (simulations : table_t) (nband : ℕ) (image : ℕ → ℤ) (idx : ℕ → ℕ)
    (s : search_t) : scan simulations nband image idx 0 s = s := by
  simp [scan]

theorem scan_succ (simulations : table_t) (nband : ℕ) (image : ℕ → ℤ) (idx : ℕ → ℕ)
    (n : ℕ) (s : search_t) :
    scan simulations nband image idx (n + 1) s =
      update (scan simulations nband image idx n s) (idx n)
        (mae simulations nband image (idx n)) := by
  simp [scan, List.range_succ, List.foldl_append]

theorem scan_shift (simulations : table_t) (nband : ℕ) (image : ℕ → ℤ) (idx : ℕ → ℕ)
    (n : ℕ) (s : search_t) :
    scan simulations nband image idx (n + 1) s =
      scan simulations nband image (fun j => idx (j + 1)) n
        (update s (idx 0) (mae simulations nband image (idx 0))) := by
  simp [scan, List.range_succ_eq_map, List.foldl_map]

theorem brute_force_eq_scan (simulations : table_t) (nband : ℕ) (image : ℕ → ℤ)
    (s : search_t) :
    brute_force simulations nband image s =
      scan simulations nband image (fun i => i) simulations.nrow s := rfl

theorem update_min_mae_le (s : search_t) (i : ℕ) (m : Option ℚ) :
    (update s i m).min_mae ≤ s.min_mae := by
  unfold update
  split
  · split
    · exact le_of_lt (by assumption)
    · exact le_refl _
  · exact le_refl _

theorem scan_best_of (simulations : table_t) (nband : ℕ) (image : ℕ → ℤ) (idx : ℕ → ℕ)
    (n : ℕ) : best_of simulations nband image idx n (scan simulations nband image idx n init) := by
  induction n with
  | zero =>
    left
    exact ⟨scan_zero _ _ _ _ _, fun j hj => absurd hj (Nat.not_lt_zero j)⟩
  | succ n ih =>
    rw [scan_succ]
    generalize scan simulations nband image idx n init = s at ih
    cases hm : mae simulations nband image (idx n) with
    | none =>
      simp only [update]
      rcases ih with ⟨hs, hall⟩ | ⟨j, hj, hi, hmj, hlt, hle, hfirst⟩
      · left
        refine ⟨hs, fun k hk v hv => ?_⟩
        rcases Nat.lt_succ_iff_lt_or_eq.mp hk with hk | hk
        · exact hall k hk v hv
        · subst hk; rw [hm] at hv; cases hv
      · right
        refine ⟨j, Nat.lt_succ_of_lt hj, hi, hmj, hlt, fun k hk v hv => ?_, hfirst⟩
        rcases Nat.lt_succ_iff_lt_or_eq.mp hk with hk | hk
        · exact hle k hk v hv
        · subst hk; rw [hm] at hv; cases hv
    | some w =>
      simp only [update]
      by_cases hw : w < s.min_mae
      · rw [if_pos hw]
        right
        refine ⟨n, Nat.lt_succ_self n, rfl, hm, ?_, fun k hk v hv => ?_, fun k hk v hv => ?_⟩
        · rcases ih with ⟨hs, _⟩ | ⟨j, _, _, _, hlt, _, _⟩
          · rw [hs] at hw; exact hw
          · exact lt_trans hw hlt
        · rcases Nat.lt_succ_iff_lt_or_eq.mp hk with hk | hk
          · rcases ih with ⟨hs, hall⟩ | ⟨j, _, _, _, _, hle, _⟩
            · rw [hs] at hw; exact le_of_lt (lt_of_lt_of_le hw (hall k hk v hv))
            · exact le_of_lt (lt_of_lt_of_le hw (hle k hk v hv))
          · subst hk; rw [hm] at hv; cases hv; exact le_refl _
        · rcases ih with ⟨hs, hall⟩ | ⟨j, _, _, _, _, hle, _⟩
          · rw [hs] at hw; exact lt_of_lt_of_le hw (hall k hk v hv)
          · exact lt_of_lt_of_le hw (hle k hk v hv)
      · rw [if_neg hw]
        have hw2 : s.min_mae ≤ w := not_lt.mp hw
        rcases ih with ⟨hs, hall⟩ | ⟨j, hj, hi, hmj, hlt, hle, hfirst⟩
        · left
          refine ⟨hs, fun k hk v hv => ?_⟩
          rcases Nat.lt_succ_iff_lt_or_eq.mp hk with hk | hk
          · exact hall k hk v hv
          · subst hk; rw [hm] at hv; cases hv; rw [hs] at hw2; exact hw2
        · right
          refine ⟨j, Nat.lt_succ_of_lt hj, hi, hmj, hlt, fun k hk v hv => ?_, hfirst⟩
          rcases Nat.lt_succ_iff_lt_or_eq.mp hk with hk | hk
          · exact hle k hk v hv
          · subst hk; rw [hm] at hv; cases hv; exact hw2

/-! ### The early-stop loop -/

theorem early_stop_done (args : args_t) (simulations : table_t) (nband : ℕ) (image : ℕ → ℤ)
    (rand : ℕ → ℕ) (s : search_t) (ctr : ℤ) (calls : ℕ)
    (h : ¬ (s.min_mae > args.accuracy ∧ ctr < args.max_iterations)) :
    early_stop args simulations nband image rand s ctr calls = Except.ok (s, ctr, calls) := by
  rw [early_stop, if_neg h]

theorem early_stop_trap (args : args_t) (simulations : table_t) (nband : ℕ) (image : ℕ → ℤ)
    (rand : ℕ → ℕ) (s : search_t) (ctr : ℤ) (calls : ℕ)
    (h : s.min_mae > args.accuracy ∧ ctr < args.max_iterations) (h0 : simulations.nrow = 0) :
    early_stop args simulations nband image rand s ctr calls = Except.error ⟨calls + 1⟩ := by
  rw [early_stop, if_pos h, if_pos h0]

theorem early_stop_step (args : args_t) (simulations : table_t) (nband : ℕ) (image : ℕ → ℤ)
    (rand : ℕ → ℕ) (s : search_t) (ctr : ℤ) (calls : ℕ)
    (h : s.min_mae > args.accuracy ∧ ctr < args.max_iterations) (h0 : simulations.nrow ≠ 0) :
    early_stop args simulations nband image rand s ctr calls =
      early_stop args simulations nband image rand
        (update s (rand calls % simulations.nrow)
          (mae simulations nband image (rand calls % simulations.nrow))) (ctr + 1) (calls + 1) := by
  rw [early_stop, if_pos h, if_neg h0]

theorem drawn_shift (rand : ℕ → ℕ) (calls nrow : ℕ) :
    (fun j => drawn rand calls nrow (j + 1)) = drawn rand (calls + 1) nrow := by
  funext j
  simp only [drawn]
  congr 2
  omega

/-- With at least one row the loop ends after some number `k` of draws: the
result is the update rule applied to the first `k` drawn rows, the loop test
held before each of the `k` draws and fails after the last. -/
theorem early_stop_eq_scan (args : args_t) (simulations : table_t) (nband : ℕ)
    (image : ℕ → ℤ) (rand : ℕ → ℕ) (hrow : simulations.nrow ≠ 0) :
    ∀ (m : ℕ) (s : search_t) (ctr : ℤ) (calls : ℕ),
      (args.max_iterations - ctr).toNat = m →
      ∃ k : ℕ,
        early_stop args simulations nband image rand s ctr calls =
          Except.ok (scan simulations nband image (drawn rand calls simulations.nrow) k s,
            ctr + k, calls + k) ∧
        (∀ j, j < k →
          (scan simulations nband image (drawn rand calls simulations.nrow) j s).min_mae
              > args.accuracy ∧ ctr + j < args.max_iterations) ∧
        ¬ ((scan simulations nband image (drawn rand calls simulations.nrow) k s).min_mae
              > args.accuracy ∧ ctr + k < args.max_iterations) := by
  intro m
  induction m with
  | zero =>
    intro s ctr calls hm
    have hc : ¬ (s.min_mae > args.accuracy ∧ ctr < args.max_iterations) := by
      intro h; have := h.2; omega
    refine ⟨0, ?_, fun j hj => absurd hj (Nat.not_lt_zero j), ?_⟩
    · rw [early_stop_done _ _ _ _ _ _ _ _ hc, scan_zero]; simp
    · rw [scan_zero]; simpa using hc
  | succ m ih =>
    intro s ctr calls hm
    by_cases hc : s.min_mae > args.accuracy ∧ ctr < args.max_iterations
    · obtain ⟨k, hk, hbefore, hafter⟩ :=
        ih (update s (rand calls % simulations.nrow)
          (mae simulations nband image (rand calls % simulations.nrow))) (ctr + 1) (calls + 1)
          (by omega)
      have h0 : drawn rand calls simulations.nrow 0 = rand calls % simulations.nrow := by
        simp [drawn]
      have hsh : ∀ n, scan simulations nband image (drawn rand calls simulations.nrow) (n + 1) s
          = scan simulations nband image (drawn rand (calls + 1) simulations.nrow) n
              (update s (rand calls % simulations.nrow)
                (mae simulations nband image (rand calls % simulations.nrow))) := by
        intro n
        rw [scan_shift, drawn_shift, h0]
      refine ⟨k + 1, ?_, fun j hj => ?_, ?_⟩
      · rw [early_stop_step _ _ _ _ _ _ _ _ hc hrow, hk, hsh]
        simp only [Nat.cast_add, Nat.cast_one]
        congr 3
        · ring
        · omega
      · cases j with
        | zero => rw [scan_zero]; simpa using hc
        | succ j =>
          have := hbefore j (by omega)
          rw [hsh]
          refine ⟨this.1, ?_⟩
          have h2 := this.2
          push_cast
          omega
      · rw [hsh]
        intro h
        apply hafter
        refine ⟨h.1, ?_⟩
        have h2 := h.2
        push_cast at h2
        omega
    · refine ⟨0, ?_, fun j hj => absurd hj (Nat.not_lt_zero j), ?_⟩
      · rw [early_stop_done _ _ _ _ _ _ _ _ hc, scan_zero]; simp
      · rw [scan_zero]; simpa using hc

/-! ### The search and the cell as a whole -/

theorem search_exhaustive (args : args_t) (simulations : table_t) (nband : ℕ) (image : ℕ → ℤ)
    (rand : ℕ → ℕ) (calls : ℕ) (h : args.accuracy ≤ FLT_EPSILON) :
    search args simulations nband image rand calls =
      Except.ok (scan simulations nband image (fun i => i) simulations.nrow init, 0, calls) := by
  rw [search, if_pos h, brute_force_eq_scan]

theorem search_stochastic (args : args_t) (simulations : table_t) (nband : ℕ) (image : ℕ → ℤ)
    (rand : ℕ → ℕ) (calls : ℕ) (h : FLT_EPSILON < args.accuracy) :
    search args simulations nband image rand calls =
      early_stop args simulations nband image rand init 0 calls := by
  rw [search, if_neg (not_le.mpr h)]

theorem main_cell_skip (args : args_t) (lut simulations : table_t) (nband : ℕ)
    (image : ℕ → ℤ) (rand : ℕ → ℕ) (calls : ℕ) (h : skip nband image = true) :
    main_cell args lut simulations nband image rand calls =
      Except.ok (nodata lut.ncol, calls) := by
  rw [main_cell, if_pos h]

theorem main_cell_ok (args : args_t) (lut simulations : table_t) (nband : ℕ)
    (image : ℕ → ℤ) (rand : ℕ → ℕ) (calls : ℕ) (h : skip nband image = false)
    {s : search_t} {ctr : ℤ} {calls1 : ℕ}
    (hs : search args simulations nband image rand calls = Except.ok (s, ctr, calls1)) :
    main_cell args lut simulations nband image rand calls =
      Except.ok (store lut s (nodata lut.ncol), calls1) := by
  rw [main_cell, hs]
  simp [h]

theorem main_cell_error (args : args_t) (lut simulations : table_t) (nband : ℕ)
    (image : ℕ → ℤ) (rand : ℕ → ℕ) (calls : ℕ) (h : skip nband image = false)
    {e : trap_t} (hs : search args simulations nband image rand calls = Except.error e) :
    main_cell args lut simulations nband image rand calls = Except.error e := by
  rw [main_cell, hs]
  simp [h]

theorem drawn_lt (rand : ℕ → ℕ) (calls : ℕ) {nrow : ℕ} (h : nrow ≠ 0) (j : ℕ) :
    drawn rand calls nrow j < nrow :=
  Nat.mod_lt _ (Nat.pos_of_ne_zero h)

/-- Whatever the policy, a search that returns has applied the update rule,
from `init`, to some rows `idx 0, ..., idx (n - 1)` of the table. -/
theorem search_ok_best (args : args_t) (simulations : table_t) (nband : ℕ) (image : ℕ → ℤ)
    (rand : ℕ → ℕ) (calls : ℕ) {s : search_t} {ctr : ℤ} {calls1 : ℕ}
    (h : search args simulations nband image rand calls = Except.ok (s, ctr, calls1)) :
    ∃ (idx : ℕ → ℕ) (n : ℕ), best_of simulations nband image idx n s ∧
      ∀ j, j < n → idx j < simulations.nrow := by
  by_cases hacc : args.accuracy ≤ FLT_EPSILON
  · rw [search_exhaustive _ _ _ _ _ _ hacc] at h
    cases h
    exact ⟨fun i => i, simulations.nrow, scan_best_of _ _ _ _ _, fun j hj => hj⟩
  · rw [search_stochastic _ _ _ _ _ _ (not_le.mp hacc)] at h
    by_cases hrow : simulations.nrow = 0
    · by_cases hc : init.min_mae > args.accuracy ∧ (0 : ℤ) < args.max_iterations
      · rw [early_stop_trap _ _ _ _ _ _ _ _ hc hrow] at h
        cases h
      · rw [early_stop_done _ _ _ _ _ _ _ _ hc] at h
        cases h
        exact ⟨fun i => i, 0, scan_best_of _ _ _ _ 0, fun j hj => absurd hj (Nat.not_lt_zero j)⟩
    · obtain ⟨k, hk, _, _⟩ := early_stop_eq_scan args simulations nband image rand hrow _
        init 0 calls rfl
      rw [hk] at h
      cases h
      exact ⟨drawn rand calls simulations.nrow, k, scan_best_of _ _ _ _ _,
        fun j _ => drawn_lt rand calls hrow j⟩

/-- The bands stored for a best row: the no-data vector when nothing was found,
else the parameter row of a position `j`, converted to `float`, and the error
computed for the same row. -/
theorem store_of_best (lut simulations : table_t) (nband : ℕ) (image : ℕ → ℤ)
    (idx : ℕ → ℕ) (n : ℕ) (s : search_t) (h : best_of simulations nband image idx n s) :
    (s = init ∧ store lut s (nodata lut.ncol) = nodata lut.ncol) ∨
    (∃ j, j < n ∧ mae simulations nband image (idx j) = some s.min_mae ∧
      s = ⟨s.min_mae, (idx j : ℤ)⟩ ∧
      store lut s (nodata lut.ncol) = matched lut (idx j) s.min_mae) := by
  rcases h with ⟨hs, _⟩ | ⟨j, hj, hi, hm, _, _, _⟩
  · left
    refine ⟨hs, ?_⟩
    rw [hs, store_init]
  · right
    have hse : s = ⟨s.min_mae, (idx j : ℤ)⟩ := by
      cases s
      simp only at hi
      rw [hi]
    refine ⟨j, hj, hm, hse, ?_⟩
    rw [hse, store_found]

/-- When some row among `idx 0, ..., idx (n - 1)` has a computed error below
`FLT_MAX`, the update rule ends on the first position whose row has the least
computed error. -/
theorem scan_first_minimum (simulations : table_t) (nband : ℕ)
    (image : ℕ → ℤ) (idx : ℕ → ℕ) (n : ℕ)
    (h : ∃ j, j < n ∧ ∃ v, mae simulations nband image (idx j) = some v ∧ v < FLT_MAX) :
    ∃ j e, j < n ∧ mae simulations nband image (idx j) = some e ∧
      scan simulations nband image idx n init = ⟨e, (idx j : ℤ)⟩ ∧
      (∀ k, k < n → ∀ v, mae simulations nband image (idx k) = some v → e ≤ v) ∧
      (∀ k, k < j → ∀ v, mae simulations nband image (idx k) = some v → e < v) := by
  rcases scan_best_of simulations nband image idx n with ⟨_, hall⟩ | ⟨j, hj, hi, hm, _, hle, hfirst⟩
  · obtain ⟨j, hj, v, hv, hlt⟩ := h
    exact absurd (hall j hj v hv) (not_le.mpr hlt)
  · refine ⟨j, _, hj, hm, ?_, hle, hfirst⟩
    generalize scan simulations nband image idx n init = s at hi
    cases s
    simp only at hi
    rw [hi]

/-- The update rule along rows `idx 0, ..., idx (n - 1)` either leaves `init`
or one of the rows has a computed error below `FLT_MAX`. -/
theorem scan_init_or_found (simulations : table_t) (nband : ℕ) (image : ℕ → ℤ)
    (idx : ℕ → ℕ) (n : ℕ) :
    scan simulations nband image idx n init = init ∨
    (∃ j, j < n ∧ ∃ v, mae simulations nband image (idx j) = some v ∧ v < FLT_MAX) := by
  rcases scan_best_of simulations nband image idx n with ⟨hs, _⟩ | ⟨j, hj, _, hm, hlt, _, _⟩
  · exact Or.inl hs
  · exact Or.inr ⟨j, hj, _, hm, hlt⟩

/-- For an accuracy below `FLT_MAX` the running best is within the accuracy
exactly when the computed error of one of the rows seen so far is. -/
theorem scan_min_le_iff (simulations : table_t) (nband : ℕ)
    (image : ℕ → ℤ) (idx : ℕ → ℕ) (n : ℕ) {acc : ℚ} (hacc : acc < FLT_MAX) :
    (scan simulations nband image idx n init).min_mae ≤ acc ↔
      ∃ i, i < n ∧ ∃ v, mae simulations nband image (idx i) = some v ∧ v ≤ acc := by
  rcases scan_best_of simulations nband image idx n with ⟨hs, hall⟩ | ⟨j, hj, _, hm, _, hle, _⟩
  · rw [hs]
    constructor
    · intro h
      exact absurd (lt_of_le_of_lt h hacc) (lt_irrefl _)
    · rintro ⟨i, hi, v, hv, hle⟩
      exact absurd (lt_of_le_of_lt (le_trans (hall i hi v hv) hle) hacc) (lt_irrefl _)
  · constructor
    · intro h
      exact ⟨j, hj, _, hm, h⟩
    · rintro ⟨i, hi, v, hv, hv2⟩
      exact le_trans (hle i hi v hv) hv2

/-- A search over a table that has a row never traps. -/
theorem search_returns (args : args_t) (simulations : table_t) (nband : ℕ) (image : ℕ → ℤ)
    (rand : ℕ → ℕ) (calls : ℕ) (hrow : simulations.nrow ≠ 0) :
    ∃ s ctr calls1,
      search args simulations nband image rand calls = Except.ok (s, ctr, calls1) := by
  by_cases hacc : args.accuracy ≤ FLT_EPSILON
  · exact ⟨_, _, _, search_exhaustive _ _ _ _ _ _ hacc⟩
  · obtain ⟨k, hk, _, _⟩ := early_stop_eq_scan args simulations nband image rand hrow _
      init 0 calls rfl
    exact ⟨_, _, _, (search_stochastic _ _ _ _ _ _ (not_le.mp hacc)).trans hk⟩

/-- The early-stop search from `init`: over a table with a row it returns after
`k` draws, with the loop test true before each draw and false at the end; over
a table without rows it returns at once or traps in the first draw. -/
theorem stochastic_cases (args : args_t) (simulations : table_t) (nband : ℕ) (image : ℕ → ℤ)
    (rand : ℕ → ℕ) (calls : ℕ) (hacc : FLT_EPSILON < args.accuracy) :
    (simulations.nrow ≠ 0 ∧ ∃ k : ℕ,
      search args simulations nband image rand calls =
        Except.ok (scan simulations nband image (drawn rand calls simulations.nrow) k init,
          (k : ℤ), calls + k) ∧
      (∀ j, j < k →
        (scan simulations nband image (drawn rand calls simulations.nrow) j init).min_mae
            > args.accuracy ∧ (j : ℤ) < args.max_iterations) ∧
      ¬ ((scan simulations nband image (drawn rand calls simulations.nrow) k init).min_mae
            > args.accuracy ∧ (k : ℤ) < args.max_iterations)) ∨
    (simulations.nrow = 0 ∧ ¬ (FLT_MAX > args.accuracy ∧ 0 < args.max_iterations) ∧
      search args simulations nband image rand calls = Except.ok (init, 0, calls)) ∨
    (simulations.nrow = 0 ∧ (FLT_MAX > args.accuracy ∧ 0 < args.max_iterations) ∧
      search args simulations nband image rand calls = Except.error ⟨calls + 1⟩) := by
  rw [search_stochastic _ _ _ _ _ _ hacc]
  by_cases hrow : simulations.nrow = 0
  · right
    by_cases hc : init.min_mae > args.accuracy ∧ (0 : ℤ) < args.max_iterations
    · right
      exact ⟨hrow, hc, early_stop_trap _ _ _ _ _ _ _ _ hc hrow⟩
    · left
      exact ⟨hrow, hc, early_stop_done _ _ _ _ _ _ _ _ hc⟩
  · left
    obtain ⟨k, hk, hbefore, hafter⟩ := early_stop_eq_scan args simulations nband image rand
      hrow _ init 0 calls rfl
    refine ⟨hrow, k, ?_, ?_, ?_⟩
    · rw [hk]; simp
    · intro j hj
      simpa using hbefore j hj
    · simpa using hafter

/-- The stochastic search with one iteration allowed and an accuracy between
`FLT_EPSILON` and `FLT_MAX`, over a table with a row: exactly one row is drawn
and the update rule is applied to it once. -/
theorem single_draw (args : args_t) (simulations : table_t) (nband : ℕ) (image : ℕ → ℤ)
    (rand : ℕ → ℕ) (calls : ℕ) (hacc : FLT_EPSILON < args.accuracy)
    (hmax : args.accuracy < FLT_MAX) (hit : args.max_iterations = 1)
    (hrow : simulations.nrow ≠ 0) :
    search args simulations nband image rand calls =
      Except.ok (update init (rand calls % simulations.nrow)
        (mae simulations nband image (rand calls % simulations.nrow)), 1, calls + 1) := by
  rw [search_stochastic _ _ _ _ _ _ hacc, early_stop_step _ _ _ _ _ _ _ _ _ hrow,
    early_stop_done]
  · rfl
  · rw [hit]; simp
  · rw [hit]; exact ⟨hmax, by norm_num⟩

attribute [irreducible] fround

/-! ### Roundings of the concrete inputs -/

theorem to_float_1 : to_float 1 = some 1 := by
  rw [to_float, fround_some 24 (-126) 127 _ 0 (2 ^ 23) (by norm_num) (by norm_num)
    (by norm_num) (by norm_num) (by norm_num) (by norm_num)]
  norm_num

theorem to_float_half : to_float (1 / 2) = some (1 / 2) := by
  rw [to_float, fround_some 24 (-126) 127 _ (-1) (2 ^ 23) (by norm_num) (by norm_num)
    (by norm_num) (by norm_num) (by norm_num) (by norm_num)]
  norm_num

theorem to_double_50 : to_double 50 = some 50 := by
  rw [to_double, fround_some 53 (-1022) 1023 _ 5 (50 * 2 ^ 47) (by norm_num) (by norm_num)
    (by norm_num) (by norm_num) (by norm_num) (by norm_num)]
  norm_num

theorem to_float_50 : to_float 50 = some 50 := by
  rw [to_float, fround_some 24 (-126) 127 _ 5 (50 * 2 ^ 18) (by norm_num) (by norm_num)
    (by norm_num) (by norm_num) (by norm_num) (by norm_num)]
  norm_num

theorem to_double_neg_750 : to_double (-750) = some (-750) := by
  rw [to_double, fround_some 53 (-1022) 1023 _ 9 (-(750 * 2 ^ 43)) (by norm_num) (by norm_num)
    (by norm_num) (by norm_num) (by norm_num) (by norm_num)]
  norm_num

theorem to_double_750 : to_double 750 = some 750 := by
  rw [to_double, fround_some 53 (-1022) 1023 _ 9 (750 * 2 ^ 43) (by norm_num) (by norm_num)
    (by norm_num) (by norm_num) (by norm_num) (by norm_num)]
  norm_num

theorem to_float_750 : to_float 750 = some 750 := by
  rw [to_float, fround_some 24 (-126) 127 _ 9 (750 * 2 ^ 14) (by norm_num) (by norm_num)
    (by norm_num) (by norm_num) (by norm_num) (by norm_num)]
  norm_num

/-- `50 - 2^-30` is a `double`. -/
theorem to_double_below_50 : to_double (50 - 1 / 2 ^ 30) = some (50 - 1 / 2 ^ 30) := by
  rw [to_double, fround_some 53 (-1022) 1023 _ 5 (50 * 2 ^ 47 - 2 ^ 17) (by norm_num)
    (by norm_num) (by norm_num) (by norm_num) (by norm_num) (by norm_num)]
  norm_num

/-- `50 - 2^-30` rounds to the `float` 50. -/
theorem to_float_below_50 : to_float (50 - 1 / 2 ^ 30) = some 50 := by
  rw [to_float, fround_some 24 (-126) 127 _ 5 (50 * 2 ^ 18) (by norm_num) (by norm_num)
    (by norm_num) (by norm_num) (by norm_num) (by norm_num)]
  norm_num

/-- `50 - 2^-29` is a `double`. -/
theorem to_double_below2_50 : to_double (50 - 1 / 2 ^ 29) = some (50 - 1 / 2 ^ 29) := by
  rw [to_double, fround_some 53 (-1022) 1023 _ 5 (50 * 2 ^ 47 - 2 ^ 18) (by norm_num)
    (by norm_num) (by norm_num) (by norm_num) (by norm_num) (by norm_num)]
  norm_num

/-- `50 - 2^-29` rounds to the `float` 50. -/
theorem to_float_below2_50 : to_float (50 - 1 / 2 ^ 29) = some 50 := by
  rw [to_float, fround_some 24 (-126) 127 _ 5 (50 * 2 ^ 18) (by norm_num) (by norm_num)
    (by norm_num) (by norm_num) (by norm_num) (by norm_num)]
  norm_num

/-- `50 + 2^-30` is a `double`. -/
theorem to_double_above_50 : to_double (50 + 1 / 2 ^ 30) = some (50 + 1 / 2 ^ 30) := by
  rw [to_double, fround_some 53 (-1022) 1023 _ 5 (50 * 2 ^ 47 + 2 ^ 17) (by norm_num)
    (by norm_num) (by norm_num) (by norm_num) (by norm_num) (by norm_num)]
  norm_num

/-- `50 + 2^-30` rounds to the `float` 50. -/
theorem to_float_above_50 : to_float (50 + 1 / 2 ^ 30) = some 50 := by
  rw [to_float, fround_some 24 (-126) 127 _ 5 (50 * 2 ^ 18) (by norm_num) (by norm_num)
    (by norm_num) (by norm_num) (by norm_num) (by norm_num)]
  norm_num

theorem to_double_neg_huge : to_double (-(2 ^ 130)) = some (-(2 ^ 130)) := by
  rw [to_double, fround_some 53 (-1022) 1023 _ 130 (-(2 ^ 52)) (by norm_num) (by norm_num)
    (by norm_num) (by norm_num) (by norm_num) (by norm_num)]
  norm_num

theorem to_double_huge : to_double (2 ^ 130) = some (2 ^ 130) := by
  rw [to_double, fround_some 53 (-1022) 1023 _ 130 (2 ^ 52) (by norm_num) (by norm_num)
    (by norm_num) (by norm_num) (by norm_num) (by norm_num)]
  norm_num

/-- `2^130` overflows the `float` range. -/
theorem to_float_huge : to_float (2 ^ 130) = none :=
  fround_none 24 (-126) 127 _ 130 (2 ^ 23) (by norm_num) (by norm_num)
    (by norm_num) (by norm_num) (by norm_num) (by norm_num)

/-- The `double` nearest to `0.1` converts to the `float` `0x1.99999ap-4`. -/
theorem to_float_tenth : to_float (3602879701896397 / 2 ^ 55) = some (13421773 / 2 ^ 27) := by
  rw [to_float, fround_some 24 (-126) 127 _ (-4) 13421773 (by norm_num) (by norm_num)
    (by norm_num) (by norm_num) (by norm_num) (by norm_num)]
  norm_num

/-- The `double` nearest to `0.9` converts to the `float` `0x1.ccccccp-1`. -/
theorem to_float_nine_tenths :
    to_float (8106479329266893 / 2 ^ 53) = some (7549747 / 2 ^ 23) := by
  rw [to_float, fround_some 24 (-126) 127 _ (-1) 15099494 (by norm_num) (by norm_num)
    (by norm_num) (by norm_num) (by norm_num) (by norm_num)]
  norm_num

/-- The `double` nearest to `0.01`, times 10000, is the `double` 100. -/
theorem to_double_scaled_100 : to_double (5764607523034235 / 2 ^ 59 * 10000) = some 100 := by
  rw [to_double, fround_some 53 (-1022) 1023 _ 6 (100 * 2 ^ 46) (by norm_num) (by norm_num)
    (by norm_num) (by norm_num) (by norm_num) (by norm_num)]
  norm_num

/-- The `double` nearest to `0.09`, times 10000, is the `double` 900. -/
theorem to_double_scaled_900 : to_double (6485183463413514 / 2 ^ 56 * 10000) = some 900 := by
  rw [to_double, fround_some 53 (-1022) 1023 _ 9 (900 * 2 ^ 43) (by norm_num) (by norm_num)
    (by norm_num) (by norm_num) (by norm_num) (by norm_num)]
  norm_num

/-- The observation cells of the concrete tables below are values the scaling
of lines 134-138 produces: `100 + 2^-30`, `100 + 2^-29`, `100 - 2^-30` and
`2^130` are the `double` products by 10000 of the `double` file cells
`0x1.47ae147aee632p-7`, `0x1.47ae147afb7e9p-7`, `0x1.47ae147ad42c4p-7` and
`0x1.a36e2eb1c432dp+116`. -/
theorem to_double_scaled_close_0 :
    to_double (2882303761543961 / 2 ^ 58 * 10000) = some (100 + 1 / 2 ^ 30) := by
  rw [to_double, fround_some 53 (-1022) 1023 _ 6 (100 * 2 ^ 46 + 2 ^ 16) (by norm_num)
    (by norm_num) (by norm_num) (by norm_num) (by norm_num) (by norm_num)]
  norm_num

theorem to_double_scaled_close_1 :
    to_double (5764607523141609 / 2 ^ 59 * 10000) = some (100 + 1 / 2 ^ 29) := by
  rw [to_double, fround_some 53 (-1022) 1023 _ 6 (100 * 2 ^ 46 + 2 ^ 17) (by norm_num)
    (by norm_num) (by norm_num) (by norm_num) (by norm_num) (by norm_num)]
  norm_num

theorem to_double_scaled_near :
    to_double (1441151880745137 / 2 ^ 57 * 10000) = some (100 - 1 / 2 ^ 30) := by
  rw [to_double, fround_some 53 (-1022) 1023 _ 6 (100 * 2 ^ 46 - 2 ^ 16) (by norm_num)
    (by norm_num) (by norm_num) (by norm_num) (by norm_num) (by norm_num)]
  norm_num

theorem to_double_scaled_huge :
    to_double (136112946768375391908118547436404736 * 10000) = some (2 ^ 130) := by
  rw [to_double, fround_some 53 (-1022) 1023 _ 130 (2 ^ 52) (by norm_num)
    (by norm_num) (by norm_num) (by norm_num) (by norm_num) (by norm_num)]
  norm_num

/-! ### The error of a row of a one-band table -/

theorem mae_one_band (simulations : table_t) (image : ℕ → ℤ) (i : ℕ) {d x s f : ℚ}
    {r : Option ℚ} (hd : simulations.data i 0 = some d)
    (h1 : to_double ((image 0 : ℚ) - d) = some x) (h2 : to_double |x| = some s)
    (h3 : to_float s = some f) (h4 : to_float f = r) :
    mae simulations 1 image i = r := by
  have hs : sum_abs 1 image (simulations.data i) = some f := by
    rw [sum_abs_succ]
    simp [sum_abs, add_abs, hd, h1, h2, h3]
  simp [mae, hs, h4, to_float_1]

theorem mae_one_band_overflow (simulations : table_t) (image : ℕ → ℤ) (i : ℕ) {d x s : ℚ}
    (hd : simulations.data i 0 = some d)
    (h1 : to_double ((image 0 : ℚ) - d) = some x) (h2 : to_double |x| = some s)
    (h3 : to_float s = none) :
    mae simulations 1 image i = none := by
  have hs : sum_abs 1 image (simulations.data i) = none := by
    rw [sum_abs_succ]
    simp [sum_abs, add_abs, hd, h1, h2, h3]
  simp [mae, hs]

/-- Scenario A: the computed errors of the rows `[100]`, `[900]` are 50, 750. -/
theorem mae_scenario_0 : mae scenario_sim 1 scenario_pixel 0 = some 50 :=
  mae_one_band scenario_sim scenario_pixel 0 (d := 100) (x := 50) (s := 50) (f := 50)
    (by simp [scenario_sim, finite_table, scenario_cells])
    (by norm_num [scenario_pixel, to_double_50]) (by norm_num [to_double_50])
    to_float_50 to_float_50

theorem mae_scenario_1 : mae scenario_sim 1 scenario_pixel 1 = some 750 :=
  mae_one_band scenario_sim scenario_pixel 1 (d := 900) (x := -750) (s := 750) (f := 750)
    (by simp [scenario_sim, finite_table, scenario_cells])
    (by norm_num [scenario_pixel, to_double_neg_750]) (by norm_num [to_double_750])
    to_float_750 to_float_750

/-- The rows `[100 + 2^-30]`, `[100 + 2^-29]`: both computed errors are 50. -/
theorem mae_close_0 : mae close_sim 1 scenario_pixel 0 = some 50 :=
  mae_one_band close_sim scenario_pixel 0 (d := 100 + 1 / 2 ^ 30) (x := 50 - 1 / 2 ^ 30)
    (s := 50 - 1 / 2 ^ 30) (f := 50)
    (by simp [close_sim, finite_table, close_cells])
    (by
      have h : ((scenario_pixel 0 : ℤ) : ℚ) - (100 + 1 / 2 ^ 30) = 50 - 1 / 2 ^ 30 := by
        norm_num [scenario_pixel]
      rw [h, to_double_below_50])
    (by
      have h : |(50 : ℚ) - 1 / 2 ^ 30| = 50 - 1 / 2 ^ 30 := abs_of_pos (by norm_num)
      rw [h, to_double_below_50])
    to_float_below_50 to_float_50

theorem mae_close_1 : mae close_sim 1 scenario_pixel 1 = some 50 :=
  mae_one_band close_sim scenario_pixel 1 (d := 100 + 1 / 2 ^ 29) (x := 50 - 1 / 2 ^ 29)
    (s := 50 - 1 / 2 ^ 29) (f := 50)
    (by simp [close_sim, finite_table, close_cells])
    (by
      have h : ((scenario_pixel 0 : ℤ) : ℚ) - (100 + 1 / 2 ^ 29) = 50 - 1 / 2 ^ 29 := by
        norm_num [scenario_pixel]
      rw [h, to_double_below2_50])
    (by
      have h : |(50 : ℚ) - 1 / 2 ^ 29| = 50 - 1 / 2 ^ 29 := abs_of_pos (by norm_num)
      rw [h, to_double_below2_50])
    to_float_below2_50 to_float_50

/-- The row `[100 - 2^-30]`: the computed error is 50. -/
theorem mae_near_0 : mae near_sim 1 scenario_pixel 0 = some 50 :=
  mae_one_band near_sim scenario_pixel 0 (d := 100 - 1 / 2 ^ 30) (x := 50 + 1 / 2 ^ 30)
    (s := 50 + 1 / 2 ^ 30) (f := 50)
    (by simp [near_sim, finite_table])
    (by
      have h : ((scenario_pixel 0 : ℤ) : ℚ) - (100 - 1 / 2 ^ 30) = 50 + 1 / 2 ^ 30 := by
        norm_num [scenario_pixel]
      rw [h, to_double_above_50])
    (by
      have h : |(50 : ℚ) + 1 / 2 ^ 30| = 50 + 1 / 2 ^ 30 := abs_of_pos (by norm_num)
      rw [h, to_double_above_50])
    to_float_above_50 to_float_50

/-- The row `[2^130]` against the pixel `[0]`: the computed error is not
finite. -/
theorem mae_huge (i : ℕ) : mae huge_sim 1 zero_pixel i = none :=
  mae_one_band_overflow huge_sim zero_pixel i (d := 2 ^ 130) (x := -(2 ^ 130))
    (s := 2 ^ 130)
    (by simp [huge_sim, finite_table])
    (by
      have h : ((zero_pixel 0 : ℤ) : ℚ) - 2 ^ 130 = -(2 ^ 130) := by norm_num [zero_pixel]
      rw [h, to_double_neg_huge])
    (by rw [abs_neg, abs_of_pos (by norm_num), to_double_huge])
    to_float_huge

theorem mae_huge2 (i : ℕ) : mae huge_sim2 1 zero_pixel i = none :=
  mae_one_band_overflow huge_sim2 zero_pixel i (d := 2 ^ 130) (x := -(2 ^ 130))
    (s := 2 ^ 130)
    (by simp [huge_sim2, finite_table])
    (by
      have h : ((zero_pixel 0 : ℤ) : ℚ) - 2 ^ 130 = -(2 ^ 130) := by norm_num [zero_pixel]
      rw [h, to_double_neg_huge])
    (by rw [abs_neg, abs_of_pos (by norm_num), to_double_huge])
    to_float_huge

theorem valid_scenario_pixel : valid 1 scenario_pixel := by
  intro b _
  simp [scenario_pixel, SHRT_MIN, SHRT_MAX]

theorem valid_zero_pixel : valid 1 zero_pixel := by
  intro b _
  simp [zero_pixel, SHRT_MIN, SHRT_MAX]

theorem MAE_one_band (v : ℕ → ℤ) (row : ℕ → ℚ) : MAE 1 v row = |(v 0 : ℚ) - row 0| := by
  simp [MAE]

/-- The exhaustive scan of a two-row table, written out. -/
theorem scan_two (simulations : table_t) (nband : ℕ) (image : ℕ → ℤ) (idx : ℕ → ℕ)
    (s : search_t) :
    scan simulations nband image idx 2 s =
      update (update s (idx 0) (mae simulations nband image (idx 0))) (idx 1)
        (mae simulations nband image (idx 1)) := by
  rw [scan_succ, scan_succ, scan_zero]

theorem scan_one (simulations : table_t) (nband : ℕ) (image : ℕ → ℤ) (idx : ℕ → ℕ)
    (s : search_t) :
    scan simulations nband image idx 1 s =
      update s (idx 0) (mae simulations nband image (idx 0)) := by
  rw [scan_succ, scan_zero]

theorem update_init_50 (i : ℕ) : update init i (some 50) = ⟨50, (i : ℤ)⟩ := by
  simp only [update, init]
  rw [if_pos (by norm_num [FLT_MAX])]

/-- Scenario A under the exhaustive policy: the search ends on row 0, error 50. -/
theorem scenario_A_search :
    search ⟨1, 0⟩ scenario_sim 1 scenario_pixel (fun _ => 0) 0 =
      Except.ok (⟨50, 0⟩, 0, 0) := by
  rw [search_exhaustive _ _ _ _ _ _ (by norm_num [FLT_EPSILON])]
  have h : scenario_sim.nrow = 2 := rfl
  rw [h, scan_two, mae_scenario_0, mae_scenario_1, update_init_50]
  simp only [update]
  rw [if_neg (by norm_num)]
  simp

theorem matched_one_col (lut : table_t) (i : ℕ) (e : ℚ) (h : lut.ncol = 1) :
    matched lut i e = [(lut.data i 0).bind to_float, some e] := by
  simp [matched, h, List.range_succ]

theorem store_found_zero (lut : table_t) (v : ℚ) :
    store lut ⟨v, 0⟩ (nodata lut.ncol) = matched lut 0 v := by
  have h := store_found lut v 0
  simp only [Nat.cast_zero] at h
  exact h

theorem store_found_one (lut : table_t) (v : ℚ) :
    store lut ⟨v, 1⟩ (nodata lut.ncol) = matched lut 1 v := by
  have h := store_found lut v 1
  simp only [Nat.cast_one] at h
  exact h

theorem scenario_lut_0 : scenario_lut.data 0 0 = some (3602879701896397 / 2 ^ 55) := rfl

theorem scenario_lut_1 : scenario_lut.data 1 0 = some (8106479329266893 / 2 ^ 53) := rfl

theorem half_lut_cell (i : ℕ) : half_lut.data i 0 = some (1 / 2) := rfl

theorem matched_scenario_0 (e : ℚ) :
    matched scenario_lut 0 e = [some (13421773 / 2 ^ 27), some e] := by
  rw [matched_one_col _ _ _ rfl, scenario_lut_0, Option.some_bind, to_float_tenth]

theorem matched_scenario_1 (e : ℚ) :
    matched scenario_lut 1 e = [some (7549747 / 2 ^ 23), some e] := by
  rw [matched_one_col _ _ _ rfl, scenario_lut_1, Option.some_bind, to_float_nine_tenths]

theorem matched_half (i : ℕ) (e : ℚ) : matched half_lut i e = [some (1 / 2), some e] := by
  rw [matched_one_col _ _ _ rfl, half_lut_cell, Option.some_bind, to_float_half]

/-- Scenario A of the specification, evaluated: the output is the `float`
nearest to 0.1 (`0x1.99999ap-4`) and the error 50. -/
theorem scenario_A :
    main_cell ⟨1, 0⟩ scenario_lut scenario_sim 1 scenario_pixel (fun _ => 0) 0 =
      Except.ok ([some (13421773 / 2 ^ 27), some 50], 0) := by
  rw [main_cell_ok _ _ _ _ _ _ _ ((skip_eq_false_iff _ _).mpr valid_scenario_pixel)
    scenario_A_search, store_found_zero, matched_scenario_0]

/-- The table `[100 + 2^-30]`, `[100 + 2^-29]` under the exhaustive policy: the
search keeps row 0 with error 50. -/
theorem close_search :
    search ⟨1, 0⟩ close_sim 1 scenario_pixel (fun _ => 0) 0 = Except.ok (⟨50, 0⟩, 0, 0) := by
  rw [search_exhaustive _ _ _ _ _ _ (by norm_num [FLT_EPSILON])]
  have h : close_sim.nrow = 2 := rfl
  rw [h, scan_two, mae_close_0, mae_close_1, update_init_50]
  simp only [update]
  rw [if_neg (by norm_num)]
  simp

theorem close_cell :
    main_cell ⟨1, 0⟩ half_lut close_sim 1 scenario_pixel (fun _ => 0) 0 =
      Except.ok ([some (1 / 2), some 50], 0) := by
  rw [main_cell_ok _ _ _ _ _ _ _ ((skip_eq_false_iff _ _).mpr valid_scenario_pixel)
    close_search, store_found_zero, matched_half]

/-- The table `[2^130]` under the exhaustive policy: no row is stored. -/
theorem huge_search :
    search ⟨1, 0⟩ huge_sim 1 zero_pixel (fun _ => 0) 0 = Except.ok (init, 0, 0) := by
  rw [search_exhaustive _ _ _ _ _ _ (by norm_num [FLT_EPSILON])]
  have h : huge_sim.nrow = 1 := rfl
  rw [h, scan_one, mae_huge]
  rfl

theorem nodata_one : nodata 1 = [some (-1), some (-1)] := rfl

theorem huge_cell :
    main_cell ⟨1, 0⟩ half_lut huge_sim 1 zero_pixel (fun _ => 0) 0 =
      Except.ok ([some (-1), some (-1)], 0) := by
  rw [main_cell_ok _ _ _ _ _ _ _ ((skip_eq_false_iff _ _).mpr valid_zero_pixel) huge_search,
    store_init]
  rfl

/-! ### Concrete tables: exact errors -/

theorem verbatim_one_col (lut : table_t) (i : ℕ) (e : ℚ) (h : lut.ncol = 1) :
    verbatim lut i e = [lut.data i 0, some e] := by
  simp [verbatim, h, List.range_succ]

theorem MAE_close_0 : MAE 1 scenario_pixel (close_cells 0) = 50 - 1 / 2 ^ 30 := by
  rw [MAE_one_band]
  norm_num [scenario_pixel, close_cells, abs_of_pos]

theorem MAE_close_1 : MAE 1 scenario_pixel (close_cells 1) = 50 - 1 / 2 ^ 29 := by
  rw [MAE_one_band]
  norm_num [scenario_pixel, close_cells, abs_of_pos]

theorem MAE_huge : MAE 1 zero_pixel (fun _ => 2 ^ 130) = 2 ^ 130 := by
  rw [MAE_one_band]
  norm_num [zero_pixel]

theorem MAE_scenario_0 : MAE 1 scenario_pixel (scenario_cells 0) = 50 := by
  rw [MAE_one_band]
  norm_num [scenario_pixel, scenario_cells]

theorem MAE_scenario_1 : MAE 1 scenario_pixel (scenario_cells 1) = 750 := by
  rw [MAE_one_band]
  norm_num [scenario_pixel, scenario_cells]

/-! ### Claims -/

/-- C1 (amended). Under the exhaustive policy (`accuracy <= FLT_EPSILON`), for
a pixel without sentinel band and an observation table in which some row has a
computed error (the MAE formula as the code evaluates it: `double` differences,
`float` running sum, `float` division) that is finite and below `FLT_MAX`, the
cell's output is a parameter row, converted to `float`, followed by an error
that is the minimum of the computed errors of all rows: no row has a strictly
smaller computed error. -/
theorem C1_exhaustive_error_is_minimum (args : args_t) (lut simulations : table_t)
    (nband : ℕ) (image : ℕ → ℤ) (rand : ℕ → ℕ) (calls : ℕ)
    (hacc : args.accuracy ≤ FLT_EPSILON) (hvalid : valid nband image)
    (hrow : ∃ i, i < simulations.nrow ∧
      ∃ v, mae simulations nband image i = some v ∧ v < FLT_MAX) :
    ∃ i e, i < simulations.nrow ∧ mae simulations nband image i = some e ∧
      main_cell args lut simulations nband image rand calls =
        Except.ok (matched lut i e, calls) ∧
      ∀ k, k < simulations.nrow → ∀ v, mae simulations nband image k = some v → e ≤ v := by
  obtain ⟨i, e, hi, hm, hscan, hle, _⟩ :=
    scan_first_minimum simulations nband image (fun i => i) simulations.nrow hrow
  refine ⟨i, e, hi, hm, ?_, hle⟩
  rw [main_cell_ok args lut simulations nband image rand calls
    ((skip_eq_false_iff _ _).mpr hvalid) (search_exhaustive _ _ _ _ _ _ hacc), hscan,
    store_found]

/-- Scenario A of the specification, through C1: rows `[100]`, `[900]`, pixel
`[150]`, accuracy 0. -/
theorem C1_witness :
    (0 : ℚ) ≤ FLT_EPSILON ∧ valid 1 scenario_pixel ∧
    (∃ i, i < scenario_sim.nrow ∧
      ∃ v, mae scenario_sim 1 scenario_pixel i = some v ∧ v < FLT_MAX) ∧
    ∃ i e, i < scenario_sim.nrow ∧ mae scenario_sim 1 scenario_pixel i = some e ∧
      main_cell ⟨1, 0⟩ scenario_lut scenario_sim 1 scenario_pixel (fun _ => 0) 0 =
        Except.ok (matched scenario_lut i e, 0) ∧
      ∀ k, k < scenario_sim.nrow →
        ∀ v, mae scenario_sim 1 scenario_pixel k = some v → e ≤ v :=
  have hrow : ∃ i, i < scenario_sim.nrow ∧
      ∃ v, mae scenario_sim 1 scenario_pixel i = some v ∧ v < FLT_MAX :=
    ⟨0, by decide, 50, mae_scenario_0, by norm_num [FLT_MAX]⟩
  ⟨by norm_num [FLT_EPSILON], valid_scenario_pixel, hrow,
    C1_exhaustive_error_is_minimum ⟨1, 0⟩ scenario_lut scenario_sim 1 scenario_pixel
      (fun _ => 0) 0 (by norm_num [FLT_EPSILON]) valid_scenario_pixel hrow⟩

/-- C1 as stated fails, in two ways.  Accuracy 0, the valid pixel `[150]` and
the rows `[100 + 2^-30]`, `[100 + 2^-29]`: the error reported is 50, while the
MAE of row 1 is `50 - 2^-29`, strictly smaller.  Accuracy 0, the valid pixel
`[0]` and the one-row table `[2^130]`: the only row has MAE `2^130`, and the
cell's output is the no-data vector `[-1, -1]`. -/
theorem C1_counterexample :
    ((0 : ℚ) ≤ FLT_EPSILON ∧ valid 1 scenario_pixel ∧ 0 < close_sim.nrow ∧
      main_cell ⟨1, 0⟩ half_lut close_sim 1 scenario_pixel (fun _ => 0) 0 =
        Except.ok ([some (1 / 2), some 50], 0) ∧
      MAE 1 scenario_pixel (close_cells 1) = 50 - 1 / 2 ^ 29 ∧
      (50 - 1 / 2 ^ 29 : ℚ) < 50) ∧
    (valid 1 zero_pixel ∧ 0 < huge_sim.nrow ∧
      main_cell ⟨1, 0⟩ half_lut huge_sim 1 zero_pixel (fun _ => 0) 0 =
        Except.ok ([some (-1), some (-1)], 0) ∧
      MAE 1 zero_pixel (fun _ => 2 ^ 130) = 2 ^ 130) :=
  ⟨⟨by norm_num [FLT_EPSILON], valid_scenario_pixel, by decide, close_cell, MAE_close_1,
      by norm_num⟩,
    valid_zero_pixel, by decide, huge_cell, MAE_huge⟩

/-- C2 (amended). For either policy and every pixel: every output vector of the
cell has length `ncol + 1`, and when it is not the no-data vector there is a
row index `i < nrow` such that the first `ncol` output values are row `i` of
the parameter table, each cell converted to `float`, and the trailing value is
the error the code computes for row `i` of the observation table.  With at
least one row in the table the cell always has an output. -/
theorem C2_output_is_parameter_row_and_its_error (args : args_t) (lut simulations : table_t)
    (nband : ℕ) (image : ℕ → ℤ) (rand : ℕ → ℕ) (calls : ℕ) :
    (∀ out calls1,
      main_cell args lut simulations nband image rand calls = Except.ok (out, calls1) →
        out.length = lut.ncol + 1 ∧
        (out ≠ nodata lut.ncol →
          ∃ i e, i < simulations.nrow ∧ mae simulations nband image i = some e ∧
            out = matched lut i e)) ∧
    (simulations.nrow ≠ 0 →
      ∃ out calls1,
        main_cell args lut simulations nband image rand calls = Except.ok (out, calls1)) := by
  constructor
  · intro out calls1 h
    cases hskip : skip nband image with
    | true =>
      rw [main_cell_skip _ _ _ _ _ _ _ hskip] at h
      cases h
      exact ⟨nodata_length _, fun hne => absurd rfl hne⟩
    | false =>
      cases hs : search args simulations nband image rand calls with
      | error e =>
        rw [main_cell_error _ _ _ _ _ _ _ hskip hs] at h
        cases h
      | ok r =>
        obtain ⟨s, ctr, c1⟩ := r
        rw [main_cell_ok _ _ _ _ _ _ _ hskip hs] at h
        cases h
        refine ⟨store_length _ _, fun hne => ?_⟩
        obtain ⟨idx, n, hbest, hidx⟩ := search_ok_best _ _ _ _ _ _ hs
        rcases store_of_best lut simulations nband image idx n s hbest with
          ⟨_, hnd⟩ | ⟨j, hj, hm, _, hst⟩
        · exact absurd hnd hne
        · exact ⟨idx j, s.min_mae, hidx j hj, hm, hst⟩
  · intro hrow
    cases hskip : skip nband image with
    | true => exact ⟨_, _, main_cell_skip _ _ _ _ _ _ _ hskip⟩
    | false =>
      obtain ⟨s, ctr, c1, hs⟩ := search_returns args simulations nband image rand calls hrow
      exact ⟨_, _, main_cell_ok _ _ _ _ _ _ _ hskip hs⟩

theorem scenario_A_ne_nodata :
    ([some (13421773 / 2 ^ 27), some 50] : List (Option ℚ)) ≠ nodata scenario_lut.ncol := by
  rw [show nodata scenario_lut.ncol = [some (-1), some (-1)] from rfl]
  intro h
  injection h with h1 _
  injection h1 with h1
  norm_num at h1

/-- C2 at scenario A of the specification: the output, the `float` nearest to
0.1 followed by 50, is not the no-data vector, has length 2 and is a converted
parameter row with the computed error of the same observation row. -/
theorem C2_witness :
    main_cell ⟨1, 0⟩ scenario_lut scenario_sim 1 scenario_pixel (fun _ => 0) 0
      = Except.ok ([some (13421773 / 2 ^ 27), some 50], 0) ∧
    ([some (13421773 / 2 ^ 27), some 50] : List (Option ℚ)) ≠ nodata scenario_lut.ncol ∧
    ([some (13421773 / 2 ^ 27), some 50] : List (Option ℚ)).length = scenario_lut.ncol + 1 ∧
    (∃ i e, i < scenario_sim.nrow ∧ mae scenario_sim 1 scenario_pixel i = some e ∧
      ([some (13421773 / 2 ^ 27), some 50] : List (Option ℚ)) = matched scenario_lut i e) ∧
    (∃ out calls1,
      main_cell ⟨1, 0⟩ scenario_lut scenario_sim 1 scenario_pixel (fun _ => 0) 0
        = Except.ok (out, calls1)) :=
  have h := C2_output_is_parameter_row_and_its_error ⟨1, 0⟩ scenario_lut scenario_sim 1
    scenario_pixel (fun _ => 0) 0
  ⟨scenario_A, scenario_A_ne_nodata, (h.1 _ _ scenario_A).1,
    (h.1 _ _ scenario_A).2 scenario_A_ne_nodata, h.2 (by decide)⟩

/-- C2 as stated fails, in two ways.  Scenario A: the output is
`[0x1.99999ap-4, 50]`; its first value is the parameter cell converted to
`float`, not the cell itself (the `double` nearest to 0.1), so the output is
row `i` verbatim followed by `MAE(v, row i)` for no `i`.  The rows
`[100 + 2^-30]`, `[100 + 2^-29]`: the output is `[0.5, 50]` and its trailing
value 50 is the MAE of neither row. -/
theorem C2_counterexample :
    (main_cell ⟨1, 0⟩ scenario_lut scenario_sim 1 scenario_pixel (fun _ => 0) 0
        = Except.ok ([some (13421773 / 2 ^ 27), some 50], 0) ∧
      ([some (13421773 / 2 ^ 27), some 50] : List (Option ℚ)) ≠ nodata scenario_lut.ncol ∧
      ∀ i, i < scenario_sim.nrow →
        ([some (13421773 / 2 ^ 27), some 50] : List (Option ℚ)) ≠
          verbatim scenario_lut i (MAE 1 scenario_pixel (scenario_cells i))) ∧
    (main_cell ⟨1, 0⟩ half_lut close_sim 1 scenario_pixel (fun _ => 0) 0 =
        Except.ok ([some (1 / 2), some 50], 0) ∧
      MAE 1 scenario_pixel (close_cells 0) ≠ 50 ∧ MAE 1 scenario_pixel (close_cells 1) ≠ 50) := by
  refine ⟨⟨scenario_A, scenario_A_ne_nodata, fun i hi => ?_⟩, close_cell, ?_, ?_⟩
  · have h2 : scenario_sim.nrow = 2 := rfl
    rw [h2] at hi
    rw [verbatim_one_col _ _ _ rfl]
    intro h
    injection h with h1 _
    have hcases : i = 0 ∨ i = 1 := by omega
    rcases hcases with h0 | h0
    · subst h0
      rw [scenario_lut_0] at h1
      injection h1 with h1
      norm_num at h1
    · subst h0
      rw [scenario_lut_1] at h1
      injection h1 with h1
      norm_num at h1
  · rw [MAE_close_0]
    norm_num
  · rw [MAE_close_1]
    norm_num

/-- C3. For every pixel with a band equal to `SHRT_MIN` or `SHRT_MAX`, whatever
the tables, accuracy and iteration count, the cell's output is `ncol + 1`
copies of `-1.0` (and no `rand()` call is made). -/
theorem C3_sentinel_pixel_gives_nodata (args : args_t) (lut simulations : table_t)
    (nband : ℕ) (image : ℕ → ℤ) (rand : ℕ → ℕ) (calls : ℕ)
    (h : ∃ b, b < nband ∧ (image b = SHRT_MIN ∨ image b = SHRT_MAX)) :
    main_cell args lut simulations nband image rand calls =
      Except.ok (List.replicate (lut.ncol + 1) (some (-1)), calls) :=
  main_cell_skip args lut simulations nband image rand calls
    ((skip_eq_true_iff nband image).mpr h)

/-- Scenario B of the specification, through C3: the pixel `[-32768, 500]`. -/
theorem C3_witness :
    (∃ b, b < 2 ∧ (sentinel_pixel b = SHRT_MIN ∨ sentinel_pixel b = SHRT_MAX)) ∧
    main_cell ⟨100, default_accuracy⟩ scenario_lut scenario_sim 2 sentinel_pixel (fun k => k) 0 =
      Except.ok (List.replicate (scenario_lut.ncol + 1) (some (-1)), 0) :=
  have h : ∃ b, b < 2 ∧ (sentinel_pixel b = SHRT_MIN ∨ sentinel_pixel b = SHRT_MAX) :=
    ⟨0, by decide, Or.inl (by decide)⟩
  ⟨h, C3_sentinel_pixel_gives_nodata ⟨100, default_accuracy⟩ scenario_lut scenario_sim 2
    sentinel_pixel (fun k => k) 0 h⟩

/-- C4 (amended). Under the exhaustive policy, for a pixel without sentinel
band and an observation table in which some row has a computed error that is
finite and below `FLT_MAX`, the row index selected is the smallest index among
the rows whose computed error is the minimum of the computed errors; the
update rule keeps the current best whenever the new row's error is not
strictly less. -/
theorem C4_exhaustive_selects_first_minimum (args : args_t) (lut simulations : table_t)
    (nband : ℕ) (image : ℕ → ℤ) (rand : ℕ → ℕ) (calls : ℕ)
    (hacc : args.accuracy ≤ FLT_EPSILON) (hvalid : valid nband image)
    (hrow : ∃ i, i < simulations.nrow ∧
      ∃ v, mae simulations nband image i = some v ∧ v < FLT_MAX) :
    (∃ i e, i < simulations.nrow ∧ mae simulations nband image i = some e ∧
      search args simulations nband image rand calls =
        Except.ok (⟨e, (i : ℤ)⟩, 0, calls) ∧
      main_cell args lut simulations nband image rand calls =
        Except.ok (matched lut i e, calls) ∧
      (∀ k, k < simulations.nrow → ∀ v, mae simulations nband image k = some v → e ≤ v) ∧
      (∀ k, k < i → ∀ v, mae simulations nband image k = some v → e < v)) ∧
    (∀ (s : search_t) (i : ℕ) (v : ℚ), s.min_mae ≤ v → update s i (some v) = s) := by
  constructor
  · obtain ⟨i, e, hi, hm, hscan, hle, hfirst⟩ :=
      scan_first_minimum simulations nband image (fun i => i) simulations.nrow hrow
    have hs := search_exhaustive args simulations nband image rand calls hacc
    rw [hscan] at hs
    refine ⟨i, e, hi, hm, hs, ?_, hle, hfirst⟩
    rw [main_cell_ok args lut simulations nband image rand calls
      ((skip_eq_false_iff _ _).mpr hvalid) hs, store_found]
  · intro s i v hv
    simp [update, not_lt.mpr hv]

/-- C4 at scenario A of the specification. -/
theorem C4_witness :
    (0 : ℚ) ≤ FLT_EPSILON ∧ valid 1 scenario_pixel ∧
    (∃ i, i < scenario_sim.nrow ∧
      ∃ v, mae scenario_sim 1 scenario_pixel i = some v ∧ v < FLT_MAX) ∧
    ((∃ i e, i < scenario_sim.nrow ∧ mae scenario_sim 1 scenario_pixel i = some e ∧
      search ⟨1, 0⟩ scenario_sim 1 scenario_pixel (fun _ => 0) 0 =
        Except.ok (⟨e, (i : ℤ)⟩, 0, 0) ∧
      main_cell ⟨1, 0⟩ scenario_lut scenario_sim 1 scenario_pixel (fun _ => 0) 0 =
        Except.ok (matched scenario_lut i e, 0) ∧
      (∀ k, k < scenario_sim.nrow →
        ∀ v, mae scenario_sim 1 scenario_pixel k = some v → e ≤ v) ∧
      (∀ k, k < i → ∀ v, mae scenario_sim 1 scenario_pixel k = some v → e < v)) ∧
    (∀ (s : search_t) (i : ℕ) (v : ℚ), s.min_mae ≤ v → update s i (some v) = s)) :=
  have hrow : ∃ i, i < scenario_sim.nrow ∧
      ∃ v, mae scenario_sim 1 scenario_pixel i = some v ∧ v < FLT_MAX :=
    ⟨1, by decide, 750, mae_scenario_1, by norm_num [FLT_MAX]⟩
  ⟨by norm_num [FLT_EPSILON], valid_scenario_pixel, hrow,
    C4_exhaustive_selects_first_minimum ⟨1, 0⟩ scenario_lut scenario_sim 1 scenario_pixel
      (fun _ => 0) 0 (by norm_num [FLT_EPSILON]) valid_scenario_pixel hrow⟩

/-- The table `[2^130]`, `[2^130]` under the exhaustive policy: no row is
stored. -/
theorem huge2_search :
    search ⟨1, 0⟩ huge_sim2 1 zero_pixel (fun _ => 0) 0 = Except.ok (init, 0, 0) := by
  rw [search_exhaustive _ _ _ _ _ _ (by norm_num [FLT_EPSILON])]
  have h : huge_sim2.nrow = 2 := rfl
  rw [h, scan_two, mae_huge2, mae_huge2]
  rfl

/-- C4 as stated fails, in two ways.  Accuracy 0, the valid pixel `[150]` and
the rows `[100 + 2^-30]`, `[100 + 2^-29]`: the index selected is 0, while the
only row that attains the minimum MAE is row 1.  Accuracy 0, the valid pixel
`[0]` and the rows `[2^130]`, `[2^130]`: both rows attain the minimum MAE, the
smallest such index is 0, yet the index selected is `-1`. -/
theorem C4_counterexample :
    ((0 : ℚ) ≤ FLT_EPSILON ∧ valid 1 scenario_pixel ∧ 0 < close_sim.nrow ∧
      search ⟨1, 0⟩ close_sim 1 scenario_pixel (fun _ => 0) 0 =
        Except.ok (⟨50, 0⟩, 0, 0) ∧
      MAE 1 scenario_pixel (close_cells 1) < MAE 1 scenario_pixel (close_cells 0)) ∧
    (valid 1 zero_pixel ∧ 0 < huge_sim2.nrow ∧
      search ⟨1, 0⟩ huge_sim2 1 zero_pixel (fun _ => 0) 0 =
        Except.ok (⟨FLT_MAX, -1⟩, 0, 0) ∧
      MAE 1 zero_pixel (fun _ => 2 ^ 130) = 2 ^ 130) := by
  refine ⟨⟨by norm_num [FLT_EPSILON], valid_scenario_pixel, by decide, close_search, ?_⟩,
    valid_zero_pixel, by decide, huge2_search, MAE_huge⟩
  rw [MAE_close_0, MAE_close_1]
  norm_num

/-! ### The stochastic policy -/

/-- One turn of the early-stop loop at a known draw and a known error. -/
theorem early_stop_step_at (args : args_t) (simulations : table_t) (nband : ℕ)
    (image : ℕ → ℤ) (rand : ℕ → ℕ) (s : search_t) (ctr : ℤ) (calls : ℕ) (i : ℕ)
    (m : Option ℚ) (h : s.min_mae > args.accuracy ∧ ctr < args.max_iterations)
    (h0 : simulations.nrow ≠ 0) (hi : rand calls % simulations.nrow = i)
    (hm : mae simulations nband image i = m) :
    early_stop args simulations nband image rand s ctr calls =
      early_stop args simulations nband image rand (update s i m) (ctr + 1) (calls + 1) := by
  rw [early_stop_step _ _ _ _ _ _ _ _ h h0, hi, hm]

theorem update_none (s : search_t) (i : ℕ) : update s i none = s := rfl

theorem update_some_lt (s : search_t) (i : ℕ) {v : ℚ} (h : v < s.min_mae) :
    update s i (some v) = ⟨v, (i : ℤ)⟩ := by
  simp only [update]
  exact if_pos h

theorem update_some_ge (s : search_t) (i : ℕ) {v : ℚ} (h : s.min_mae ≤ v) :
    update s i (some v) = s := by
  simp only [update]
  exact if_neg (not_lt.mpr h)

theorem default_accuracy_gt : FLT_EPSILON < default_accuracy := by
  norm_num [FLT_EPSILON, default_accuracy]

theorem default_accuracy_lt : default_accuracy < FLT_MAX := by
  norm_num [FLT_MAX, default_accuracy]

/-- C5. Under the stochastic policy (`accuracy > FLT_EPSILON`), for every pixel,
table, accuracy and iteration count the early-stop loop ends, either by
returning or (table without rows) by the division trap of its first draw, and
the number `draws` of `rand()` calls it has made is at most `max_iterations`
(zero when `max_iterations <= 0`); the counter `ctr` returned is this number.
The same bound holds for the whole cell. -/
theorem C5_stochastic_draws_bounded (args : args_t) (lut simulations : table_t)
    (nband : ℕ) (image : ℕ → ℤ) (rand : ℕ → ℕ) (calls : ℕ)
    (hacc : FLT_EPSILON < args.accuracy) :
    (∃ draws : ℕ, (draws : ℤ) ≤ max args.max_iterations 0 ∧
      ((∃ s, search args simulations nband image rand calls =
          Except.ok (s, (draws : ℤ), calls + draws)) ∨
        (simulations.nrow = 0 ∧
          search args simulations nband image rand calls = Except.error ⟨calls + draws⟩))) ∧
    (∃ draws : ℕ, (draws : ℤ) ≤ max args.max_iterations 0 ∧
      ((∃ out, main_cell args lut simulations nband image rand calls =
          Except.ok (out, calls + draws)) ∨
        (simulations.nrow = 0 ∧
          main_cell args lut simulations nband image rand calls
            = Except.error ⟨calls + draws⟩))) := by
  have hsearch : ∃ draws : ℕ, (draws : ℤ) ≤ max args.max_iterations 0 ∧
      ((∃ s, search args simulations nband image rand calls =
          Except.ok (s, (draws : ℤ), calls + draws)) ∨
        (simulations.nrow = 0 ∧
          search args simulations nband image rand calls = Except.error ⟨calls + draws⟩)) := by
    rcases stochastic_cases args simulations nband image rand calls hacc with
      ⟨_, k, hk, hbefore, _⟩ | ⟨_, _, hk⟩ | ⟨hrow, hc, hk⟩
    · refine ⟨k, ?_, Or.inl ⟨_, hk⟩⟩
      cases k with
      | zero => simp
      | succ k =>
        have := (hbefore k (Nat.lt_succ_self k)).2
        apply le_max_of_le_left
        push_cast
        omega
    · exact ⟨0, by simp, Or.inl ⟨_, hk⟩⟩
    · refine ⟨1, ?_, Or.inr ⟨hrow, hk⟩⟩
      apply le_max_of_le_left
      have := hc.2
      push_cast
      omega
  refine ⟨hsearch, ?_⟩
  cases hskip : skip nband image with
  | true => exact ⟨0, by simp, Or.inl ⟨_, main_cell_skip _ _ _ _ _ _ _ hskip⟩⟩
  | false =>
    obtain ⟨draws, hle, ⟨s, hs⟩ | ⟨hrow, hs⟩⟩ := hsearch
    · exact ⟨draws, hle, Or.inl ⟨_, main_cell_ok _ _ _ _ _ _ _ hskip hs⟩⟩
    · exact ⟨draws, hle, Or.inr ⟨hrow, main_cell_error _ _ _ _ _ _ _ hskip hs⟩⟩

/-- C5 at scenario A with the default accuracy and 3 iterations. -/
theorem C5_witness :
    FLT_EPSILON < default_accuracy ∧
    (∃ draws : ℕ, (draws : ℤ) ≤ max (3 : ℤ) 0 ∧
      ((∃ s, search ⟨3, default_accuracy⟩ scenario_sim 1 scenario_pixel (fun k => k) 0 =
          Except.ok (s, (draws : ℤ), 0 + draws)) ∨
        (scenario_sim.nrow = 0 ∧
          search ⟨3, default_accuracy⟩ scenario_sim 1 scenario_pixel (fun k => k) 0
            = Except.error ⟨0 + draws⟩))) ∧
    (∃ draws : ℕ, (draws : ℤ) ≤ max (3 : ℤ) 0 ∧
      ((∃ out, main_cell ⟨3, default_accuracy⟩ scenario_lut scenario_sim 1 scenario_pixel
            (fun k => k) 0 = Except.ok (out, 0 + draws)) ∨
        (scenario_sim.nrow = 0 ∧
          main_cell ⟨3, default_accuracy⟩ scenario_lut scenario_sim 1 scenario_pixel
            (fun k => k) 0 = Except.error ⟨0 + draws⟩))) :=
  ⟨default_accuracy_gt,
    C5_stochastic_draws_bounded ⟨3, default_accuracy⟩ scenario_lut scenario_sim 1
      scenario_pixel (fun k => k) 0 default_accuracy_gt⟩

/-- C6 (amended). Under the stochastic policy, for a pixel without sentinel
band and a table with at least one row, the loop returns after a number `k` of
draws with `0 <= k <= max(max_iterations, 0)`; on return the best error is
`<= accuracy` or `k = max(max_iterations, 0)`; before each draw the best error
so far (which starts at `FLT_MAX`) was `> accuracy`.  With
`accuracy < FLT_MAX`, `k` is the smallest number such that one of the first `k`
drawn rows has a computed error (the `float` the code obtains for the row)
`<= accuracy` or `k = max(max_iterations, 0)`. -/
theorem C6_stochastic_draw_count (args : args_t) (lut simulations : table_t)
    (nband : ℕ) (image : ℕ → ℤ) (rand : ℕ → ℕ) (calls : ℕ)
    (hacc : FLT_EPSILON < args.accuracy) (hvalid : valid nband image)
    (hrow : simulations.nrow ≠ 0) :
    ∃ k : ℕ,
      search args simulations nband image rand calls =
        Except.ok (scan simulations nband image (drawn rand calls simulations.nrow) k init,
          (k : ℤ), calls + k) ∧
      main_cell args lut simulations nband image rand calls =
        Except.ok (store lut
          (scan simulations nband image (drawn rand calls simulations.nrow) k init)
          (nodata lut.ncol), calls + k) ∧
      ((scan simulations nband image (drawn rand calls simulations.nrow) k init).min_mae
          ≤ args.accuracy ∨ (k : ℤ) = max args.max_iterations 0) ∧
      (∀ j, j < k →
        args.accuracy
          < (scan simulations nband image (drawn rand calls simulations.nrow) j init).min_mae ∧
        (j : ℤ) < max args.max_iterations 0) ∧
      (args.accuracy < FLT_MAX →
        ((∃ i, i < k ∧ ∃ v,
            mae simulations nband image (drawn rand calls simulations.nrow i) = some v ∧
              v ≤ args.accuracy) ∨ (k : ℤ) = max args.max_iterations 0) ∧
        ∀ j, j < k →
          ¬ ((∃ i, i < j ∧ ∃ v,
              mae simulations nband image (drawn rand calls simulations.nrow i) = some v ∧
                v ≤ args.accuracy) ∨ (j : ℤ) = max args.max_iterations 0)) := by
  rcases stochastic_cases args simulations nband image rand calls hacc with
    ⟨_, k, hk, hbefore, hafter⟩ | ⟨h0, _⟩ | ⟨h0, _⟩
  · have hend : (scan simulations nband image (drawn rand calls simulations.nrow) k init).min_mae
        ≤ args.accuracy ∨ (k : ℤ) = max args.max_iterations 0 := by
      by_cases h1 : (scan simulations nband image (drawn rand calls simulations.nrow) k
          init).min_mae ≤ args.accuracy
      · exact Or.inl h1
      · right
        have h2 : ¬ ((k : ℤ) < args.max_iterations) := fun h => hafter ⟨not_le.mp h1, h⟩
        cases k with
        | zero => simp at h2 ⊢; exact h2
        | succ k =>
          have := (hbefore k (Nat.lt_succ_self k)).2
          push_cast at h2 ⊢
          omega
    have hlt : ∀ j, j < k → args.accuracy
          < (scan simulations nband image (drawn rand calls simulations.nrow) j init).min_mae ∧
        (j : ℤ) < max args.max_iterations 0 := by
      intro j hj
      exact ⟨(hbefore j hj).1, lt_max_of_lt_left (hbefore j hj).2⟩
    refine ⟨k, hk, main_cell_ok _ _ _ _ _ _ _ ((skip_eq_false_iff _ _).mpr hvalid) hk,
      hend, hlt, fun hmax => ⟨?_, fun j hj => ?_⟩⟩
    · rcases hend with h | h
      · exact Or.inl ((scan_min_le_iff simulations nband image _ k hmax).mp h)
      · exact Or.inr h
    · rintro (h | h)
      · exact absurd ((scan_min_le_iff simulations nband image _ j hmax).mpr h)
          (not_le.mpr (hlt j hj).1)
      · exact absurd h (ne_of_lt (hlt j hj).2)
  · exact absurd h0 hrow
  · exact absurd h0 hrow

/-- C6 at scenario A with the default accuracy and 3 iterations, rows drawn
along the stream `1, 2, 3, ...`. -/
theorem C6_witness :
    FLT_EPSILON < default_accuracy ∧ valid 1 scenario_pixel ∧ scenario_sim.nrow ≠ 0 ∧
    default_accuracy < FLT_MAX ∧
    ∃ k : ℕ,
      search ⟨3, default_accuracy⟩ scenario_sim 1 scenario_pixel (fun n => n + 1) 0 =
        Except.ok (scan scenario_sim 1 scenario_pixel
          (drawn (fun n => n + 1) 0 scenario_sim.nrow) k init, (k : ℤ), 0 + k) ∧
      main_cell ⟨3, default_accuracy⟩ scenario_lut scenario_sim 1 scenario_pixel
          (fun n => n + 1) 0 =
        Except.ok (store scenario_lut
          (scan scenario_sim 1 scenario_pixel (drawn (fun n => n + 1) 0 scenario_sim.nrow) k
            init) (nodata scenario_lut.ncol), 0 + k) ∧
      ((scan scenario_sim 1 scenario_pixel (drawn (fun n => n + 1) 0 scenario_sim.nrow) k
          init).min_mae ≤ default_accuracy ∨ (k : ℤ) = max (3 : ℤ) 0) ∧
      (∀ j, j < k →
        default_accuracy < (scan scenario_sim 1 scenario_pixel
          (drawn (fun n => n + 1) 0 scenario_sim.nrow) j init).min_mae ∧
        (j : ℤ) < max (3 : ℤ) 0) ∧
      ((∃ i, i < k ∧ ∃ v,
          mae scenario_sim 1 scenario_pixel (drawn (fun n => n + 1) 0 scenario_sim.nrow i)
            = some v ∧ v ≤ default_accuracy) ∨
        (k : ℤ) = max (3 : ℤ) 0) ∧
      ∀ j, j < k →
        ¬ ((∃ i, i < j ∧ ∃ v,
            mae scenario_sim 1 scenario_pixel (drawn (fun n => n + 1) 0 scenario_sim.nrow i)
              = some v ∧ v ≤ default_accuracy) ∨
          (j : ℤ) = max (3 : ℤ) 0) :=
  have h3 : scenario_sim.nrow ≠ 0 := by decide
  ⟨default_accuracy_gt, valid_scenario_pixel, h3, default_accuracy_lt,
    (C6_stochastic_draw_count ⟨3, default_accuracy⟩ scenario_lut scenario_sim 1 scenario_pixel
      (fun n => n + 1) 0 default_accuracy_gt valid_scenario_pixel h3).imp
      (fun _ h => ⟨h.1, h.2.1, h.2.2.1, h.2.2.2.1, (h.2.2.2.2 default_accuracy_lt).1,
        (h.2.2.2.2 default_accuracy_lt).2⟩)⟩

/-- The one-row table `[100 - 2^-30]` with accuracy 50: one draw and the loop
stops, the computed error of the row being the `float` 50. -/
theorem near_search :
    search ⟨100, 50⟩ near_sim 1 scenario_pixel (fun n => n) 0 =
      Except.ok (⟨50, 0⟩, 1, 1) := by
  rw [search_stochastic _ _ _ _ _ _ (by norm_num [FLT_EPSILON]),
    early_stop_step_at _ _ _ _ _ _ _ _ 0 (some 50) (by norm_num [init, FLT_MAX])
      (by decide) rfl mae_near_0,
    update_init_50, early_stop_done]
  · rfl
  · norm_num

/-- C6 as stated fails, in three ways.  With `max_iterations = -1` (default
accuracy, scenario A) no draw is made: the best error is still
`FLT_MAX > accuracy` and the number of draws, 0, is not `max_iterations`.
With accuracy 50, `max_iterations = 100` and the one-row table `[100 - 2^-30]`
the loop stops after one draw, although the MAE of the drawn row,
`50 + 2^-30`, is not `<= accuracy` and `1 /= 100`.  With `accuracy = FLT_MAX`
and `max_iterations = 1` no draw is made, and `0 /= 1`. -/
theorem C6_counterexample :
    (FLT_EPSILON < default_accuracy ∧ valid 1 scenario_pixel ∧ scenario_sim.nrow ≠ 0 ∧
      search ⟨-1, default_accuracy⟩ scenario_sim 1 scenario_pixel (fun n => n) 0 =
        Except.ok (⟨FLT_MAX, -1⟩, 0, 0) ∧
      ¬ (FLT_MAX ≤ default_accuracy) ∧ (0 : ℤ) ≠ -1) ∧
    (FLT_EPSILON < (50 : ℚ) ∧ near_sim.nrow ≠ 0 ∧
      search ⟨100, 50⟩ near_sim 1 scenario_pixel (fun n => n) 0 =
        Except.ok (⟨50, 0⟩, 1, 1) ∧
      MAE 1 scenario_pixel (fun _ => 100 - 1 / 2 ^ 30) = 50 + 1 / 2 ^ 30 ∧
      ¬ ((50 + 1 / 2 ^ 30 : ℚ) ≤ 50) ∧ (1 : ℤ) ≠ 100) ∧
    (FLT_EPSILON < FLT_MAX ∧
      search ⟨1, FLT_MAX⟩ scenario_sim 1 scenario_pixel (fun n => n) 0 =
        Except.ok (⟨FLT_MAX, -1⟩, 0, 0) ∧
      (0 : ℤ) ≠ 1) := by
  refine ⟨⟨default_accuracy_gt, valid_scenario_pixel, by decide, ?_,
    not_le.mpr default_accuracy_lt, by decide⟩,
    ⟨by norm_num [FLT_EPSILON], by decide, near_search, ?_, by norm_num, by decide⟩,
    FLT_EPSILON_lt_FLT_MAX, ?_, by decide⟩
  · rw [search_stochastic _ _ _ _ _ _ default_accuracy_gt, early_stop_done]
    · rfl
    · norm_num
  · rw [MAE_one_band]
    norm_num [scenario_pixel, abs_of_pos]
  · rw [search_stochastic _ _ _ _ _ _ FLT_EPSILON_lt_FLT_MAX, early_stop_done]
    · rfl
    · norm_num [init]

/-- C7. For accuracies at or below `FLT_EPSILON` (in particular 0) the
brute-force loop is the one that runs and the cell's output depends on the
pixel and the two tables only: two runs on the same pixel and tables, with any
two iteration counts, any two such accuracies, any two `rand()` streams and
stream positions, return the same output, and neither calls `rand()`. -/
theorem C7_exhaustive_is_deterministic (args args2 : args_t) (lut simulations : table_t)
    (nband : ℕ) (image : ℕ → ℤ) (rand rand2 : ℕ → ℕ) (calls calls2 : ℕ)
    (h1 : args.accuracy ≤ FLT_EPSILON) (h2 : args2.accuracy ≤ FLT_EPSILON) :
    search args simulations nband image rand calls =
      Except.ok (brute_force simulations nband image init, 0, calls) ∧
    ∃ out,
      main_cell args lut simulations nband image rand calls = Except.ok (out, calls) ∧
      main_cell args2 lut simulations nband image rand2 calls2 = Except.ok (out, calls2) ∧
      out = (if skip nband image then nodata lut.ncol
        else store lut (brute_force simulations nband image init) (nodata lut.ncol)) := by
  refine ⟨by rw [search, if_pos h1], ?_⟩
  cases hskip : skip nband image with
  | true =>
    exact ⟨nodata lut.ncol, main_cell_skip _ _ _ _ _ _ _ hskip,
      main_cell_skip _ _ _ _ _ _ _ hskip, by simp⟩
  | false =>
    refine ⟨store lut (brute_force simulations nband image init) (nodata lut.ncol),
      ?_, ?_, by simp⟩
    · exact main_cell_ok _ _ _ _ _ _ _ hskip (by rw [search, if_pos h1])
    · exact main_cell_ok _ _ _ _ _ _ _ hskip (by rw [search, if_pos h2])

/-- Scenario C of the specification, through C7: accuracy 0 with
`max_iterations = 1` against accuracy 0 with `max_iterations = 100` and another
stream. -/
theorem C7_witness :
    (0 : ℚ) ≤ FLT_EPSILON ∧ (0 : ℚ) ≤ FLT_EPSILON ∧
    search ⟨1, 0⟩ scenario_sim 1 scenario_pixel (fun _ => 0) 0 =
      Except.ok (brute_force scenario_sim 1 scenario_pixel init, 0, 0) ∧
    ∃ out,
      main_cell ⟨1, 0⟩ scenario_lut scenario_sim 1 scenario_pixel (fun _ => 0) 0
        = Except.ok (out, 0) ∧
      main_cell ⟨100, 0⟩ scenario_lut scenario_sim 1 scenario_pixel (fun n => n + 1) 7
        = Except.ok (out, 7) ∧
      out = (if skip 1 scenario_pixel then nodata scenario_lut.ncol
        else store scenario_lut (brute_force scenario_sim 1 scenario_pixel init)
          (nodata scenario_lut.ncol)) :=
  have h : (0 : ℚ) ≤ FLT_EPSILON := by norm_num [FLT_EPSILON]
  ⟨h, h, C7_exhaustive_is_deterministic ⟨1, 0⟩ ⟨100, 0⟩ scenario_lut scenario_sim 1
    scenario_pixel (fun _ => 0) (fun n => n + 1) 0 7 h h⟩

/-- Scenario D of the specification (scenario A's tables, accuracy `1e6`, one
iteration, the stream drawing row 1): the search ends on row 1, error 750. -/
theorem scenario_D_search :
    search ⟨1, 10 ^ 6⟩ scenario_sim 1 scenario_pixel (fun n => n + 1) 0 =
      Except.ok (⟨750, 1⟩, 1, 1) := by
  rw [search_stochastic _ _ _ _ _ _ (by norm_num [FLT_EPSILON]),
    early_stop_step_at _ _ _ _ _ _ _ _ 1 (some 750) (by norm_num [init, FLT_MAX])
      (by decide) rfl mae_scenario_1,
    update_some_lt init 1 (by norm_num [init, FLT_MAX]), early_stop_done]
  · rfl
  · norm_num

/-- Scenario D of the specification, evaluated: the output is the `float`
nearest to 0.9 (`0x1.ccccccp-1`) and the error 750. -/
theorem scenario_D :
    main_cell ⟨1, 10 ^ 6⟩ scenario_lut scenario_sim 1 scenario_pixel (fun n => n + 1) 0 =
      Except.ok ([some (7549747 / 2 ^ 23), some 750], 1) := by
  rw [main_cell_ok _ _ _ _ _ _ _ ((skip_eq_false_iff _ _).mpr valid_scenario_pixel)
    scenario_D_search, store_found_one, matched_scenario_1]

theorem scenario_D_ne_nodata :
    ([some (7549747 / 2 ^ 23), some 750] : List (Option ℚ)) ≠ nodata scenario_lut.ncol := by
  rw [show nodata scenario_lut.ncol = [some (-1), some (-1)] from rfl]
  intro h
  injection h with h1 _
  injection h1 with h1
  norm_num at h1

/-- The rows `[100 + 2^-30]`, `[100 + 2^-29]` with accuracy `1e6` and one
iteration, the stream drawing row 0. -/
theorem close_draw_search :
    search ⟨1, 10 ^ 6⟩ close_sim 1 scenario_pixel (fun n => n) 0 =
      Except.ok (⟨50, 0⟩, 1, 1) := by
  rw [search_stochastic _ _ _ _ _ _ (by norm_num [FLT_EPSILON]),
    early_stop_step_at _ _ _ _ _ _ _ _ 0 (some 50) (by norm_num [init, FLT_MAX])
      (by decide) rfl mae_close_0,
    update_init_50, early_stop_done]
  · rfl
  · norm_num

theorem close_draw_cell :
    main_cell ⟨1, 10 ^ 6⟩ half_lut close_sim 1 scenario_pixel (fun n => n) 0 =
      Except.ok ([some (1 / 2), some 50], 1) := by
  rw [main_cell_ok _ _ _ _ _ _ _ ((skip_eq_false_iff _ _).mpr valid_scenario_pixel)
    close_draw_search, store_found_zero, matched_half]

/-- The one-row table `[2^130]` with accuracy `1e6` and one iteration: the row
is drawn and not stored. -/
theorem huge_draw_search :
    search ⟨1, 10 ^ 6⟩ huge_sim 1 zero_pixel (fun n => n) 0 =
      Except.ok (⟨FLT_MAX, -1⟩, 1, 1) := by
  rw [single_draw ⟨1, 10 ^ 6⟩ huge_sim 1 zero_pixel (fun n => n) 0
    (by norm_num [FLT_EPSILON]) (by norm_num [FLT_MAX]) rfl (by decide), mae_huge, update_none]
  rfl

theorem huge_draw_cell :
    main_cell ⟨1, 10 ^ 6⟩ half_lut huge_sim 1 zero_pixel (fun n => n) 0 =
      Except.ok ([some (-1), some (-1)], 1) := by
  rw [main_cell_ok _ _ _ _ _ _ _ ((skip_eq_false_iff _ _).mpr valid_zero_pixel)
    huge_draw_search]
  exact congrArg (fun o => Except.ok (o, 1)) (store_init half_lut)

/-- C8 (amended). With `accuracy = 1e6` and `max_iterations = 1`, for a pixel
without sentinel band and a table with at least one row, exactly one row index
`r = rand() % nrow` is drawn (one `rand()` call, `ctr = 1`) and the update rule
is applied to it once.  When the computed error `e` of row `r` is finite and
below `FLT_MAX`, the output is parameter row `r`, converted to `float`, followed
by `e`, whether or not row `r` attains the minimum error of the table; when it
is not, the output is the no-data vector. -/
theorem C8_single_draw_output (args : args_t) (lut simulations : table_t)
    (nband : ℕ) (image : ℕ → ℤ) (rand : ℕ → ℕ) (calls : ℕ)
    (hacc : args.accuracy = 10 ^ 6) (hit : args.max_iterations = 1)
    (hvalid : valid nband image) (hrow : simulations.nrow ≠ 0) :
    rand calls % simulations.nrow < simulations.nrow ∧
    search args simulations nband image rand calls =
      Except.ok (update init (rand calls % simulations.nrow)
        (mae simulations nband image (rand calls % simulations.nrow)), 1, calls + 1) ∧
    (∀ e, mae simulations nband image (rand calls % simulations.nrow) = some e →
      e < FLT_MAX →
        search args simulations nband image rand calls =
          Except.ok (⟨e, ((rand calls % simulations.nrow : ℕ) : ℤ)⟩, 1, calls + 1) ∧
        main_cell args lut simulations nband image rand calls =
          Except.ok (matched lut (rand calls % simulations.nrow) e, calls + 1)) ∧
    ((∀ e, mae simulations nband image (rand calls % simulations.nrow) = some e →
        FLT_MAX ≤ e) →
      main_cell args lut simulations nband image rand calls =
        Except.ok (nodata lut.ncol, calls + 1)) := by
  have hs := single_draw args simulations nband image rand calls
    (by rw [hacc]; norm_num [FLT_EPSILON]) (by rw [hacc]; norm_num [FLT_MAX]) hit hrow
  have hm := main_cell_ok args lut simulations nband image rand calls
    ((skip_eq_false_iff _ _).mpr hvalid) hs
  refine ⟨Nat.mod_lt _ (Nat.pos_of_ne_zero hrow), hs, ?_, ?_⟩
  · intro e he hlt
    have hu : update init (rand calls % simulations.nrow) (some e) =
        ⟨e, ((rand calls % simulations.nrow : ℕ) : ℤ)⟩ := update_some_lt init _ hlt
    rw [hs, hm, he, hu, store_found]
    exact ⟨rfl, rfl⟩
  · intro h
    rw [hm]
    cases hmae : mae simulations nband image (rand calls % simulations.nrow) with
    | none => rw [update_none, store_init]
    | some e =>
      have hu : update init (rand calls % simulations.nrow) (some e) = init :=
        update_some_ge init _ (h e hmae)
      rw [hu, store_init]

/-- Scenario D of the specification, through C8: the stream draws row 1 of
scenario A, which is not the best row; its computed error is 750. -/
theorem C8_witness :
    (10 ^ 6 : ℚ) = 10 ^ 6 ∧ (1 : ℤ) = 1 ∧ valid 1 scenario_pixel ∧ scenario_sim.nrow ≠ 0 ∧
    mae scenario_sim 1 scenario_pixel ((fun n => n + 1) 0 % scenario_sim.nrow) = some 750 ∧
    (750 : ℚ) < FLT_MAX ∧
    (fun n => n + 1) 0 % scenario_sim.nrow < scenario_sim.nrow ∧
    search ⟨1, 10 ^ 6⟩ scenario_sim 1 scenario_pixel (fun n => n + 1) 0 =
      Except.ok (update init ((fun n => n + 1) 0 % scenario_sim.nrow)
        (mae scenario_sim 1 scenario_pixel ((fun n => n + 1) 0 % scenario_sim.nrow)),
        1, 0 + 1) ∧
    search ⟨1, 10 ^ 6⟩ scenario_sim 1 scenario_pixel (fun n => n + 1) 0 =
      Except.ok (⟨750, (((fun n => n + 1) 0 % scenario_sim.nrow : ℕ) : ℤ)⟩, 1, 0 + 1) ∧
    main_cell ⟨1, 10 ^ 6⟩ scenario_lut scenario_sim 1 scenario_pixel (fun n => n + 1) 0 =
      Except.ok (matched scenario_lut ((fun n => n + 1) 0 % scenario_sim.nrow) 750, 0 + 1) :=
  have hrow : scenario_sim.nrow ≠ 0 := by decide
  have hlt : (750 : ℚ) < FLT_MAX := by norm_num [FLT_MAX]
  have hC := C8_single_draw_output ⟨1, 10 ^ 6⟩ scenario_lut scenario_sim 1 scenario_pixel
    (fun n => n + 1) 0 rfl rfl valid_scenario_pixel hrow
  ⟨rfl, rfl, valid_scenario_pixel, hrow, mae_scenario_1, hlt, hC.1, hC.2.1,
    (hC.2.2.1 750 mae_scenario_1 hlt).1, (hC.2.2.1 750 mae_scenario_1 hlt).2⟩

/-- C8 as stated fails, in three ways, each with accuracy `1e6` and
`max_iterations = 1`.  The valid pixel `[0]` and the one-row table `[2^130]`:
one row is drawn (row 0, `ctr = 1`), its MAE is `2^130`, and the output is the
no-data vector `[-1, -1]`.  The valid pixel `[150]` and the rows
`[100 + 2^-30]`, `[100 + 2^-29]`, row 0 drawn: the output is `[0.5, 50]`, while
the MAE of row 0 is `50 - 2^-30`.  Scenario D: the output is
`[0x1.ccccccp-1, 750]`, whose first value is not the parameter cell of row 1
(the `double` nearest to 0.9). -/
theorem C8_counterexample :
    (valid 1 zero_pixel ∧ huge_sim.nrow ≠ 0 ∧
      search ⟨1, 10 ^ 6⟩ huge_sim 1 zero_pixel (fun n => n) 0 =
        Except.ok (⟨FLT_MAX, -1⟩, 1, 1) ∧
      main_cell ⟨1, 10 ^ 6⟩ half_lut huge_sim 1 zero_pixel (fun n => n) 0 =
        Except.ok ([some (-1), some (-1)], 1) ∧
      MAE 1 zero_pixel (fun _ => 2 ^ 130) = 2 ^ 130) ∧
    (valid 1 scenario_pixel ∧ close_sim.nrow ≠ 0 ∧
      search ⟨1, 10 ^ 6⟩ close_sim 1 scenario_pixel (fun n => n) 0 =
        Except.ok (⟨50, 0⟩, 1, 1) ∧
      main_cell ⟨1, 10 ^ 6⟩ half_lut close_sim 1 scenario_pixel (fun n => n) 0 =
        Except.ok ([some (1 / 2), some 50], 1) ∧
      MAE 1 scenario_pixel (close_cells 0) = 50 - 1 / 2 ^ 30 ∧
      (50 - 1 / 2 ^ 30 : ℚ) ≠ 50) ∧
    (main_cell ⟨1, 10 ^ 6⟩ scenario_lut scenario_sim 1 scenario_pixel (fun n => n + 1) 0 =
        Except.ok ([some (7549747 / 2 ^ 23), some 750], 1) ∧
      ([some (7549747 / 2 ^ 23), some 750] : List (Option ℚ)) ≠
        verbatim scenario_lut 1 (MAE 1 scenario_pixel (scenario_cells 1))) := by
  refine ⟨⟨valid_zero_pixel, by decide, huge_draw_search, huge_draw_cell, MAE_huge⟩,
    ⟨valid_scenario_pixel, by decide, close_draw_search, close_draw_cell, MAE_close_0,
      by norm_num⟩, scenario_D, ?_⟩
  rw [verbatim_one_col _ _ _ rfl, scenario_lut_1]
  intro h
  injection h with h1 _
  injection h1 with h1
  norm_num at h1

/-- C10, the failing input: tables without rows, the valid pixel `[150]` and
the default arguments (accuracy 0.01, 100 iterations).  The loop test holds
(`FLT_MAX > 0.01`, `0 < 100`), so `rand() % simulations.nrow` is evaluated with
`nrow = 0` and the run traps after one `rand()` call instead of producing the
no-data vector.  Under the exhaustive policy (accuracy 0) the same cell gives
the no-data vector. -/
theorem C10_zero_rows_stochastic_traps :
    valid 1 scenario_pixel ∧ empty_table.nrow = 0 ∧
    main_cell ⟨100, default_accuracy⟩ empty_table empty_table 1 scenario_pixel (fun n => n) 0 =
      Except.error ⟨1⟩ ∧
    main_cell ⟨100, 0⟩ empty_table empty_table 1 scenario_pixel (fun n => n) 0 =
      Except.ok (nodata empty_table.ncol, 0) := by
  have hskip := (skip_eq_false_iff _ _).mpr valid_scenario_pixel
  refine ⟨valid_scenario_pixel, rfl, ?_, ?_⟩
  · have hs : search ⟨100, default_accuracy⟩ empty_table 1 scenario_pixel (fun n => n) 0 =
        Except.error ⟨1⟩ := by
      rw [search_stochastic _ _ _ _ _ _ default_accuracy_gt,
        early_stop_trap _ _ _ _ _ _ _ _ _ rfl]
      exact ⟨default_accuracy_lt, by norm_num⟩
    exact main_cell_error _ _ _ _ _ _ _ hskip hs
  · have hs : search ⟨100, 0⟩ empty_table 1 scenario_pixel (fun n => n) 0 =
        Except.ok (init, 0, 0) := by
      rw [search_exhaustive _ _ _ _ _ _ (by norm_num [FLT_EPSILON])]
      rfl
    rw [main_cell_ok _ _ _ _ _ _ _ hskip hs, store_init]

/-- C14. For either policy, every Matched result carries an error metric
`>= 0`: when the search of a valid pixel returns with `i_min_mae >= 0` (the
parameter part of the output is copied from a table row), `i_min_mae` is a row
index `i < nrow`, `min_mae` is the error computed for row `i`, it is `>= 0`,
and the output is parameter row `i` followed by `min_mae`, which is not the
no-data vector. -/
theorem C14_matched_error_nonneg (args : args_t) (lut simulations : table_t)
    (nband : ℕ) (image : ℕ → ℤ) (rand : ℕ → ℕ) (calls : ℕ)
    (s : search_t) (ctr : ℤ) (calls1 : ℕ) (hvalid : valid nband image)
    (hs : search args simulations nband image rand calls = Except.ok (s, ctr, calls1))
    (hi : 0 ≤ s.i_min_mae) :
    0 ≤ s.min_mae ∧ s.min_mae ≠ -1 ∧
    ∃ i, i < simulations.nrow ∧ s.i_min_mae = (i : ℤ) ∧
      mae simulations nband image i = some s.min_mae ∧
      main_cell args lut simulations nband image rand calls =
        Except.ok (matched lut i s.min_mae, calls1) ∧
      matched lut i s.min_mae ≠ nodata lut.ncol := by
  obtain ⟨idx, n, hbest, hidx⟩ := search_ok_best _ _ _ _ _ _ hs
  have hmain := main_cell_ok args lut simulations nband image rand calls
    ((skip_eq_false_iff _ _).mpr hvalid) hs
  rcases store_of_best lut simulations nband image idx n s hbest with
    ⟨hinit, _⟩ | ⟨j, hj, hm, hsj, hst⟩
  · rw [hinit] at hi
    simp [init] at hi
  · have hnn : 0 ≤ s.min_mae := mae_nonneg hm
    refine ⟨hnn, ?_, idx j, hidx j hj, ?_, hm, ?_, matched_ne_nodata lut _ hnn⟩
    · intro h
      rw [h] at hnn
      norm_num at hnn
    · rw [hsj]
    · rw [hmain, hst]

/-- C14 at scenario A: the search ends on row 0 with error 50. -/
theorem C14_witness :
    valid 1 scenario_pixel ∧
    search ⟨1, 0⟩ scenario_sim 1 scenario_pixel (fun _ => 0) 0 =
      Except.ok (⟨50, 0⟩, 0, 0) ∧
    (0 : ℤ) ≤ (⟨50, 0⟩ : search_t).i_min_mae ∧
    (0 : ℚ) ≤ (⟨50, 0⟩ : search_t).min_mae ∧ (⟨50, 0⟩ : search_t).min_mae ≠ -1 ∧
    ∃ i, i < scenario_sim.nrow ∧ (⟨50, 0⟩ : search_t).i_min_mae = (i : ℤ) ∧
      mae scenario_sim 1 scenario_pixel i = some (⟨50, 0⟩ : search_t).min_mae ∧
      main_cell ⟨1, 0⟩ scenario_lut scenario_sim 1 scenario_pixel (fun _ => 0) 0 =
        Except.ok (matched scenario_lut i (⟨50, 0⟩ : search_t).min_mae, 0) ∧
      matched scenario_lut i (⟨50, 0⟩ : search_t).min_mae ≠ nodata scenario_lut.ncol :=
  have hC := C14_matched_error_nonneg ⟨1, 0⟩ scenario_lut scenario_sim 1 scenario_pixel
    (fun _ => 0) 0 ⟨50, 0⟩ 0 0 valid_scenario_pixel scenario_A_search (le_refl 0)
  ⟨valid_scenario_pixel, scenario_A_search, le_refl 0, hC.1, hC.2.1, hC.2.2⟩

/-- C15. The `rand()` stream is consumed only by the stochastic policy on
valid pixels.  For a pixel with a sentinel band the number of `rand()` calls
is unchanged and the result is the same for every content of the two tables
(no row is read); under the exhaustive policy the number of calls is unchanged
for every pixel; under the stochastic policy a search that returns has made
`ctr >= 0` draws and exactly `ctr` calls of `rand()`, and so has the cell of a
valid pixel. -/
theorem C15_stream_frame (args : args_t) (lut simulations : table_t)
    (nband : ℕ) (image : ℕ → ℤ) (rand : ℕ → ℕ) (calls : ℕ) :
    ((∃ b, b < nband ∧ (image b = SHRT_MIN ∨ image b = SHRT_MAX)) →
      ∀ lut2 simulations2 : table_t, lut2.ncol = lut.ncol →
        main_cell args lut2 simulations2 nband image rand calls =
          Except.ok (nodata lut.ncol, calls)) ∧
    (args.accuracy ≤ FLT_EPSILON →
      ∃ out, main_cell args lut simulations nband image rand calls
        = Except.ok (out, calls)) ∧
    (FLT_EPSILON < args.accuracy →
      ∀ s ctr calls1,
        search args simulations nband image rand calls = Except.ok (s, ctr, calls1) →
          0 ≤ ctr ∧ (calls1 : ℤ) = (calls : ℤ) + ctr) ∧
    (FLT_EPSILON < args.accuracy → valid nband image →
      ∀ out calls1,
        main_cell args lut simulations nband image rand calls = Except.ok (out, calls1) →
          ∃ s ctr, search args simulations nband image rand calls
              = Except.ok (s, ctr, calls1) ∧
            0 ≤ ctr ∧ (calls1 : ℤ) = (calls : ℤ) + ctr) := by
  have hsto : FLT_EPSILON < args.accuracy →
      ∀ s ctr calls1,
        search args simulations nband image rand calls = Except.ok (s, ctr, calls1) →
          0 ≤ ctr ∧ (calls1 : ℤ) = (calls : ℤ) + ctr := by
    intro hacc s ctr calls1 h
    rcases stochastic_cases args simulations nband image rand calls hacc with
      ⟨_, k, hk, _, _⟩ | ⟨_, _, hk⟩ | ⟨_, _, hk⟩
    · rw [hk] at h
      injection h with h
      injection h with _ h
      injection h with h1 h2
      subst h1 h2
      exact ⟨Int.natCast_nonneg k, by push_cast; rfl⟩
    · rw [hk] at h
      injection h with h
      injection h with _ h
      injection h with h1 h2
      subst h1 h2
      exact ⟨le_refl 0, by simp⟩
    · rw [hk] at h
      cases h
  refine ⟨?_, ?_, hsto, ?_⟩
  · intro hsent lut2 simulations2 hcol
    rw [main_cell_skip _ _ _ _ _ _ _ ((skip_eq_true_iff nband image).mpr hsent), hcol]
  · intro hacc
    cases hskip : skip nband image with
    | true => exact ⟨_, main_cell_skip _ _ _ _ _ _ _ hskip⟩
    | false =>
      exact ⟨_, main_cell_ok _ _ _ _ _ _ _ hskip (search_exhaustive _ _ _ _ _ _ hacc)⟩
  · intro hacc hvalid out calls1 h
    have hskip := (skip_eq_false_iff _ _).mpr hvalid
    cases hs : search args simulations nband image rand calls with
    | error e =>
      rw [main_cell_error _ _ _ _ _ _ _ hskip hs] at h
      cases h
    | ok r =>
      obtain ⟨s, ctr, c1⟩ := r
      rw [main_cell_ok _ _ _ _ _ _ _ hskip hs] at h
      injection h with h
      injection h with _ h
      subst h
      exact ⟨s, ctr, rfl, hsto hacc s ctr c1 hs⟩

/-- C15 at concrete inputs: scenario B's sentinel pixel against other tables,
scenario A under the exhaustive policy, and scenario A under the stochastic
policy with accuracy `1e6` and one iteration (one draw, one `rand()` call). -/
theorem C15_witness :
    (∃ b, b < 2 ∧ (sentinel_pixel b = SHRT_MIN ∨ sentinel_pixel b = SHRT_MAX)) ∧
    main_cell ⟨100, default_accuracy⟩ half_lut huge_sim 2 sentinel_pixel (fun n => n) 5 =
      Except.ok (nodata scenario_lut.ncol, 5) ∧
    (∃ out, main_cell ⟨1, 0⟩ scenario_lut scenario_sim 1 scenario_pixel (fun n => n) 5
      = Except.ok (out, 5)) ∧
    (∃ s, search ⟨1, 10 ^ 6⟩ scenario_sim 1 scenario_pixel (fun n => n + 1) 0
        = Except.ok (s, 1, 1)) ∧
    ((0 : ℤ) ≤ 1 ∧ ((1 : ℕ) : ℤ) = ((0 : ℕ) : ℤ) + 1) ∧
    (∃ out s ctr,
      main_cell ⟨1, 10 ^ 6⟩ scenario_lut scenario_sim 1 scenario_pixel (fun n => n + 1) 0
        = Except.ok (out, 1) ∧
      search ⟨1, 10 ^ 6⟩ scenario_sim 1 scenario_pixel (fun n => n + 1) 0
        = Except.ok (s, ctr, 1) ∧
      0 ≤ ctr ∧ ((1 : ℕ) : ℤ) = ((0 : ℕ) : ℤ) + ctr) :=
  have hsent : ∃ b, b < 2 ∧ (sentinel_pixel b = SHRT_MIN ∨ sentinel_pixel b = SHRT_MAX) :=
    ⟨0, by decide, Or.inl (by decide)⟩
  have h0 : (0 : ℚ) ≤ FLT_EPSILON := by norm_num [FLT_EPSILON]
  have h6 : FLT_EPSILON < (10 ^ 6 : ℚ) := by norm_num [FLT_EPSILON]
  have hB := C15_stream_frame ⟨100, default_accuracy⟩ scenario_lut scenario_sim 2
    sentinel_pixel (fun n => n) 5
  have hE := C15_stream_frame ⟨1, 0⟩ scenario_lut scenario_sim 1 scenario_pixel
    (fun n => n) 5
  have hS := C15_stream_frame ⟨1, 10 ^ 6⟩ scenario_lut scenario_sim 1 scenario_pixel
    (fun n => n + 1) 0
  ⟨hsent, hB.1 hsent half_lut huge_sim rfl, hE.2.1 h0, ⟨_, scenario_D_search⟩,
    hS.2.2.1 h6 _ _ _ scenario_D_search,
    ⟨_, (hS.2.2.2 h6 valid_scenario_pixel _ _ scenario_D).imp
      (fun _ h => h.imp (fun _ h2 => ⟨scenario_D, h2⟩))⟩⟩

/-- C19 (amended). Under the stochastic policy, for a valid pixel and a table
with at least one row, when the output is not the no-data vector (Matched) at
least one draw was made, the reported error is the computed error (the `float`
the code obtains) of one of the `k` rows `r_0, ..., r_(k-1)` drawn for the
pixel, no drawn row has a smaller computed error, and the reported row is the
first-drawn row with this computed error. -/
theorem C19_stochastic_best_of_drawn (args : args_t) (lut simulations : table_t)
    (nband : ℕ) (image : ℕ → ℤ) (rand : ℕ → ℕ) (calls : ℕ) (out : List (Option ℚ))
    (calls1 : ℕ)
    (hacc : FLT_EPSILON < args.accuracy) (hvalid : valid nband image)
    (hrow : simulations.nrow ≠ 0)
    (hout : main_cell args lut simulations nband image rand calls = Except.ok (out, calls1))
    (hne : out ≠ nodata lut.ncol) :
    ∃ (k j : ℕ) (e : ℚ), j < k ∧ calls1 = calls + k ∧
      mae simulations nband image (drawn rand calls simulations.nrow j) = some e ∧
      search args simulations nband image rand calls =
        Except.ok (⟨e, ((drawn rand calls simulations.nrow j : ℕ) : ℤ)⟩, (k : ℤ), calls + k) ∧
      out = matched lut (drawn rand calls simulations.nrow j) e ∧
      (∀ i, i < k → ∀ v,
        mae simulations nband image (drawn rand calls simulations.nrow i) = some v → e ≤ v) ∧
      (∀ i, i < j → ∀ v,
        mae simulations nband image (drawn rand calls simulations.nrow i) = some v → e < v) := by
  have hskip := (skip_eq_false_iff _ _).mpr hvalid
  rcases stochastic_cases args simulations nband image rand calls hacc with
    ⟨_, k, hk, _, _⟩ | ⟨h0, _⟩ | ⟨h0, _⟩
  · rw [main_cell_ok _ _ _ _ _ _ _ hskip hk] at hout
    injection hout with hout
    injection hout with ho hc
    rcases scan_init_or_found simulations nband image (drawn rand calls simulations.nrow) k
      with hinit | hfound
    · rw [hinit, store_init] at ho
      exact absurd ho.symm hne
    · obtain ⟨j, e, hj, hm, hscan, hle, hfirst⟩ :=
        scan_first_minimum simulations nband image (drawn rand calls simulations.nrow) k hfound
      rw [hscan] at hk ho
      rw [store_found] at ho
      exact ⟨k, j, e, hj, hc.symm, hm, hk, ho.symm, hle, hfirst⟩
  · exact absurd h0 hrow
  · exact absurd h0 hrow

/-- C19 at scenario D of the specification (scenario A's tables, accuracy
`1e6`, one iteration, row 1 drawn). -/
theorem C19_witness :
    FLT_EPSILON < (10 ^ 6 : ℚ) ∧ valid 1 scenario_pixel ∧ scenario_sim.nrow ≠ 0 ∧
    main_cell ⟨1, 10 ^ 6⟩ scenario_lut scenario_sim 1 scenario_pixel (fun n => n + 1) 0 =
      Except.ok ([some (7549747 / 2 ^ 23), some 750], 1) ∧
    ([some (7549747 / 2 ^ 23), some 750] : List (Option ℚ)) ≠ nodata scenario_lut.ncol ∧
    ∃ (k j : ℕ) (e : ℚ), j < k ∧ 1 = 0 + k ∧
      mae scenario_sim 1 scenario_pixel (drawn (fun n => n + 1) 0 scenario_sim.nrow j)
        = some e ∧
      search ⟨1, 10 ^ 6⟩ scenario_sim 1 scenario_pixel (fun n => n + 1) 0 =
        Except.ok (⟨e, ((drawn (fun n => n + 1) 0 scenario_sim.nrow j : ℕ) : ℤ)⟩,
          (k : ℤ), 0 + k) ∧
      ([some (7549747 / 2 ^ 23), some 750] : List (Option ℚ)) =
        matched scenario_lut (drawn (fun n => n + 1) 0 scenario_sim.nrow j) e ∧
      (∀ i, i < k → ∀ v,
        mae scenario_sim 1 scenario_pixel (drawn (fun n => n + 1) 0 scenario_sim.nrow i)
          = some v → e ≤ v) ∧
      (∀ i, i < j → ∀ v,
        mae scenario_sim 1 scenario_pixel (drawn (fun n => n + 1) 0 scenario_sim.nrow i)
          = some v → e < v) :=
  have h6 : FLT_EPSILON < (10 ^ 6 : ℚ) := by norm_num [FLT_EPSILON]
  have hrow : scenario_sim.nrow ≠ 0 := by decide
  ⟨h6, valid_scenario_pixel, hrow, scenario_D, scenario_D_ne_nodata,
    C19_stochastic_best_of_drawn ⟨1, 10 ^ 6⟩ scenario_lut scenario_sim 1 scenario_pixel
      (fun n => n + 1) 0 [some (7549747 / 2 ^ 23), some 750] 1 h6 valid_scenario_pixel hrow
      scenario_D scenario_D_ne_nodata⟩

/-- The rows `[100 + 2^-30]`, `[100 + 2^-29]` with the default accuracy and two
iterations, the stream drawing row 0 and then row 1: row 0 is kept. -/
theorem close_two_search :
    search ⟨2, default_accuracy⟩ close_sim 1 scenario_pixel (fun n => n) 0 =
      Except.ok (⟨50, 0⟩, 2, 2) := by
  rw [search_stochastic _ _ _ _ _ _ default_accuracy_gt,
    early_stop_step_at _ _ _ _ _ _ _ _ 0 (some 50) ⟨default_accuracy_lt, by norm_num⟩
      (by decide) rfl mae_close_0,
    update_init_50,
    early_stop_step_at _ _ _ _ _ _ _ _ 1 (some 50)
      ⟨by norm_num [default_accuracy], by norm_num⟩ (by decide) rfl mae_close_1,
    update_some_ge _ 1 (le_refl _), early_stop_done]
  · rfl
  · norm_num

theorem close_two_cell :
    main_cell ⟨2, default_accuracy⟩ half_lut close_sim 1 scenario_pixel (fun n => n) 0 =
      Except.ok ([some (1 / 2), some 50], 2) := by
  rw [main_cell_ok _ _ _ _ _ _ _ ((skip_eq_false_iff _ _).mpr valid_scenario_pixel)
    close_two_search, store_found_zero, matched_half]

theorem half_50_ne_nodata :
    ([some (1 / 2), some 50] : List (Option ℚ)) ≠ nodata half_lut.ncol := by
  rw [show nodata half_lut.ncol = [some (-1), some (-1)] from rfl]
  intro h
  injection h with h1 _
  injection h1 with h1
  norm_num at h1

/-- C19 as stated fails: the default accuracy, `max_iterations = 2`, the valid
pixel `[150]` and the rows `[100 + 2^-30]`, `[100 + 2^-29]`, drawn in this
order (two draws).  The output is Matched, `[0.5, 50]`, with row 0 reported.
The MAEs of the drawn rows are `50 - 2^-30` and `50 - 2^-29`: the reported
error 50 is not their minimum, and the reported row 0 does not attain it (row 1
does). -/
theorem C19_counterexample :
    FLT_EPSILON < default_accuracy ∧ valid 1 scenario_pixel ∧ close_sim.nrow ≠ 0 ∧
    search ⟨2, default_accuracy⟩ close_sim 1 scenario_pixel (fun n => n) 0 =
      Except.ok (⟨50, 0⟩, 2, 2) ∧
    main_cell ⟨2, default_accuracy⟩ half_lut close_sim 1 scenario_pixel (fun n => n) 0 =
      Except.ok ([some (1 / 2), some 50], 2) ∧
    ([some (1 / 2), some 50] : List (Option ℚ)) ≠ nodata half_lut.ncol ∧
    drawn (fun n => n) 0 close_sim.nrow 0 = 0 ∧ drawn (fun n => n) 0 close_sim.nrow 1 = 1 ∧
    MAE 1 scenario_pixel (close_cells 0) = 50 - 1 / 2 ^ 30 ∧
    MAE 1 scenario_pixel (close_cells 1) = 50 - 1 / 2 ^ 29 ∧
    (50 - 1 / 2 ^ 29 : ℚ) < 50 - 1 / 2 ^ 30 ∧ (50 - 1 / 2 ^ 30 : ℚ) < 50 :=
  ⟨default_accuracy_gt, valid_scenario_pixel, by decide, close_two_search, close_two_cell,
    half_50_ne_nodata, rfl, rfl, MAE_close_0, MAE_close_1, by norm_num, by norm_num⟩

/-- C20 (amended). For a valid pixel, a table with at least one row and any
`rand()` streams: when the stochastic policy returns a Matched result (after
`k` draws, best drawn row `r_j`, computed error `e`), the exhaustive policy on
the same pixel and tables returns a Matched result for a row `i` whose computed
error `e2` is the least computed error of the table, `e >= e2`, and the two are
equal exactly when one of the `k` drawn rows has the least computed error of
the table. -/
theorem C20_stochastic_error_ge_exhaustive (args args2 : args_t) (lut simulations : table_t)
    (nband : ℕ) (image : ℕ → ℤ) (rand rand2 : ℕ → ℕ) (calls calls2 : ℕ)
    (out : List (Option ℚ)) (calls1 : ℕ)
    (hacc : FLT_EPSILON < args.accuracy) (hacc2 : args2.accuracy ≤ FLT_EPSILON)
    (hvalid : valid nband image) (hrow : simulations.nrow ≠ 0)
    (hout : main_cell args lut simulations nband image rand calls = Except.ok (out, calls1))
    (hne : out ≠ nodata lut.ncol) :
    ∃ (k j i : ℕ) (e e2 : ℚ), j < k ∧ i < simulations.nrow ∧ calls1 = calls + k ∧
      mae simulations nband image (drawn rand calls simulations.nrow j) = some e ∧
      mae simulations nband image i = some e2 ∧
      out = matched lut (drawn rand calls simulations.nrow j) e ∧
      main_cell args2 lut simulations nband image rand2 calls2 =
        Except.ok (matched lut i e2, calls2) ∧
      (∀ r, r < simulations.nrow → ∀ w, mae simulations nband image r = some w → e2 ≤ w) ∧
      e2 ≤ e ∧
      (e = e2 ↔
        ∃ j2, j2 < k ∧ ∃ v,
          mae simulations nband image (drawn rand calls simulations.nrow j2) = some v ∧
          ∀ r, r < simulations.nrow → ∀ w, mae simulations nband image r = some w → v ≤ w) := by
  have hskip := (skip_eq_false_iff _ _).mpr hvalid
  rcases stochastic_cases args simulations nband image rand calls hacc with
    ⟨_, k, hk, _, _⟩ | ⟨h0, _⟩ | ⟨h0, _⟩
  · rw [main_cell_ok _ _ _ _ _ _ _ hskip hk] at hout
    injection hout with hout
    injection hout with ho hc
    rcases scan_init_or_found simulations nband image (drawn rand calls simulations.nrow) k
      with hinit | hfound
    · rw [hinit, store_init] at ho
      exact absurd ho.symm hne
    · obtain ⟨j, e, hj, hm, hscan, hle, _⟩ :=
        scan_first_minimum simulations nband image (drawn rand calls simulations.nrow) k hfound
      rw [hscan, store_found] at ho
      obtain ⟨j0, _, hj0⟩ := hfound
      obtain ⟨i, e2, hi, hm2, hscan2, hmin, _⟩ :=
        scan_first_minimum simulations nband image (fun i => i) simulations.nrow
          ⟨drawn rand calls simulations.nrow j0, drawn_lt rand calls hrow j0, hj0⟩
      have hs2 := search_exhaustive args2 simulations nband image rand2 calls2 hacc2
      rw [hscan2] at hs2
      have hmc2 := main_cell_ok args2 lut simulations nband image rand2 calls2 hskip hs2
      rw [store_found] at hmc2
      have hge : e2 ≤ e := hmin _ (drawn_lt rand calls hrow j) e hm
      refine ⟨k, j, i, e, e2, hj, hi, hc.symm, hm, hm2, ho.symm, hmc2, hmin, hge, ?_, ?_⟩
      · intro heq
        exact ⟨j, hj, e, hm, fun r hr w hw => by rw [heq]; exact hmin r hr w hw⟩
      · rintro ⟨j2, hj2, v, hv, hall⟩
        exact le_antisymm (le_trans (hle j2 hj2 v hv) (hall i hi e2 hm2)) hge
  · exact absurd h0 hrow
  · exact absurd h0 hrow

/-- C20 at scenario D against scenario A: the stochastic output
`[0x1.ccccccp-1, 750]` and the exhaustive output of the same pixel and
tables. -/
theorem C20_witness :
    FLT_EPSILON < (10 ^ 6 : ℚ) ∧ (0 : ℚ) ≤ FLT_EPSILON ∧ valid 1 scenario_pixel ∧
    scenario_sim.nrow ≠ 0 ∧
    main_cell ⟨1, 10 ^ 6⟩ scenario_lut scenario_sim 1 scenario_pixel (fun n => n + 1) 0 =
      Except.ok ([some (7549747 / 2 ^ 23), some 750], 1) ∧
    ([some (7549747 / 2 ^ 23), some 750] : List (Option ℚ)) ≠ nodata scenario_lut.ncol ∧
    ∃ (k j i : ℕ) (e e2 : ℚ), j < k ∧ i < scenario_sim.nrow ∧ 1 = 0 + k ∧
      mae scenario_sim 1 scenario_pixel (drawn (fun n => n + 1) 0 scenario_sim.nrow j)
        = some e ∧
      mae scenario_sim 1 scenario_pixel i = some e2 ∧
      ([some (7549747 / 2 ^ 23), some 750] : List (Option ℚ)) =
        matched scenario_lut (drawn (fun n => n + 1) 0 scenario_sim.nrow j) e ∧
      main_cell ⟨1, 0⟩ scenario_lut scenario_sim 1 scenario_pixel (fun _ => 0) 0 =
        Except.ok (matched scenario_lut i e2, 0) ∧
      (∀ r, r < scenario_sim.nrow →
        ∀ w, mae scenario_sim 1 scenario_pixel r = some w → e2 ≤ w) ∧
      e2 ≤ e ∧
      (e = e2 ↔
        ∃ j2, j2 < k ∧ ∃ v,
          mae scenario_sim 1 scenario_pixel (drawn (fun n => n + 1) 0 scenario_sim.nrow j2)
            = some v ∧
          ∀ r, r < scenario_sim.nrow →
            ∀ w, mae scenario_sim 1 scenario_pixel r = some w → v ≤ w) :=
  have h6 : FLT_EPSILON < (10 ^ 6 : ℚ) := by norm_num [FLT_EPSILON]
  have h0 : (0 : ℚ) ≤ FLT_EPSILON := by norm_num [FLT_EPSILON]
  have hrow : scenario_sim.nrow ≠ 0 := by decide
  ⟨h6, h0, valid_scenario_pixel, hrow, scenario_D, scenario_D_ne_nodata,
    C20_stochastic_error_ge_exhaustive ⟨1, 10 ^ 6⟩ ⟨1, 0⟩ scenario_lut scenario_sim 1
      scenario_pixel (fun n => n + 1) (fun _ => 0) 0 0 [some (7549747 / 2 ^ 23), some 750] 1
      h6 h0 valid_scenario_pixel hrow scenario_D scenario_D_ne_nodata⟩

/-- C20 as stated fails: the valid pixel `[150]` and the rows `[100 + 2^-30]`,
`[100 + 2^-29]`.  The stochastic policy (accuracy `1e6`, one iteration, row 0
drawn) reports `[0.5, 50]`, and so does the exhaustive policy: the two errors
are equal, although the only drawn row, row 0 with MAE `50 - 2^-30`, does not
attain the global minimum MAE `50 - 2^-29` of row 1. -/
theorem C20_counterexample :
    FLT_EPSILON < (10 ^ 6 : ℚ) ∧ (0 : ℚ) ≤ FLT_EPSILON ∧ valid 1 scenario_pixel ∧
    close_sim.nrow ≠ 0 ∧
    search ⟨1, 10 ^ 6⟩ close_sim 1 scenario_pixel (fun n => n) 0 =
      Except.ok (⟨50, 0⟩, 1, 1) ∧
    main_cell ⟨1, 10 ^ 6⟩ half_lut close_sim 1 scenario_pixel (fun n => n) 0 =
      Except.ok ([some (1 / 2), some 50], 1) ∧
    ([some (1 / 2), some 50] : List (Option ℚ)) ≠ nodata half_lut.ncol ∧
    main_cell ⟨1, 0⟩ half_lut close_sim 1 scenario_pixel (fun _ => 0) 0 =
      Except.ok ([some (1 / 2), some 50], 0) ∧
    drawn (fun n => n) 0 close_sim.nrow 0 = 0 ∧
    MAE 1 scenario_pixel (close_cells 1) < MAE 1 scenario_pixel (close_cells 0) := by
  refine ⟨by norm_num [FLT_EPSILON], by norm_num [FLT_EPSILON], valid_scenario_pixel,
    by decide, close_draw_search, close_draw_cell, half_50_ne_nodata, close_cell, rfl, ?_⟩
  rw [MAE_close_0, MAE_close_1]
  norm_num

/-! ### Setup of the tables and of the input -/

theorem scale_row_apply (ncol : ℕ) (row : ℕ → Option ℚ) (j : ℕ) :
    scale_row ncol row j =
      if j < ncol then (row j).bind (fun x => to_double (x * 10000)) else row j := by
  unfold scale_row
  induction ncol with
  | zero => simp
  | succ n ih =>
    rw [List.range_succ, List.foldl_append]
    simp only [List.foldl_cons, List.foldl_nil]
    by_cases hj : j = n
    · subst hj
      rw [Function.update_same, ih]
      simp
    · rw [Function.update_noteq hj, ih]
      have : j < n + 1 ↔ j < n := by omega
      simp [this]

theorem scale_rows_apply (ncol : ℕ) (data : ℕ → ℕ → Option ℚ) (nrow i : ℕ) :
    (List.range nrow).foldl (fun d i => Function.update d i (scale_row ncol (d i))) data i =
      if i < nrow then scale_row ncol (data i) else data i := by
  induction nrow with
  | zero => simp
  | succ n ih =>
    rw [List.range_succ, List.foldl_append]
    simp only [List.foldl_cons, List.foldl_nil]
    by_cases hi : i = n
    · subst hi
      rw [Function.update_same, ih]
      simp
    · rw [Function.update_noteq hi, ih]
      have : i < n + 1 ↔ i < n := by omega
      simp [this]

theorem scale_data (simulations : table_t) (i j : ℕ) :
    (scale simulations).data i j =
      if i < simulations.nrow ∧ j < simulations.ncol then
        (simulations.data i j).bind (fun x => to_double (x * 10000))
      else simulations.data i j := by
  simp only [scale]
  rw [scale_rows_apply]
  by_cases hi : i < simulations.nrow
  · rw [if_pos hi, scale_row_apply]
    simp [hi]
  · rw [if_neg hi]
    simp [hi]

theorem bands_ok_iff (raster : raster_t) :
    bands_ok raster = true ↔
      ∀ b, b < raster.nband → raster.datatype b ≤ GDT_Int16 ∧ raster.read_ok b = true := by
  simp [bands_ok, List.all_eq_true]

theorem bands_ok_false_iff (raster : raster_t) :
    bands_ok raster = false ↔
      ∃ b, b < raster.nband ∧ (GDT_Int16 < raster.datatype b ∨ raster.read_ok b = false) := by
  rw [← Bool.not_eq_true, bands_ok_iff]
  push_neg
  constructor
  · rintro ⟨b, hb, h⟩
    refine ⟨b, hb, ?_⟩
    by_cases hd : raster.datatype b ≤ GDT_Int16
    · right
      have := h hd
      simpa using this
    · exact Or.inl (not_le.mp hd)
  · rintro ⟨b, hb, h | h⟩
    · exact ⟨b, hb, fun hd => absurd hd (not_le.mpr h)⟩
    · exact ⟨b, hb, fun _ => by simp [h]⟩

/-- The setup passes exactly when none of its five checks fails. -/
theorem main_setup_ok (lut simulations : table_t) (raster : raster_t)
    (h1 : lut.nrow = simulations.nrow) (h2 : raster.opened = true)
    (h3 : raster.nband = simulations.ncol) (h4 : bands_ok raster = true) :
    main_setup lut simulations raster = Except.ok (lut, scale simulations) := by
  have h3b : ¬ raster.nband ≠ (scale simulations).ncol := not_not.mpr h3
  rw [main_setup, if_neg (not_not.mpr h1), if_neg (by simp [h2]), if_neg h3b,
    if_neg (by simp [h4])]

/-- C11 (amended). With the two tables loaded, the setup fails (the run exits
with `FAILURE`, no cell having been processed) whenever the parameter table and
the observation table differ in their number of rows, and it fails if and only
if the row counts differ, or the input cannot be opened, or its number of bands
is not the number of columns of the observation table, or one of its bands has
a data type beyond `GDT_Int16` or cannot be read.  When it passes, the
parameter table is unchanged and the observation table keeps its shape, each of
its `nrow * ncol` cells replaced by the `double` product of the cell and
10000. -/
theorem C11_setup_fails_iff_a_check_fails (lut simulations : table_t) (raster : raster_t) :
    (lut.nrow ≠ simulations.nrow →
      main_setup lut simulations raster = Except.error FAILURE) ∧
    (main_setup lut simulations raster = Except.error FAILURE ↔
      (lut.nrow ≠ simulations.nrow ∨ raster.opened = false ∨
        raster.nband ≠ simulations.ncol ∨
        ∃ b, b < raster.nband ∧
          (GDT_Int16 < raster.datatype b ∨ raster.read_ok b = false))) ∧
    (∀ r, main_setup lut simulations raster = Except.ok r →
      r.1 = lut ∧ r.2.nrow = simulations.nrow ∧ r.2.ncol = simulations.ncol ∧
      ∀ i j, r.2.data i j =
        if i < simulations.nrow ∧ j < simulations.ncol then
          (simulations.data i j).bind (fun x => to_double (x * 10000))
        else simulations.data i j) ∧
    (lut.nrow = simulations.nrow → raster.opened = true →
      raster.nband = simulations.ncol →
      (∀ b, b < raster.nband → raster.datatype b ≤ GDT_Int16 ∧ raster.read_ok b = true) →
      main_setup lut simulations raster = Except.ok (lut, scale simulations)) := by
  have hfail : main_setup lut simulations raster = Except.error FAILURE ↔
      (lut.nrow ≠ simulations.nrow ∨ raster.opened = false ∨
        raster.nband ≠ simulations.ncol ∨
        ∃ b, b < raster.nband ∧
          (GDT_Int16 < raster.datatype b ∨ raster.read_ok b = false)) := by
    by_cases h1 : lut.nrow ≠ simulations.nrow
    · simp [main_setup, h1]
    · by_cases h2 : raster.opened = false
      · simp [main_setup, h1, h2]
      · by_cases h3 : raster.nband ≠ simulations.ncol
        · have h3b : raster.nband ≠ (scale simulations).ncol := h3
          rw [main_setup, if_neg h1, if_neg h2, if_pos h3b]
          simp [h3]
        · have h3b : ¬ raster.nband ≠ (scale simulations).ncol := h3
          by_cases h4 : bands_ok raster = false
          · rw [main_setup, if_neg h1, if_neg h2, if_neg h3b, if_pos h4]
            have := (bands_ok_false_iff raster).mp h4
            simp [this]
          · rw [main_setup, if_neg h1, if_neg h2, if_neg h3b, if_neg h4]
            have h5 := mt (bands_ok_false_iff raster).mpr h4
            constructor
            · intro h
              cases h
            · rintro (h | h | h | h)
              · exact absurd h h1
              · exact absurd h h2
              · exact absurd h h3
              · exact absurd h h5
  refine ⟨fun h => hfail.mpr (Or.inl h), hfail, ?_, ?_⟩
  · intro r hr
    have hok : main_setup lut simulations raster = Except.ok (lut, scale simulations) := by
      unfold main_setup at hr ⊢
      split_ifs at hr ⊢
      rfl
    rw [hok] at hr
    injection hr with hr
    subst hr
    exact ⟨rfl, rfl, rfl, scale_data simulations⟩
  · intro h1 h2 h3 h4
    exact main_setup_ok lut simulations raster h1 h2 h3 ((bands_ok_iff raster).mpr h4)

theorem scenario_file_0 :
    scenario_file.data 0 0 = some (5764607523034235 / 2 ^ 59) := rfl

theorem scenario_file_1 :
    scenario_file.data 1 0 = some (6485183463413514 / 2 ^ 56) := rfl

/-- C11 at three inputs: a three-row parameter table against scenario A's
two-row simulations (failure), and scenario A's parameter table against the
simulations file `[0.01]`, `[0.09]` with a one-band input (the setup passes,
the simulations scaled to `[100]`, `[900]`). -/
theorem C11_witness :
    three_row_lut.nrow ≠ scenario_file.nrow ∧
    main_setup three_row_lut scenario_file good_raster = Except.error FAILURE ∧
    scenario_lut.nrow = scenario_file.nrow ∧ good_raster.opened = true ∧
    good_raster.nband = scenario_file.ncol ∧
    (∀ b, b < good_raster.nband →
      good_raster.datatype b ≤ GDT_Int16 ∧ good_raster.read_ok b = true) ∧
    main_setup scenario_lut scenario_file good_raster =
      Except.ok (scenario_lut, scale scenario_file) ∧
    (scale scenario_file).nrow = scenario_file.nrow ∧
    (scale scenario_file).ncol = scenario_file.ncol ∧
    (scale scenario_file).data 0 0 = some 100 ∧ (scale scenario_file).data 1 0 = some 900 :=
  have h1 : three_row_lut.nrow ≠ scenario_file.nrow := by decide
  have h2 : scenario_lut.nrow = scenario_file.nrow := rfl
  have h4 : ∀ b, b < good_raster.nband →
      good_raster.datatype b ≤ GDT_Int16 ∧ good_raster.read_ok b = true :=
    fun _ _ => ⟨Nat.le_refl 3, rfl⟩
  have hok := (C11_setup_fails_iff_a_check_fails scenario_lut scenario_file good_raster).2.2.2
    h2 rfl rfl h4
  have hC := (C11_setup_fails_iff_a_check_fails scenario_lut scenario_file good_raster).2.2.1
    _ hok
  ⟨h1, (C11_setup_fails_iff_a_check_fails three_row_lut scenario_file good_raster).1 h1,
    h2, rfl, rfl, h4, hok, hC.2.1, hC.2.2.1,
    by
      rw [hC.2.2.2 0 0, if_pos ⟨by decide, by decide⟩, scenario_file_0, Option.some_bind,
        to_double_scaled_100],
    by
      rw [hC.2.2.2 1 0, if_pos ⟨by decide, by decide⟩, scenario_file_1, Option.some_bind,
        to_double_scaled_900]⟩

/-- C11 as stated fails: scenario A's two tables have equal row counts, and
with a two-band input (the observation table has one column) the setup fails
before any cell is processed; so it does with an input that cannot be
opened. -/
theorem C11_counterexample :
    scenario_lut.nrow = scenario_file.nrow ∧
    main_setup scenario_lut scenario_file two_band_raster = Except.error FAILURE ∧
    main_setup scenario_lut scenario_file ⟨false, 1, fun _ => 3, fun _ => true⟩ =
      Except.error FAILURE := by
  refine ⟨rfl, ?_, ?_⟩
  · rw [main_setup, if_neg (by decide), if_neg (by decide), if_pos (by decide)]
  · rw [main_setup, if_neg (by decide), if_pos rfl]

end RtmInversion

namespace MaxNdvi

open RtmInversion (SHRT_MIN SHRT_MAX)

/-- The inputs the loop of `select` can take over: not skipped, with a ranking
band that is not 0 and above `SHRT_MIN`, the start value of `maximum`. -/
theorem skip_input_eq_false_iff (nband : ℕ) (img : ℕ → ℤ) :
    skip_input nband img = false ↔
      ∀ b, b < nband - 1 → img b ≠ SHRT_MIN ∧ img b ≠ SHRT_MAX := by
  rw [← Bool.not_eq_true]
  simp only [skip_input, List.any_eq_true, List.mem_range, Bool.or_eq_true, beq_iff_eq,
    not_exists, not_and, not_or]

theorem select_succ (n nband : ℕ) (images : ℕ → ℕ → ℤ) :
    select (n + 1) nband images = consider nband images (select n nband images) n := by
  simp [select, List.range_succ, List.foldl_append]

/-- What the loop over the first `n` inputs leaves: the start value when no
input could be taken, else the first input of greatest ranking value among
those that can be taken. -/
theorem select_spec (nband : ℕ) (images : ℕ → ℕ → ℤ) (n : ℕ) :
    (select n nband images = ⟨SHRT_MIN, -1⟩ ∧
      ∀ i, i < n → skip_input nband (images i) = false →
        images i (nband - 1) = 0 ∨ images i (nband - 1) ≤ SHRT_MIN) ∨
    (∃ i, i < n ∧ select n nband images = ⟨images i (nband - 1), (i : ℤ)⟩ ∧
      skip_input nband (images i) = false ∧ images i (nband - 1) ≠ 0 ∧
      SHRT_MIN < images i (nband - 1) ∧
      ∀ k, k < n → skip_input nband (images k) = false → images k (nband - 1) ≠ 0 →
        images k (nband - 1) ≤ images i (nband - 1)) := by
  induction n with
  | zero =>
    left
    exact ⟨by simp [select], fun i hi => absurd hi (Nat.not_lt_zero i)⟩
  | succ n ih =>
    rw [select_succ]
    unfold consider
    cases hskip : skip_input nband (images n) with
    | true =>
      simp only [if_true]
      rcases ih with ⟨hs, hall⟩ | ⟨i, hi, hs, h1, h2, h3, hmax⟩
      · left
        refine ⟨hs, fun k hk hk2 => ?_⟩
        rcases Nat.lt_succ_iff_lt_or_eq.mp hk with hk | hk
        · exact hall k hk hk2
        · subst hk; rw [hskip] at hk2; cases hk2
      · right
        refine ⟨i, Nat.lt_succ_of_lt hi, hs, h1, h2, h3, fun k hk hk2 hk3 => ?_⟩
        rcases Nat.lt_succ_iff_lt_or_eq.mp hk with hk | hk
        · exact hmax k hk hk2 hk3
        · subst hk; rw [hskip] at hk2; cases hk2
    | false =>
      simp only [Bool.false_eq_true, if_false]
      by_cases hc : images n (nband - 1) ≠ 0 ∧
          images n (nband - 1) > (select n nband images).maximum
      · rw [if_pos hc]
        right
        rcases ih with ⟨hs, hall⟩ | ⟨i, hi, hs, _, _, h3, hmax⟩
        · rw [hs] at hc
          refine ⟨n, Nat.lt_succ_self n, rfl, hskip, hc.1, hc.2, fun k hk hk2 hk3 => ?_⟩
          rcases Nat.lt_succ_iff_lt_or_eq.mp hk with hk | hk
          · rcases hall k hk hk2 with h | h
            · exact absurd h hk3
            · exact le_of_lt (lt_of_le_of_lt h hc.2)
          · subst hk; exact le_refl _
        · rw [hs] at hc
          refine ⟨n, Nat.lt_succ_self n, rfl, hskip, hc.1, lt_trans h3 hc.2,
            fun k hk hk2 hk3 => ?_⟩
          rcases Nat.lt_succ_iff_lt_or_eq.mp hk with hk | hk
          · exact le_of_lt (lt_of_le_of_lt (hmax k hk hk2 hk3) hc.2)
          · subst hk; exact le_refl _
      · rw [if_neg hc]
        rcases ih with ⟨hs, hall⟩ | ⟨i, hi, hs, h1, h2, h3, hmax⟩
        · left
          refine ⟨hs, fun k hk hk2 => ?_⟩
          rcases Nat.lt_succ_iff_lt_or_eq.mp hk with hk | hk
          · exact hall k hk hk2
          · subst hk
            rw [hs] at hc
            by_cases h0 : images k (nband - 1) = 0
            · exact Or.inl h0
            · exact Or.inr (not_lt.mp (fun h => hc ⟨h0, h⟩))
        · right
          refine ⟨i, Nat.lt_succ_of_lt hi, hs, h1, h2, h3, fun k hk hk2 hk3 => ?_⟩
          rcases Nat.lt_succ_iff_lt_or_eq.mp hk with hk | hk
          · exact hmax k hk hk2 hk3
          · subst hk
            rw [hs] at hc
            exact not_lt.mp (fun h => hc ⟨hk3, h⟩)

theorem fill_found (nband : ℕ) (images : ℕ → ℕ → ℤ) (m : ℤ) (i : ℕ) :
    fill nband images ⟨m, (i : ℤ)⟩ = (List.range nband).map (images i) := by
  unfold fill
  apply List.map_congr_left
  intro b _
  simp

theorem fill_none (nband : ℕ) (images : ℕ → ℕ → ℤ) (m : ℤ) :
    fill nband images ⟨m, -1⟩ = List.replicate nband SHRT_MIN := by
  unfold fill
  simp [List.map_const']

theorem qualifies_iff {n_input nband : ℕ} {images : ℕ → ℕ → ℤ} (hband : 0 < nband)
    (hshort : shorts n_input nband images) {i : ℕ} (hi : i < n_input) :
    qualifies nband (images i) ↔
      skip_input nband (images i) = false ∧ images i (nband - 1) ≠ 0 ∧
        SHRT_MIN < images i (nband - 1) := by
  have hge := (hshort i (nband - 1) hi (by omega)).1
  rw [skip_input_eq_false_iff]
  unfold qualifies
  constructor
  · rintro ⟨⟨h0, hmin⟩, hb⟩
    exact ⟨hb, h0, lt_of_le_of_ne hge (Ne.symm hmin)⟩
  · rintro ⟨hb, h0, hlt⟩
    exact ⟨⟨h0, ne_of_gt hlt⟩, hb⟩

/-- C12 (amended). Call an input qualifying when its last-band (ranking) value
is neither zero nor `SHRT_MIN` and none of its earlier bands is `SHRT_MIN` or
`SHRT_MAX`.  For every cell of `n_input` inputs of `nband >= 1` bands of type
`short`: if at least one input qualifies, every band of the composite equals
the corresponding band of a qualifying input whose ranking value is the
maximum over all qualifying inputs. -/
theorem C12_composite_is_best_qualifying_input (n_input nband : ℕ) (images : ℕ → ℕ → ℤ)
    (hband : 0 < nband) (hshort : shorts n_input nband images)
    (hq : ∃ i, i < n_input ∧ qualifies nband (images i)) :
    ∃ i, i < n_input ∧ qualifies nband (images i) ∧
      (∀ k, k < n_input → qualifies nband (images k) →
        images k (nband - 1) ≤ images i (nband - 1)) ∧
      compose_cell n_input nband images = some ((List.range nband).map (images i)) := by
  rcases select_spec nband images n_input with ⟨_, hall⟩ | ⟨i, hi, hs, h1, h2, h3, hmax⟩
  · obtain ⟨i, hi, hqi⟩ := hq
    obtain ⟨h1, h2, h3⟩ := (qualifies_iff hband hshort hi).mp hqi
    rcases hall i hi h1 with h | h
    · exact absurd h h2
    · exact absurd h3 (not_lt.mpr h)
  · refine ⟨i, hi, (qualifies_iff hband hshort hi).mpr ⟨h1, h2, h3⟩, fun k hk hqk => ?_, ?_⟩
    · obtain ⟨k1, k2, _⟩ := (qualifies_iff hband hshort hk).mp hqk
      exact hmax k hk k1 k2
    · rw [compose_cell, if_neg (Nat.pos_iff_ne_zero.mp hband), hs, fill_found]

theorem shorts_plain_inputs : shorts 2 2 plain_inputs := by
  intro i b _ _
  unfold plain_inputs
  split <;> split <;> simp [SHRT_MIN, SHRT_MAX]

theorem qualifies_plain_inputs : qualifies 2 (plain_inputs 0) := by
  refine ⟨⟨by decide, by decide⟩, fun b hb => ?_⟩
  have hb0 : b = 0 := by omega
  subst hb0
  exact ⟨by decide, by decide⟩

/-- C12 at the inputs `[100, 500]` and `[200, 700]`. -/
theorem C12_witness :
    0 < 2 ∧ shorts 2 2 plain_inputs ∧ (∃ i, i < 2 ∧ qualifies 2 (plain_inputs i)) ∧
    ∃ i, i < 2 ∧ qualifies 2 (plain_inputs i) ∧
      (∀ k, k < 2 → qualifies 2 (plain_inputs k) →
        plain_inputs k (2 - 1) ≤ plain_inputs i (2 - 1)) ∧
      compose_cell 2 2 plain_inputs = some ((List.range 2).map (plain_inputs i)) :=
  have hq : ∃ i, i < 2 ∧ qualifies 2 (plain_inputs i) := ⟨0, by decide, qualifies_plain_inputs⟩
  ⟨by decide, shorts_plain_inputs, hq,
    C12_composite_is_best_qualifying_input 2 2 plain_inputs (by decide) shorts_plain_inputs hq⟩

/-- The cell of the inputs `[100, 500]` and `[200, 700]`: the composite is
`[200, 700]`. -/
theorem plain_inputs_composite : compose_cell 2 2 plain_inputs = some [200, 700] := by
  decide

/-- C12 as stated fails: of the inputs `[100, 500]` and `[200, 32767]` only the
first qualifies in the sense of the claim (the ranking value of the second is
the sentinel `SHRT_MAX`), yet the composite is `[200, 32767]`, the bands of the
second input, and not the bands of the first. -/
theorem C12_counterexample :
    qualifies_spec 2 (two_inputs 0) ∧ ¬ qualifies_spec 2 (two_inputs 1) ∧
    compose_cell 2 2 two_inputs = some [200, 32767] ∧
    ([200, 32767] : List ℤ) ≠ (List.range 2).map (two_inputs 0) := by
  refine ⟨⟨⟨by decide, by decide, by decide⟩, fun b hb => ?_⟩, ?_, by decide, by decide⟩
  · have hb0 : b = 0 := by omega
    subst hb0
    exact ⟨by decide, by decide⟩
  · intro h
    exact h.1.2.2 (by decide)

/-- C13 (amended). For every cell of `n_input` inputs of `nband >= 1` bands of
type `short`: if no input qualifies (each input has a sentinel in an earlier
band, or a ranking value that is zero or `SHRT_MIN`), every band of the
composite is the sentinel `SHRT_MIN`. -/
theorem C13_composite_is_nodata (n_input nband : ℕ) (images : ℕ → ℕ → ℤ)
    (hband : 0 < nband) (hshort : shorts n_input nband images)
    (hnone : ∀ i, i < n_input → ¬ qualifies nband (images i)) :
    compose_cell n_input nband images = some (List.replicate nband SHRT_MIN) := by
  rcases select_spec nband images n_input with ⟨hs, _⟩ | ⟨i, hi, _, h1, h2, h3, _⟩
  · rw [compose_cell, if_neg (Nat.pos_iff_ne_zero.mp hband), hs, fill_none]
  · exact absurd ((qualifies_iff hband hshort hi).mpr ⟨h1, h2, h3⟩) (hnone i hi)

theorem shorts_zero_input : shorts 1 2 zero_input := by
  intro i b _ _
  unfold zero_input
  split <;> simp [SHRT_MIN, SHRT_MAX]

/-- C13 at the single input `[100, 0]`, whose ranking value is zero. -/
theorem C13_witness :
    0 < 2 ∧ shorts 1 2 zero_input ∧ (∀ i, i < 1 → ¬ qualifies 2 (zero_input i)) ∧
    compose_cell 1 2 zero_input = some (List.replicate 2 SHRT_MIN) :=
  have hnone : ∀ i, i < 1 → ¬ qualifies 2 (zero_input i) :=
    fun _ _ h => h.1.1 (by simp [zero_input])
  ⟨by decide, shorts_zero_input, hnone,
    C13_composite_is_nodata 1 2 zero_input (by decide) shorts_zero_input hnone⟩

/-- C13 as stated fails: the single input `[200, 32767]` does not qualify in
the sense of the claim (its ranking value is the sentinel `SHRT_MAX`), yet the
composite is `[200, 32767]` and not `[SHRT_MIN, SHRT_MIN]`. -/
theorem C13_counterexample :
    (∀ i, i < 1 → ¬ qualifies_spec 2 (one_input i)) ∧
    compose_cell 1 2 one_input = some [200, 32767] ∧
    ([200, 32767] : List ℤ) ≠ List.replicate 2 SHRT_MIN := by
  refine ⟨fun i _ h => h.1.2.2 (by simp [one_input, SHRT_MAX]), by decide, by decide⟩

theorem fill_length (nband : ℕ) (images : ℕ → ℕ → ℤ) (s : best_t) :
    (fill nband images s).length = nband := by
  simp [fill]

theorem map_range_getElem? (f : ℕ → ℤ) (n b : ℕ) (hb : b < n) :
    ((List.range n).map f)[b]? = some (f b) := by
  rw [List.getElem?_map, List.getElem?_range hb]
  rfl

theorem replicate_getElem? (a : ℤ) (n b : ℕ) (hb : b < n) :
    (List.replicate n a)[b]? = some a := by
  rw [List.getElem?_replicate, if_pos hb]

/-- C21. For every cell and every list of inputs with at least two bands: the
cell has a composite of `nband` bands, none of its bands before the ranking
band is `SHRT_MAX`, in particular its first band is not 32767 and
`issue in cell` is not printed; an input selected by the loop (`i_maximum = i`)
is one of the inputs and its ranking value is neither 0 nor `SHRT_MIN`. -/
theorem C21_issue_in_cell_unreachable (n_input nband : ℕ) (images : ℕ → ℕ → ℤ)
    (hband : 2 ≤ nband) :
    (∃ composite, compose_cell n_input nband images = some composite ∧
      composite.length = nband ∧
      (∀ b, b < nband - 1 → composite[b]? ≠ some SHRT_MAX) ∧
      composite[0]? ≠ some 32767 ∧
      issue_in_cell n_input nband images = some false) ∧
    (∀ i : ℕ, (select n_input nband images).i_maximum = (i : ℤ) →
      i < n_input ∧ images i (nband - 1) ≠ 0 ∧ images i (nband - 1) ≠ SHRT_MIN) := by
  have hne : nband ≠ 0 := by omega
  have hcomp : compose_cell n_input nband images =
      some (fill nband images (select n_input nband images)) := by
    rw [compose_cell, if_neg hne]
  have hbands : ∀ b, b < nband - 1 →
      (fill nband images (select n_input nband images))[b]? ≠ some SHRT_MAX := by
    intro b hb
    rcases select_spec nband images n_input with ⟨hs, _⟩ | ⟨i, _, hs, h1, _, _, _⟩
    · rw [hs, fill_none, replicate_getElem? _ _ _ (by omega)]
      simp [SHRT_MIN, SHRT_MAX]
    · rw [hs, fill_found, map_range_getElem? _ _ _ (by omega)]
      intro h
      exact ((skip_input_eq_false_iff nband (images i)).mp h1 b hb).2 (Option.some.inj h)
  have h0 : (fill nband images (select n_input nband images))[0]? ≠ some 32767 :=
    hbands 0 (by omega)
  refine ⟨⟨_, hcomp, fill_length _ _ _, hbands, h0, ?_⟩, ?_⟩
  · rw [issue_in_cell, hcomp]
    simp only [Option.map_some', issue]
    congr 1
    exact beq_false_of_ne h0
  · intro i hi
    rcases select_spec nband images n_input with ⟨hs, _⟩ | ⟨i0, hi0, hs, _, h2, h3, _⟩
    · rw [hs] at hi
      simp only at hi
      omega
    · rw [hs] at hi
      simp only at hi
      have : i0 = i := by exact_mod_cast hi
      subst this
      exact ⟨hi0, h2, ne_of_gt h3⟩

/-- C21 at the three-band inputs `[32767, 100, 900]` and `[100, 200, 700]`:
the first input is skipped although its ranking value is greater, the second
is selected. -/
theorem C21_witness :
    2 ≤ 3 ∧
    (∃ composite, compose_cell 2 3 sentinel_inputs = some composite ∧
      composite.length = 3 ∧
      (∀ b, b < 3 - 1 → composite[b]? ≠ some SHRT_MAX) ∧
      composite[0]? ≠ some 32767 ∧
      issue_in_cell 2 3 sentinel_inputs = some false) ∧
    (select 2 3 sentinel_inputs).i_maximum = ((1 : ℕ) : ℤ) ∧
    (1 < 2 ∧ sentinel_inputs 1 (3 - 1) ≠ 0 ∧ sentinel_inputs 1 (3 - 1) ≠ SHRT_MIN) :=
  have h := C21_issue_in_cell_unreachable 2 3 sentinel_inputs (by decide)
  have hsel : (select 2 3 sentinel_inputs).i_maximum = ((1 : ℕ) : ℤ) := by decide
  ⟨by decide, h.1, hsel, h.2 1 hsel⟩

/-- The cell of the inputs `[32767, 100, 900]` and `[100, 200, 700]`: the
composite is `[100, 200, 700]` and `issue in cell` is not printed. -/
theorem sentinel_inputs_composite :
    compose_cell 2 3 sentinel_inputs = some [100, 200, 700] ∧
    issue_in_cell 2 3 sentinel_inputs = some false := by
  decide

end MaxNdvi

namespace Stats

/-! ### Sums of powers of deviations, in terms of the sums of powers -/

theorem sum_dev2 (x : ℕ → ℚ) (m : ℚ) (n : ℕ) :
    ∑ i in Finset.range n, (x i - m) ^ 2 =
      ∑ i in Finset.range n, x i ^ 2 - 2 * m * ∑ i in Finset.range n, x i + n * m ^ 2 := by
  induction n with
  | zero => simp
  | succ n ih =>
    rw [Finset.sum_range_succ, Finset.sum_range_succ, Finset.sum_range_succ, ih]
    push_cast
    ring

theorem sum_dev3 (x : ℕ → ℚ) (m : ℚ) (n : ℕ) :
    ∑ i in Finset.range n, (x i - m) ^ 3 =
      ∑ i in Finset.range n, x i ^ 3 - 3 * m * ∑ i in Finset.range n, x i ^ 2
        + 3 * m ^ 2 * ∑ i in Finset.range n, x i - n * m ^ 3 := by
  induction n with
  | zero => simp
  | succ n ih =>
    rw [Finset.sum_range_succ, Finset.sum_range_succ, Finset.sum_range_succ,
      Finset.sum_range_succ, ih]
    push_cast
    ring

theorem sum_dev4 (x : ℕ → ℚ) (m : ℚ) (n : ℕ) :
    ∑ i in Finset.range n, (x i - m) ^ 4 =
      ∑ i in Finset.range n, x i ^ 4 - 4 * m * ∑ i in Finset.range n, x i ^ 3
        + 6 * m ^ 2 * ∑ i in Finset.range n, x i ^ 2
        - 4 * m ^ 3 * ∑ i in Finset.range n, x i + n * m ^ 4 := by
  induction n with
  | zero => simp
  | succ n ih =>
    rw [Finset.sum_range_succ, Finset.sum_range_succ, Finset.sum_range_succ,
      Finset.sum_range_succ, Finset.sum_range_succ, ih]
    push_cast
    ring

theorem sum_dev_prod (x y : ℕ → ℚ) (a b : ℚ) (n : ℕ) :
    ∑ i in Finset.range n, (x i - a) * (y i - b) =
      ∑ i in Finset.range n, x i * y i - b * ∑ i in Finset.range n, x i
        - a * ∑ i in Finset.range n, y i + n * a * b := by
  induction n with
  | zero => simp
  | succ n ih =>
    rw [Finset.sum_range_succ, Finset.sum_range_succ, Finset.sum_range_succ,
      Finset.sum_range_succ, ih]
    push_cast
    ring

theorem cast_succ_ne_zero (n : ℕ) : (n : ℚ) + 1 ≠ 0 := by
  have : (0 : ℚ) ≤ n := Nat.cast_nonneg n
  intro h
  linarith

/-! ### One step of each recurrence on the sums of powers -/

theorem kurt_step (n m q c f x : ℚ) (hn : n + 1 ≠ 0) :
    (n + 1) * (kurt_recurrence x
        ⟨m, q - n * m ^ 2, c - 3 * m * q + 2 * n * m ^ 3,
          f - 4 * m * c + 6 * m ^ 2 * q - 3 * n * m ^ 4⟩ (n + 1)).mx = n * m + x ∧
    (kurt_recurrence x
        ⟨m, q - n * m ^ 2, c - 3 * m * q + 2 * n * m ^ 3,
          f - 4 * m * c + 6 * m ^ 2 * q - 3 * n * m ^ 4⟩ (n + 1)).vx =
      (q + x ^ 2) - (n + 1) * (m + (x - m) / (n + 1)) ^ 2 ∧
    (kurt_recurrence x
        ⟨m, q - n * m ^ 2, c - 3 * m * q + 2 * n * m ^ 3,
          f - 4 * m * c + 6 * m ^ 2 * q - 3 * n * m ^ 4⟩ (n + 1)).sx =
      (c + x ^ 3) - 3 * (m + (x - m) / (n + 1)) * (q + x ^ 2)
        + 2 * (n + 1) * (m + (x - m) / (n + 1)) ^ 3 ∧
    (kurt_recurrence x
        ⟨m, q - n * m ^ 2, c - 3 * m * q + 2 * n * m ^ 3,
          f - 4 * m * c + 6 * m ^ 2 * q - 3 * n * m ^ 4⟩ (n + 1)).kx =
      (f + x ^ 4) - 4 * (m + (x - m) / (n + 1)) * (c + x ^ 3)
        + 6 * (m + (x - m) / (n + 1)) ^ 2 * (q + x ^ 2)
        - 3 * (n + 1) * (m + (x - m) / (n + 1)) ^ 4 := by
  simp only [kurt_recurrence]
  refine ⟨?_, ?_, ?_, ?_⟩
  · field_simp
    ring
  · field_simp
    ring
  · field_simp
    ring
  · field_simp
    ring

theorem cov_step (n a b p x y : ℚ) (hn : n + 1 ≠ 0) :
    (n + 1) * (cov_recurrence x y ⟨a, b, p - n * a * b⟩ (n + 1)).mx = n * a + x ∧
    (n + 1) * (cov_recurrence x y ⟨a, b, p - n * a * b⟩ (n + 1)).my = n * b + y ∧
    (cov_recurrence x y ⟨a, b, p - n * a * b⟩ (n + 1)).cv =
      (p + x * y) - (n + 1) * (a + (x - a) / (n + 1)) * (b + (y - b) / (n + 1)) := by
  simp only [cov_recurrence]
  refine ⟨?_, ?_, ?_⟩
  · field_simp
    ring
  · field_simp
    ring
  · field_simp
    ring

/-! ### The loops on the sums of powers -/

/-- After `n` calls, `kurt_loop` holds the mean and the second, third and fourth
sums of the deviations from it, written with the sums of powers. -/
theorem kurt_loop_raw (x : ℕ → ℚ) (n : ℕ) :
    (n : ℚ) * (kurt_loop x n).mx = ∑ i in Finset.range n, x i ∧
    (kurt_loop x n).vx =
      ∑ i in Finset.range n, x i ^ 2 - n * (kurt_loop x n).mx ^ 2 ∧
    (kurt_loop x n).sx =
      ∑ i in Finset.range n, x i ^ 3
        - 3 * (kurt_loop x n).mx * ∑ i in Finset.range n, x i ^ 2
        + 2 * n * (kurt_loop x n).mx ^ 3 ∧
    (kurt_loop x n).kx =
      ∑ i in Finset.range n, x i ^ 4
        - 4 * (kurt_loop x n).mx * ∑ i in Finset.range n, x i ^ 3
        + 6 * (kurt_loop x n).mx ^ 2 * ∑ i in Finset.range n, x i ^ 2
        - 3 * n * (kurt_loop x n).mx ^ 4 := by
  induction n with
  | zero => simp [kurt_loop]
  | succ n ih =>
    simp only [kurt_loop]
    generalize kurt_loop x n = s at ih
    obtain ⟨m, v, sk, k⟩ := s
    simp only at ih
    obtain ⟨h1, h2, h3, h4⟩ := ih
    subst h2 h3 h4
    obtain ⟨e1, e2, e3, e4⟩ := kurt_step n m (∑ i in Finset.range n, x i ^ 2)
      (∑ i in Finset.range n, x i ^ 3) (∑ i in Finset.range n, x i ^ 4) (x n)
      (cast_succ_ne_zero n)
    have hmx : (kurt_recurrence (x n)
        ⟨m, ∑ i in Finset.range n, x i ^ 2 - n * m ^ 2,
          ∑ i in Finset.range n, x i ^ 3 - 3 * m * ∑ i in Finset.range n, x i ^ 2
            + 2 * n * m ^ 3,
          ∑ i in Finset.range n, x i ^ 4 - 4 * m * ∑ i in Finset.range n, x i ^ 3
            + 6 * m ^ 2 * ∑ i in Finset.range n, x i ^ 2 - 3 * n * m ^ 4⟩
        ((n : ℚ) + 1)).mx = m + (x n - m) / ((n : ℚ) + 1) := rfl
    refine ⟨?_, ?_, ?_, ?_⟩
    · rw [Finset.sum_range_succ, ← h1]
      push_cast
      exact e1
    · rw [e2, hmx, Finset.sum_range_succ]
      push_cast
      ring
    · rw [e3, hmx, Finset.sum_range_succ, Finset.sum_range_succ]
      push_cast
      ring
    · rw [e4, hmx, Finset.sum_range_succ, Finset.sum_range_succ, Finset.sum_range_succ]
      push_cast
      ring

theorem skew_loop_eq_kurt_loop (x : ℕ → ℚ) (n : ℕ) :
    (skew_loop x n).mx = (kurt_loop x n).mx ∧ (skew_loop x n).vx = (kurt_loop x n).vx ∧
    (skew_loop x n).sx = (kurt_loop x n).sx := by
  induction n with
  | zero => simp [skew_loop, kurt_loop]
  | succ n ih =>
    obtain ⟨h1, h2, h3⟩ := ih
    refine ⟨?_, ?_, ?_⟩ <;>
      simp only [skew_loop, kurt_loop, skew_recurrence, kurt_recurrence, h1, h2, h3]

theorem var_loop_eq_kurt_loop (x : ℕ → ℚ) (n : ℕ) :
    (var_loop x n).mx = (kurt_loop x n).mx ∧ (var_loop x n).vx = (kurt_loop x n).vx := by
  induction n with
  | zero => simp [var_loop, kurt_loop]
  | succ n ih =>
    obtain ⟨h1, h2⟩ := ih
    have hn := cast_succ_ne_zero n
    refine ⟨?_, ?_⟩
    · simp only [var_loop, kurt_loop, var_recurrence, kurt_recurrence, h1]
    · simp only [var_loop, kurt_loop, var_recurrence, kurt_recurrence, h1, h2]
      field_simp
      ring

/-- After `n` calls, `cov_loop` holds the two means and the sum of the products
of the deviations, written with the sums of products. -/
theorem cov_loop_raw (x y : ℕ → ℚ) (n : ℕ) :
    (n : ℚ) * (cov_loop x y n).mx = ∑ i in Finset.range n, x i ∧
    (n : ℚ) * (cov_loop x y n).my = ∑ i in Finset.range n, y i ∧
    (cov_loop x y n).cv =
      ∑ i in Finset.range n, x i * y i - n * (cov_loop x y n).mx * (cov_loop x y n).my := by
  induction n with
  | zero => simp [cov_loop]
  | succ n ih =>
    simp only [cov_loop]
    generalize cov_loop x y n = s at ih
    obtain ⟨a, b, c⟩ := s
    simp only at ih
    obtain ⟨h1, h2, h3⟩ := ih
    subst h3
    obtain ⟨e1, e2, e3⟩ := cov_step n a b (∑ i in Finset.range n, x i * y i) (x n) (y n)
      (cast_succ_ne_zero n)
    refine ⟨?_, ?_, ?_⟩
    · rw [Finset.sum_range_succ, ← h1]
      push_cast
      exact e1
    · rw [Finset.sum_range_succ, ← h2]
      push_cast
      exact e2
    · rw [e3, Finset.sum_range_succ]
      simp only [cov_recurrence]
      push_cast
      ring

theorem covar_loop_eq (x y : ℕ → ℚ) (n : ℕ) :
    (covar_loop x y n).mx = (cov_loop x y n).mx ∧
    (covar_loop x y n).my = (cov_loop x y n).my ∧
    (covar_loop x y n).cv = (cov_loop x y n).cv ∧
    (covar_loop x y n).vx = (var_loop x n).vx ∧
    (covar_loop x y n).vy = (var_loop y n).vx ∧
    (covar_loop x y n).mx = (var_loop x n).mx ∧
    (covar_loop x y n).my = (var_loop y n).mx := by
  induction n with
  | zero => simp [covar_loop, cov_loop, var_loop]
  | succ n ih =>
    obtain ⟨h1, h2, h3, h4, h5, h6, h7⟩ := ih
    simp only [covar_loop, cov_loop, var_loop, covar_recurrence, cov_recurrence,
      var_recurrence]
    refine ⟨by rw [h1], by rw [h2], by rw [h3, h1, h2], by rw [h4, h6], by rw [h5, h7],
      by rw [h6], by rw [h7]⟩

/-! ### From the sums of powers to the mean and the deviations -/

theorem eq_mean {x : ℕ → ℚ} {k : ℕ} (hk : 0 < k) {m : ℚ}
    (h : (k : ℚ) * m = ∑ i in Finset.range k, x i) : m = mean x k := by
  have hk0 : (k : ℚ) ≠ 0 := Nat.cast_ne_zero.mpr (Nat.pos_iff_ne_zero.mp hk)
  unfold mean
  rw [← h]
  field_simp

theorem mul_mean {x : ℕ → ℚ} {k : ℕ} (hk : 0 < k) :
    (k : ℚ) * mean x k = ∑ i in Finset.range k, x i := by
  have hk0 : (k : ℚ) ≠ 0 := Nat.cast_ne_zero.mpr (Nat.pos_iff_ne_zero.mp hk)
  unfold mean
  field_simp

/-- The mean and the sums of the second, third and fourth powers of the
deviations, as computed by `kurt_loop`. -/
theorem kurt_loop_central (x : ℕ → ℚ) {k : ℕ} (hk : 0 < k) :
    (kurt_loop x k).mx = mean x k ∧ (kurt_loop x k).vx = central 2 x k ∧
    (kurt_loop x k).sx = central 3 x k ∧ (kurt_loop x k).kx = central 4 x k := by
  obtain ⟨h1, h2, h3, h4⟩ := kurt_loop_raw x k
  have hm := eq_mean hk h1
  have hs := mul_mean (x := x) hk
  rw [hm] at h2 h3 h4
  refine ⟨hm, ?_, ?_, ?_⟩
  · rw [h2, central, sum_dev2, ← hs]
    ring
  · rw [h3, central, sum_dev3, ← hs]
    ring
  · rw [h4, central, sum_dev4, ← hs]
    ring

theorem central2_pos (x : ℕ → ℚ) (k : ℕ)
    (h : ∃ i j, i < k ∧ j < k ∧ x i ≠ x j) : 0 < central 2 x k := by
  obtain ⟨i, j, hi, hj, hne⟩ := h
  have hex : ∃ l, l < k ∧ x l - mean x k ≠ 0 := by
    by_cases h1 : x i - mean x k = 0
    · refine ⟨j, hj, fun h2 => hne ?_⟩
      linarith
    · exact ⟨i, hi, h1⟩
  obtain ⟨l, hl, hl0⟩ := hex
  have hle : (x l - mean x k) ^ 2 ≤ central 2 x k :=
    Finset.single_le_sum (f := fun i => (x i - mean x k) ^ 2)
      (fun i _ => sq_nonneg (x i - mean x k)) (Finset.mem_range.mpr hl)
  have hpos : 0 < (x l - mean x k) ^ 2 :=
    lt_of_le_of_ne (sq_nonneg _) (Ne.symm (pow_ne_zero 2 hl0))
  exact lt_of_lt_of_le hpos hle

/-- C16. One-pass variance: for every non-empty sequence `x_1..x_k`, starting
from `mx = vx = 0` and calling `var_recurrence(x_i, &mx, &vx, i)` for
`i = 1..k`, the final `mx` is the arithmetic mean and the final `vx` the sum of
the `(x_i - mean)^2`; for `k >= 2`, `variance(vx, k)` is the sample variance
`sum (x_i - mean)^2 / (k - 1)`, with `k - 1` different from zero. -/
theorem C16_var_recurrence_one_pass (x : ℕ → ℚ) (k : ℕ) (hk : 0 < k) :
    (var_loop x k).mx = mean x k ∧ (var_loop x k).vx = central 2 x k ∧
    (2 ≤ k → (k : ℚ) - 1 ≠ 0 ∧
      variance (var_loop x k).vx k = central 2 x k / ((k : ℚ) - 1)) := by
  obtain ⟨h1, h2⟩ := var_loop_eq_kurt_loop x k
  obtain ⟨c1, c2, _, _⟩ := kurt_loop_central x hk
  refine ⟨h1.trans c1, h2.trans c2, fun hk2 => ⟨?_, ?_⟩⟩
  · have : (2 : ℚ) ≤ k := by exact_mod_cast hk2
    intro h
    linarith
  · rw [variance, h2.trans c2]

/-- C16 on the sequence `1, 2, 4, 7`. -/
theorem C16_witness :
    0 < 4 ∧ 2 ≤ 4 ∧
    (var_loop sample_x 4).mx = mean sample_x 4 ∧
    (var_loop sample_x 4).vx = central 2 sample_x 4 ∧
    ((4 : ℕ) : ℚ) - 1 ≠ 0 ∧
    variance (var_loop sample_x 4).vx (4 : ℕ) = central 2 sample_x 4 / (((4 : ℕ) : ℚ) - 1) :=
  have h := C16_var_recurrence_one_pass sample_x 4 (by decide)
  ⟨by decide, by decide, h.1, h.2.1, (h.2.2 (by decide)).1, (h.2.2 (by decide)).2⟩

/-- C17. One-pass skewness and kurtosis: for every non-empty sequence
`x_1..x_k`, starting from zeros and calling `kurt_recurrence` for `i = 1..k`,
the final values are `mx = mean`, `vx = sum (x_i - mean)^2`,
`sx = sum (x_i - mean)^3` and `kx = sum (x_i - mean)^4`; when the `x_i` are not
all equal, `vx` is not zero and `kurtosis(vx, kx, k)` is the population
kurtosis `(kx / k) / (vx / k)^2`; `skew_recurrence` yields the same `mx`, `vx`
and `sx` on the same sequence. -/
theorem C17_kurt_recurrence_one_pass (x : ℕ → ℚ) (k : ℕ) (hk : 0 < k) :
    (kurt_loop x k).mx = mean x k ∧ (kurt_loop x k).vx = central 2 x k ∧
    (kurt_loop x k).sx = central 3 x k ∧ (kurt_loop x k).kx = central 4 x k ∧
    ((∃ i j, i < k ∧ j < k ∧ x i ≠ x j) →
      (kurt_loop x k).vx ≠ 0 ∧
      kurtosis (kurt_loop x k).vx (kurt_loop x k).kx k =
        (central 4 x k / k) / (central 2 x k / k) ^ 2) ∧
    (skew_loop x k).mx = (kurt_loop x k).mx ∧ (skew_loop x k).vx = (kurt_loop x k).vx ∧
    (skew_loop x k).sx = (kurt_loop x k).sx := by
  obtain ⟨c1, c2, c3, c4⟩ := kurt_loop_central x hk
  refine ⟨c1, c2, c3, c4, fun hne => ?_, skew_loop_eq_kurt_loop x k⟩
  have hk0 : (k : ℚ) ≠ 0 := Nat.cast_ne_zero.mpr (Nat.pos_iff_ne_zero.mp hk)
  have hv : central 2 x k ≠ 0 := ne_of_gt (central2_pos x k hne)
  refine ⟨by rw [c2]; exact hv, ?_⟩
  rw [kurtosis, variance, c2, c4]
  have hk1 : (k : ℚ) + 1 - 1 ≠ 0 := by simpa using hk0
  field_simp
  ring

/-- C17 on the sequence `1, 2, 4, 7`. -/
theorem C17_witness :
    0 < 4 ∧ (∃ i j, i < 4 ∧ j < 4 ∧ sample_x i ≠ sample_x j) ∧
    (kurt_loop sample_x 4).mx = mean sample_x 4 ∧
    (kurt_loop sample_x 4).vx = central 2 sample_x 4 ∧
    (kurt_loop sample_x 4).sx = central 3 sample_x 4 ∧
    (kurt_loop sample_x 4).kx = central 4 sample_x 4 ∧
    ((kurt_loop sample_x 4).vx ≠ 0 ∧
      kurtosis (kurt_loop sample_x 4).vx (kurt_loop sample_x 4).kx (4 : ℕ) =
        (central 4 sample_x 4 / (4 : ℕ)) / (central 2 sample_x 4 / (4 : ℕ)) ^ 2) ∧
    (skew_loop sample_x 4).mx = (kurt_loop sample_x 4).mx ∧
    (skew_loop sample_x 4).vx = (kurt_loop sample_x 4).vx ∧
    (skew_loop sample_x 4).sx = (kurt_loop sample_x 4).sx :=
  have hne : ∃ i j, i < 4 ∧ j < 4 ∧ sample_x i ≠ sample_x j :=
    ⟨0, 1, by decide, by decide, by norm_num [sample_x]⟩
  have h := C17_kurt_recurrence_one_pass sample_x 4 (by decide)
  ⟨by decide, hne, h.1, h.2.1, h.2.2.1, h.2.2.2.1, h.2.2.2.2.1 hne, h.2.2.2.2.2⟩

/-- C18. One-pass covariance: for every non-empty sequence of pairs, starting
from zeros and calling `cov_recurrence` for `i = 1..k`, the final `mx` and `my`
are the means of `x` and `y` and `cv` is `sum (x_i - mx)(y_i - my)`; for
`k >= 2`, `covariance(cv, k)` is the sample covariance (`k - 1` is not zero);
`covar_recurrence` on the same sequence produces the same `mx`, `my`, `cv`, and
the same `vx` (resp. `vy`) as `var_recurrence` run on the `x_i` (resp. `y_i`)
alone. -/
theorem C18_cov_recurrence_one_pass (x y : ℕ → ℚ) (k : ℕ) (hk : 0 < k) :
    (cov_loop x y k).mx = mean x k ∧ (cov_loop x y k).my = mean y k ∧
    (cov_loop x y k).cv = comoment x y k ∧
    (2 ≤ k → (k : ℚ) - 1 ≠ 0 ∧
      covariance (cov_loop x y k).cv k = comoment x y k / ((k : ℚ) - 1)) ∧
    (covar_loop x y k).mx = (cov_loop x y k).mx ∧
    (covar_loop x y k).my = (cov_loop x y k).my ∧
    (covar_loop x y k).cv = (cov_loop x y k).cv ∧
    (covar_loop x y k).vx = (var_loop x k).vx ∧
    (covar_loop x y k).vy = (var_loop y k).vx := by
  obtain ⟨h1, h2, h3⟩ := cov_loop_raw x y k
  have hmx := eq_mean hk h1
  have hmy := eq_mean hk h2
  have hcv : (cov_loop x y k).cv = comoment x y k := by
    rw [h3, hmx, hmy, comoment, sum_dev_prod, ← mul_mean (x := x) hk, ← mul_mean (x := y) hk]
    ring
  obtain ⟨e1, e2, e3, e4, e5, _, _⟩ := covar_loop_eq x y k
  refine ⟨hmx, hmy, hcv, fun hk2 => ⟨?_, ?_⟩, e1, e2, e3, e4, e5⟩
  · have : (2 : ℚ) ≤ k := by exact_mod_cast hk2
    intro h
    linarith
  · rw [covariance, hcv]

/-- C18 on the pairs `(1, 2), (2, 1), (4, 5), (7, 3)`. -/
theorem C18_witness :
    0 < 4 ∧ 2 ≤ 4 ∧
    (cov_loop sample_x sample_y 4).mx = mean sample_x 4 ∧
    (cov_loop sample_x sample_y 4).my = mean sample_y 4 ∧
    (cov_loop sample_x sample_y 4).cv = comoment sample_x sample_y 4 ∧
    (((4 : ℕ) : ℚ) - 1 ≠ 0 ∧
      covariance (cov_loop sample_x sample_y 4).cv (4 : ℕ) =
        comoment sample_x sample_y 4 / (((4 : ℕ) : ℚ) - 1)) ∧
    (covar_loop sample_x sample_y 4).mx = (cov_loop sample_x sample_y 4).mx ∧
    (covar_loop sample_x sample_y 4).my = (cov_loop sample_x sample_y 4).my ∧
    (covar_loop sample_x sample_y 4).cv = (cov_loop sample_x sample_y 4).cv ∧
    (covar_loop sample_x sample_y 4).vx = (var_loop sample_x 4).vx ∧
    (covar_loop sample_x sample_y 4).vy = (var_loop sample_y 4).vx :=
  have h := C18_cov_recurrence_one_pass sample_x sample_y 4 (by decide)
  ⟨by decide, by decide, h.1, h.2.1, h.2.2.1, h.2.2.2.1 (by decide), h.2.2.2.2⟩

end Stats
